import Mathlib

/-!
# River: per-stream event log (`core/node/events/stream.go`)

A shallow embedding of `streamImpl` and of the operations that serialise on it
(`AddEvent`, `ApplyMiniblock`, `PromoteCandidate`, `Sub`, ...), followed by theorems
about them.

Conventions of the embedding:

* a Go `error` is `Option RiverErrorImpl` (`none` is `nil`); a Go `(T, error)` result is
  `Except RiverErrorImpl T`;
* a Go run-time panic (nil dereference, slice bounds, explicit `panic`) is the outer
  `Except String` layer of an operation's result;
* the mutex is not modelled: every operation runs its whole critical section atomically,
  which is what holding `s.mu` for the entire body gives;
* everything the stream does to the outside world (storage calls, registry calls, receiver
  callbacks) is appended, in program order, to `World.trace`;
* the durable storage and the chain registry are external collaborators: their behaviour
  is a parameter (`External`), a state machine over an arbitrary state `σ`;
* `view.go`, `miniblock_info.go` and the event parser are not among the sources: the
  methods `stream.go` calls on them are a parameter (`ViewOps`, and `MiniblockOps` for
  the miniblock functions); `specView` and `specMiniblockOps` are instances written from
  the specification;
* the sync session is not among the sources either: `SyncSession` is written from the
  specification, next to the receive loop of `TestUnstableStreams`
  (`core/node/rpc/service_test.go`), which is embedded from the test;
* `int` is 64 bits wide; `int64` values are `Int`, no arithmetic on them is performed
  except where wrap-around is written out.
-/

namespace River

/-! ## Protocol data -/

/-- Go `[]byte`. -/
abbrev Bytes := List Nat

/-- Error codes of `protocol.Err` used by the stream. -/
inductive ErrCode
  | Err_UNKNOWN
  | Err_NOT_FOUND
  | Err_INTERNAL
  | Err_BAD_SYNC_COOKIE
  | Err_INVALID_ARGUMENT
  | Err_BAD_BLOCK_NUMBER
  | Err_DUPLICATE_EVENT
  | Err_UNAVAILABLE
  deriving DecidableEq, Repr

/-- A Go error value, seen through `AsRiverError`: its code, message and `Func` tag.
The key/value tags of `RiverError(...)` only feed logging and are dropped. -/
structure RiverErrorImpl where
  Code : ErrCode
  Msg : String
  FuncName : String
  deriving DecidableEq, Repr

/-- Go `RiverError(code, msg, tags...)`. -/
def RiverError (code : ErrCode) (msg : String) : RiverErrorImpl :=
  { Code := code, Msg := msg, FuncName := "" }

/-- Go `(*RiverErrorImpl).Func(name)`. -/
def RiverErrorImpl.Func (e : RiverErrorImpl) (name : String) : RiverErrorImpl :=
  { e with FuncName := name }

/-- Go `AsRiverError(err)` on an error that already is a river error. -/
def AsRiverError (e : RiverErrorImpl) : RiverErrorImpl := e

/-- Protocol message `Envelope`: a signed, hashed event blob. -/
structure Envelope where
  Event : Bytes
  Signature : Bytes
  Hash : Bytes
  deriving DecidableEq, Repr

/-- Protocol message `Snapshot` (only the inception setting `stream.go` reads). -/
structure Snapshot where
  DisableMiniblockCreation : Bool
  deriving DecidableEq, Repr

/-- Protocol message `MiniblockHeader`. -/
structure MiniblockHeader where
  MiniblockNum : Int
  PrevMiniblockHash : Bytes
  EventHashes : List Bytes
  Snapshot : Option Snapshot
  deriving DecidableEq, Repr

/-- Protocol message `StreamEvent`; `MiniblockHeader` is the payload read by
`GetMiniblockHeader()` (`none` when the payload is something else). -/
structure StreamEvent where
  PrevMiniblockHash : Bytes
  MiniblockHeader : Option MiniblockHeader
  deriving DecidableEq, Repr

/-- Go `ParsedEvent`. -/
structure ParsedEvent where
  Event : StreamEvent
  Envelope : Envelope
  Hash : Bytes
  deriving DecidableEq, Repr

/-- Protocol message `Miniblock`. -/
structure Miniblock where
  Events : List Envelope
  Header : Envelope
  deriving DecidableEq, Repr

/-- Go `MiniblockInfo`. -/
structure MiniblockInfo where
  Hash : Bytes
  Num : Int
  headerEvent : ParsedEvent
  events : List ParsedEvent
  Proto : Miniblock
  deriving DecidableEq, Repr

/-- Protocol message `SyncCookie`. -/
structure SyncCookie where
  NodeAddress : Bytes
  StreamId : Bytes
  MinipoolGen : Int
  MinipoolSlot : Int
  PrevMiniblockHash : Bytes
  deriving DecidableEq, Repr

/-- Protocol message `StreamAndCookie`. -/
structure StreamAndCookie where
  Events : List Envelope
  NextSyncCookie : SyncCookie
  Miniblocks : List Miniblock
  SyncReset : Bool
  deriving DecidableEq, Repr

/-- Go `shared.StreamId`, as its bytes. -/
abbrev StreamId := Bytes

/-- Modelled from the spec: `StreamId.EqualsBytes` (package `shared`, not among the
sources) compares the id with the cookie's stream id bytes. -/
def StreamId.EqualsBytes (id : StreamId) (b : Bytes) : Bool := decide (id = b)

/-- Go `common.Address`, as its bytes. -/
abbrev Address := Bytes

/-! ## The view -/

/-- The minipool of a view: `events` is the `Values` slice of the ordered map (so
`events.length` is `events.Len()`), `generation` the number of the next miniblock. -/
structure minipoolInstance where
  events : List ParsedEvent
  generation : Int
  deriving DecidableEq, Repr

/-- Go `streamViewImpl`. `stream.go` reads `minipool` and `snapshot`; `streamId` and `blocks`
follow the specification (a contiguous run of miniblocks from the last snapshot). -/
structure streamViewImpl where
  streamId : StreamId
  blocks : List MiniblockInfo
  minipool : minipoolInstance
  snapshot : Snapshot
  deriving DecidableEq, Repr

/-- Go `storage.ReadStreamFromLastSnapshotResult`. -/
structure ReadStreamFromLastSnapshotResult where
  StartMiniblockNumber : Int
  Miniblocks : List Bytes
  MinipoolEnvelopes : List Bytes
  deriving DecidableEq, Repr

/-- On-chain configuration (only the setting `stream.go` reads; a `uint64`). -/
structure ChainConfig where
  RecencyConstraintsGen : Nat
  deriving DecidableEq, Repr

/-- Registry record of a stream, as returned by `GetStreamWithGenesis`. -/
structure StreamRecord where
  Nodes : List Address
  LastMiniblockNum : Nat
  deriving DecidableEq, Repr

/-- Go `StreamNodes` (package `nodes`). -/
structure StreamNodes where
  nodes : List Address
  localNode : Address
  deriving DecidableEq, Repr

/-- Modelled from the spec: `NewStreamNodes` (package `nodes`, not among the sources)
keeps the record's node set and the local node address. -/
def NewStreamNodes (nodes : List Address) (localNode : Address) : StreamNodes :=
  { nodes := nodes, localNode := localNode }

/-- Modelled from the spec: `StreamNodes.IsLocal` (package `nodes`, not among the
sources) holds when the record's node set contains the local node. -/
def StreamNodes.IsLocal (n : StreamNodes) : Bool := decide (n.localNode ∈ n.nodes)

/-! ## Receivers -/

/-- A `SyncResultReceiver`, by identity. Its callbacks are recorded in the trace. -/
abbrev SyncResultReceiver := Nat

/-- Go `mapset.Set[SyncResultReceiver]`: a duplicate-free collection. Its iteration order is
unspecified in Go; `elems` fixes one. -/
structure ReceiverSet where
  elems : List SyncResultReceiver
  nodup : elems.Nodup

/-- Go `mapset.NewSet[SyncResultReceiver]()`. -/
def ReceiverSet.NewSet : ReceiverSet := ⟨[], List.nodup_nil⟩

/-- Go `Set.Add`. -/
def ReceiverSet.Add (rs : ReceiverSet) (r : SyncResultReceiver) : ReceiverSet :=
  ⟨rs.elems.insert r, rs.nodup.insert⟩

/-- Go `Set.Remove`. -/
def ReceiverSet.Remove (rs : ReceiverSet) (r : SyncResultReceiver) : ReceiverSet :=
  ⟨rs.elems.erase r, rs.nodup.erase r⟩

/-- Go `Set.Cardinality`. -/
def ReceiverSet.Cardinality (rs : ReceiverSet) : Nat := rs.elems.length

/-- Go `Set.Iter`. -/
def ReceiverSet.Iter (rs : ReceiverSet) : List SyncResultReceiver := rs.elems

instance : DecidableEq ReceiverSet := fun a b =>
  decidable_of_iff (a.elems = b.elems)
    ⟨fun h => by cases a; cases b; cases h; rfl, fun h => by rw [h]⟩

/-! ## The outside world -/

/-- One interaction of the stream with a collaborator. -/
inductive Effect
  | ReadStreamFromLastSnapshot (streamId : StreamId) (precedingBlocks : Int)
  | WriteEvent (streamId : StreamId) (generation : Int) (slot : Int) (envelope : Bytes)
  | PromoteBlock (streamId : StreamId) (generation : Int) (hash : Bytes) (snapshot : Bool)
      (envelopes : List Bytes)
  | ReadMiniblockCandidate (streamId : StreamId) (hash : Bytes) (num : Int)
  | ReadMiniblocks (streamId : StreamId) (fromInclusive : Int) (toExclusive : Int)
  | WriteBlockProposal (streamId : StreamId) (hash : Bytes) (num : Int) (miniblock : Bytes)
  | CreateStreamStorage (streamId : StreamId) (genesis : Bytes)
  | GetStreamWithGenesis (streamId : StreamId)
  | OnUpdate (receiver : SyncResultReceiver) (r : StreamAndCookie)
  | OnSyncError (receiver : SyncResultReceiver) (err : RiverErrorImpl)
  | OnStreamSyncDown (receiver : SyncResultReceiver) (streamId : StreamId)
  deriving DecidableEq, Repr

/-- State of the collaborators (`store`) and the record of every interaction so far. -/
structure World (σ : Type) where
  store : σ
  trace : List Effect

/-- Record one more interaction. -/
def World.emit {σ : Type} (w : World σ) (st : σ) (e : Effect) : World σ :=
  { store := st, trace := w.trace ++ [e] }

/-- Whether an effect is a callback into a receiver. -/
def Effect.isCallback : Effect → Bool
  | .OnUpdate _ _ => true
  | .OnSyncError _ _ => true
  | .OnStreamSyncDown _ _ => true
  | _ => false

/-- Whether an effect is a call that writes to storage. -/
def Effect.isPromoteBlock : Effect → Bool
  | .PromoteBlock _ _ _ _ _ => true
  | _ => false

/-- The `OnUpdate` payloads delivered to receiver `r`, oldest first. -/
def updatesTo (r : SyncResultReceiver) (trace : List Effect) : List StreamAndCookie :=
  trace.filterMap fun e =>
    match e with
    | .OnUpdate r' resp => if r' = r then some resp else none
    | _ => none

/-- The durable storage and the chain registry, as state machines over `σ`: each call
returns its Go result and the collaborator state after the call. -/
structure External (σ : Type) where
  ReadStreamFromLastSnapshot :
    σ → StreamId → Int → Except RiverErrorImpl ReadStreamFromLastSnapshotResult × σ
  WriteEvent : σ → StreamId → Int → Int → Bytes → Option RiverErrorImpl × σ
  PromoteBlock : σ → StreamId → Int → Bytes → Bool → List Bytes → Option RiverErrorImpl × σ
  ReadMiniblockCandidate : σ → StreamId → Bytes → Int → Except RiverErrorImpl Bytes × σ
  ReadMiniblocks : σ → StreamId → Int → Int → Except RiverErrorImpl (List Bytes) × σ
  WriteBlockProposal : σ → StreamId → Bytes → Int → Bytes → Option RiverErrorImpl × σ
  CreateStreamStorage : σ → StreamId → Bytes → Option RiverErrorImpl × σ
  GetStreamWithGenesis :
    σ → StreamId → Except RiverErrorImpl (StreamRecord × Bytes × Bytes) × σ

/-- The methods of `streamViewImpl`, `minipoolInstance`, `MiniblockInfo` and `ParsedEvent`
that `stream.go` calls; their code is not among the sources. `forEachEvent` threads the
state `α` that the Go closure captures; its callback returns the new state, the
continue flag and the error. -/
structure ViewOps where
  LastBlock : streamViewImpl → MiniblockInfo
  SyncCookie : streamViewImpl → Address → SyncCookie
  nextSlotNumber : minipoolInstance → Int
  copyAndAddEvent : streamViewImpl → ParsedEvent → Except RiverErrorImpl streamViewImpl
  copyAndApplyBlock :
    streamViewImpl → MiniblockInfo → ChainConfig → Except RiverErrorImpl streamViewImpl
  indexOfMiniblockWithNum : streamViewImpl → Int → Except RiverErrorImpl Int
  forEachEvent : {α : Type} → streamViewImpl → Int → α →
    (α → ParsedEvent → Int → Int → α × Bool × Option RiverErrorImpl) →
    α × Option RiverErrorImpl
  MinipoolEnvelopes : streamViewImpl → List Envelope
  MiniblocksFromLastSnapshot : streamViewImpl → List Miniblock
  MakeStreamView : ReadStreamFromLastSnapshotResult → Except RiverErrorImpl streamViewImpl
  GetEnvelopeBytes : ParsedEvent → Except RiverErrorImpl Bytes
  NewMiniblockInfoFromBytes : Bytes → Int → Except RiverErrorImpl MiniblockInfo

/-! ## The stream -/

/-- Go `crypto.Wallet` (only its address). -/
structure Wallet where
  Address : Address
  deriving DecidableEq, Repr

/-- Go `StreamCacheParams`, without the collaborators (which are `External`). -/
structure StreamCacheParams where
  Wallet : Wallet
  ChainConfig : ChainConfig
  deriving DecidableEq, Repr

/-- Go `streamImpl` without its mutex. `view = none` is the unloaded stream, `receivers =
none` the nil set; times are nanoseconds. -/
structure streamImpl where
  params : StreamCacheParams
  streamId : StreamId
  nodes : Option StreamNodes
  view : Option streamViewImpl
  lastAccessedTime : Int
  receivers : Option ReceiverSet
  deriving DecidableEq

/-- What an operation returning a Go `error` yields: the error, the stream and the world
after the call; the outer `Except String` is a panic. -/
abbrev Outcome (σ : Type) := Except String (Option RiverErrorImpl × streamImpl × World σ)

/-- Panic message of a nil pointer dereference. -/
def nilDeref : String := "invalid memory address or nil pointer dereference"

/-- Go `int(x)` for a `uint64` `x`: reinterpretation in 64-bit two's complement. -/
def intOfUint64 (x : Nat) : Int :=
  if x % 2 ^ 64 < 2 ^ 63 then ((x % 2 ^ 64 : Nat) : Int) else ((x % 2 ^ 64 : Nat) : Int) - 2 ^ 64

/-- Wrap an integer into the range of a 64-bit `int`. -/
def wrapInt64 (x : Int) : Int := (x + 2 ^ 63) % 2 ^ 64 - 2 ^ 63

/-- Go `make([]T, 0, cap)`: panics on a negative capacity. -/
def makeSlice (cap : Int) : Except String Unit :=
  if cap < 0 then .error "makeslice: cap out of range" else .ok ()

/-- Go `xs[i:]`: panics unless `0 ≤ i ≤ len(xs)`. -/
def sliceFrom {α : Type} (xs : List α) (i : Int) : Except String (List α) :=
  if i < 0 ∨ (xs.length : Int) < i then .error "slice bounds out of range"
  else .ok (xs.drop i.toNat)

/-! ## Operations of `streamImpl` -/

section Operations

variable {σ : Type}

/-- Go `streamImpl.initFromBlockchain`. -/
def initFromBlockchain (V : ViewOps) (X : External σ) (s : streamImpl) (w : World σ) :
    Option RiverErrorImpl × streamImpl × World σ :=
  let res := X.GetStreamWithGenesis w.store s.streamId
  let w1 := w.emit res.2 (Effect.GetStreamWithGenesis s.streamId)
  match res.1 with
  | .error err => (some err, s, w1)
  | .ok (record, _, mb) =>
    let nodes := NewStreamNodes record.Nodes s.params.Wallet.Address
    if !nodes.IsLocal then
      (some (RiverError ErrCode.Err_INTERNAL "initFromBlockchain: Stream is not local"), s, w1)
    else
      let s1 := { s with nodes := some nodes }
      if record.LastMiniblockNum > 0 then
        (some (RiverError ErrCode.Err_INTERNAL "initFromBlockchain: Stream is past genesis"),
          s1, w1)
      else
        let cr := X.CreateStreamStorage w1.store s1.streamId mb
        let w2 := w1.emit cr.2 (Effect.CreateStreamStorage s1.streamId mb)
        match cr.1 with
        | some err => (some err, s1, w2)
        | none =>
          match V.MakeStreamView
              { StartMiniblockNumber := 0, Miniblocks := [mb], MinipoolEnvelopes := [] } with
          | .error err => (some err, s1, w2)
          | .ok view => (none, { s1 with view := some view }, w2)

/-- Go `streamImpl.loadInternal`. -/
def loadInternal (V : ViewOps) (X : External σ) (s : streamImpl) (w : World σ) :
    Option RiverErrorImpl × streamImpl × World σ :=
  if s.view.isSome then (none, s, w)
  else
    let streamRecencyConstraintsGenerations :=
      intOfUint64 s.params.ChainConfig.RecencyConstraintsGen
    let precedingBlocks := max 0 (wrapInt64 (streamRecencyConstraintsGenerations - 1))
    let res := X.ReadStreamFromLastSnapshot w.store s.streamId precedingBlocks
    let w1 := w.emit res.2 (Effect.ReadStreamFromLastSnapshot s.streamId precedingBlocks)
    match res.1 with
    | .error err =>
      if (AsRiverError err).Code = ErrCode.Err_NOT_FOUND then initFromBlockchain V X s w1
      else (some err, s, w1)
    | .ok streamData =>
      match V.MakeStreamView streamData with
      | .error err => (some err, s, w1)
      | .ok view => (none, { s with view := some view }, w1)

/-- Go `streamImpl.notifySubscribers`; `now` is the reading of `time.Now()`. The third
argument of the Go function, `prevSyncCookie`, is unused there. -/
def notifySubscribers (now : Int) (s : streamImpl) (w : World σ) (envelopes : List Envelope)
    (newSyncCookie : SyncCookie) (_prevSyncCookie : SyncCookie) : streamImpl × World σ :=
  match s.receivers with
  | none => (s, w)
  | some receivers =>
    if receivers.Cardinality > 0 then
      let resp : StreamAndCookie :=
        { Events := envelopes, NextSyncCookie := newSyncCookie, Miniblocks := [],
          SyncReset := false }
      ({ s with lastAccessedTime := now },
        { w with trace := w.trace ++ receivers.Iter.map fun receiver =>
            Effect.OnUpdate receiver resp })
    else (s, w)

/-- Go `streamImpl.addEventImpl`. -/
def addEventImpl (V : ViewOps) (X : External σ) (now : Int) (s : streamImpl) (w : World σ)
    (event : ParsedEvent) : Outcome σ :=
  match V.GetEnvelopeBytes event with
  | .error err => .ok (some err, s, w)
  | .ok envelopeBytes =>
    match s.view with
    | none => .error nilDeref
    | some view =>
      let wr := X.WriteEvent w.store s.streamId view.minipool.generation
        (V.nextSlotNumber view.minipool) envelopeBytes
      let w1 := w.emit wr.2 (Effect.WriteEvent s.streamId view.minipool.generation
        (V.nextSlotNumber view.minipool) envelopeBytes)
      match wr.1 with
      | some err => .ok (some err, s, w1)
      | none =>
        match V.copyAndAddEvent view event with
        | .error err => .ok (some err, s, w1)
        | .ok newSV =>
          let prevSyncCookie := V.SyncCookie view s.params.Wallet.Address
          let s1 := { s with view := some newSV }
          let newSyncCookie := V.SyncCookie newSV s1.params.Wallet.Address
          let out := notifySubscribers now s1 w1 [event.Envelope] newSyncCookie prevSyncCookie
          .ok (none, out.1, out.2)

/-- Go `streamImpl.AddEvent`. -/
def AddEvent (V : ViewOps) (X : External σ) (now : Int) (s : streamImpl) (w : World σ)
    (event : ParsedEvent) : Outcome σ :=
  match loadInternal V X s w with
  | (some err, s1, w1) => .ok (some err, s1, w1)
  | (none, s1, w1) => addEventImpl V X now s1 w1 event

/-- The Go loop collecting `GetEnvelopeBytes` of every event, stopping at the first
failure. -/
def envelopeBytesOf (V : ViewOps) : List ParsedEvent → Except RiverErrorImpl (List Bytes)
  | [] => .ok []
  | e :: es =>
    match V.GetEnvelopeBytes e with
    | .error err => .error err
    | .ok b =>
      match envelopeBytesOf V es with
      | .error err => .error err
      | .ok bs => .ok (b :: bs)

/-- Go `miniblock.headerEvent.Event.GetMiniblockHeader().GetSnapshot() != nil` (the
generated getters return nil on a nil receiver). -/
def headerHasSnapshot (miniblock : MiniblockInfo) : Bool :=
  match miniblock.headerEvent.Event.MiniblockHeader with
  | none => false
  | some h => h.Snapshot.isSome

/-- Go `streamImpl.applyMiniblockImplNoLock`. -/
def applyMiniblockImplNoLock (V : ViewOps) (X : External σ) (now : Int) (s : streamImpl)
    (w : World σ) (miniblock : MiniblockInfo) : Outcome σ :=
  match s.view with
  | none => .error nilDeref
  | some view =>
    if miniblock.Num ≤ (V.LastBlock view).Num then .ok (none, s, w)
    else
      match V.copyAndApplyBlock view miniblock s.params.ChainConfig with
      | .error err => .ok (some err, s, w)
      | .ok newSV =>
        match envelopeBytesOf V newSV.minipool.events with
        | .error err => .ok (some err, s, w)
        | .ok newMinipool =>
          let pr := X.PromoteBlock w.store s.streamId view.minipool.generation miniblock.Hash
            (headerHasSnapshot miniblock) newMinipool
          let w1 := w.emit pr.2 (Effect.PromoteBlock s.streamId view.minipool.generation
            miniblock.Hash (headerHasSnapshot miniblock) newMinipool)
          match pr.1 with
          | some err => .ok (some err, s, w1)
          | none =>
            let prevSyncCookie := V.SyncCookie view s.params.Wallet.Address
            let s1 := { s with view := some newSV }
            let newSyncCookie := V.SyncCookie newSV s1.params.Wallet.Address
            let out := notifySubscribers now s1 w1 [miniblock.headerEvent.Envelope]
              newSyncCookie prevSyncCookie
            .ok (none, out.1, out.2)

/-- Go `streamImpl.ApplyMiniblock`. -/
def ApplyMiniblock (V : ViewOps) (X : External σ) (now : Int) (s : streamImpl) (w : World σ)
    (miniblock : MiniblockInfo) : Outcome σ :=
  if s.view.isNone then
    match loadInternal V X s w with
    | (some err, s1, w1) => .ok (some err, s1, w1)
    | (none, s1, w1) => applyMiniblockImplNoLock V X now s1 w1 miniblock
  else applyMiniblockImplNoLock V X now s w miniblock

/-- The part of Go `streamImpl.PromoteCandidate` that follows the load. -/
def promoteCandidateLoaded (V : ViewOps) (X : External σ) (now : Int) (s : streamImpl)
    (w : World σ) (mbHash : Bytes) (mbNum : Int) : Outcome σ :=
  let rd := X.ReadMiniblockCandidate w.store s.streamId mbHash mbNum
  let w1 := w.emit rd.2 (Effect.ReadMiniblockCandidate s.streamId mbHash mbNum)
  match rd.1 with
  | .error err => .ok (some err, s, w1)
  | .ok miniblockBytes =>
    match V.NewMiniblockInfoFromBytes miniblockBytes mbNum with
    | .error err => .ok (some err, s, w1)
    | .ok miniblock => applyMiniblockImplNoLock V X now s w1 miniblock

/-- Go `streamImpl.PromoteCandidate`. -/
def PromoteCandidate (V : ViewOps) (X : External σ) (now : Int) (s : streamImpl)
    (w : World σ) (mbHash : Bytes) (mbNum : Int) : Outcome σ :=
  if s.view.isNone then
    match loadInternal V X s w with
    | (some err, s1, w1) => .ok (some err, s1, w1)
    | (none, s1, w1) => promoteCandidateLoaded V X now s1 w1 mbHash mbNum
  else promoteCandidateLoaded V X now s w mbHash mbNum

/-- Go: `if s.receivers == nil { s.receivers = mapset.NewSet() }; s.receivers.Add(receiver)`. -/
def addReceiver (s : streamImpl) (receiver : SyncResultReceiver) : streamImpl :=
  match s.receivers with
  | none => { s with receivers := some (ReceiverSet.NewSet.Add receiver) }
  | some rs => { s with receivers := some (rs.Add receiver) }

/-- The callback `Sub` hands to `forEachEvent`: append the envelope, continue, no error. -/
def collectEnvelope (envelopes : List Envelope) (e : ParsedEvent) (_minibockNum : Int)
    (_eventNum : Int) : List Envelope × Bool × Option RiverErrorImpl :=
  (envelopes ++ [e.Envelope], true, none)

/-- The part of Go `streamImpl.Sub` that runs under the lock once the view is loaded. -/
def subLoaded (V : ViewOps) (now : Int) (s1 : streamImpl) (w1 : World σ)
    (cookie : SyncCookie) (receiver : SyncResultReceiver) : Outcome σ :=
  let slot := cookie.MinipoolSlot
  let s2 := { s1 with lastAccessedTime := now }
  match s2.view with
  | none => .error nilDeref
  | some view =>
    if cookie.MinipoolGen = view.minipool.generation then
      if slot > (view.minipool.events.length : Int) then
        .ok (some (RiverError ErrCode.Err_BAD_SYNC_COOKIE "Stream.Sub: bad slot"), s2, w1)
      else
        let s3 := addReceiver s2 receiver
        match makeSlice ((view.minipool.events.length : Int) - slot) with
        | .error p => .error p
        | .ok _ =>
          let tail : Except String (List ParsedEvent) :=
            if slot < (view.minipool.events.length : Int) then
              sliceFrom view.minipool.events slot
            else .ok []
          match tail with
          | .error p => .error p
          | .ok es =>
            let envelopes := es.map fun e => e.Envelope
            .ok (none, s3, { w1 with trace := w1.trace ++ [Effect.OnUpdate receiver
              { Events := envelopes,
                NextSyncCookie := V.SyncCookie view s3.params.Wallet.Address,
                Miniblocks := [], SyncReset := false }] })
    else
      let s3 := addReceiver s2 receiver
      match V.indexOfMiniblockWithNum view cookie.MinipoolGen with
      | .error _ =>
        .ok (none, s3, { w1 with trace := w1.trace ++ [Effect.OnUpdate receiver
          { Events := V.MinipoolEnvelopes view,
            NextSyncCookie := V.SyncCookie view s3.params.Wallet.Address,
            Miniblocks := V.MiniblocksFromLastSnapshot view, SyncReset := true }] })
      | .ok miniblockIndex =>
        match V.forEachEvent view miniblockIndex ([] : List Envelope) collectEnvelope with
        | (_, some err) =>
          .error ("Should never happen: Stream.Sub: forEachEvent failed: " ++ err.Msg)
        | (envelopes, none) =>
          .ok (none, s3, { w1 with trace := w1.trace ++ [Effect.OnUpdate receiver
            { Events := envelopes,
              NextSyncCookie := V.SyncCookie view s3.params.Wallet.Address,
              Miniblocks := [], SyncReset := false }] })

/-- Go `streamImpl.Sub`. -/
def Sub (V : ViewOps) (X : External σ) (now : Int) (s : streamImpl) (w : World σ)
    (cookie : SyncCookie) (receiver : SyncResultReceiver) : Outcome σ :=
  if cookie.NodeAddress ≠ s.params.Wallet.Address then
    .ok (some (RiverError ErrCode.Err_BAD_SYNC_COOKIE "cookies is not for this node"), s, w)
  else if !(StreamId.EqualsBytes s.streamId cookie.StreamId) then
    .ok (some (RiverError ErrCode.Err_BAD_SYNC_COOKIE "bad stream id"), s, w)
  else if cookie.MinipoolSlot < 0 then
    .ok (some ((RiverError ErrCode.Err_BAD_SYNC_COOKIE "bad slot").Func "Stream.Sub"), s, w)
  else
    match loadInternal V X s w with
    | (some err, s1, w1) => .ok (some err, s1, w1)
    | (none, s1, w1) => subLoaded V now s1 w1 cookie receiver

/-- The receivers registered on a stream, in iteration order (none for the nil set). -/
def registered (s : streamImpl) : List SyncResultReceiver :=
  match s.receivers with
  | none => []
  | some rs => rs.Iter

/-- What a load leaves alone: the receivers, the access time, the parameters and the stream
id; it makes no callback and promotes no block. -/
structure LoadFrame (s : streamImpl) (w : World σ)
    (r : Option RiverErrorImpl × streamImpl × World σ) : Prop where
  receivers : r.2.1.receivers = s.receivers
  lastAccessedTime : r.2.1.lastAccessedTime = s.lastAccessedTime
  params : r.2.1.params = s.params
  streamId : r.2.1.streamId = s.streamId
  loaded : r.1 = none → r.2.1.view.isSome = true
  failed : r.1 ≠ none → r.2.1.view = s.view
  quiet : ∃ ext, r.2.2.trace = w.trace ++ ext ∧
    ∀ e ∈ ext, e.isCallback = false ∧ e.isPromoteBlock = false

end Operations

/-! ## The view, from the specification -/

/-- The wire codec of events and miniblocks (protobuf marshalling, hashing and signature
checks): an external collaborator. -/
structure Codec where
  encodeEnvelope : Envelope → Except RiverErrorImpl Bytes
  decodeEvent : Bytes → Except RiverErrorImpl ParsedEvent
  decodeMiniblock : Bytes → Except RiverErrorImpl MiniblockInfo

/-- Go zero value of `MiniblockInfo`. -/
def MiniblockInfo.zero : MiniblockInfo :=
  { Hash := [], Num := 0,
    headerEvent :=
      { Event := { PrevMiniblockHash := [], MiniblockHeader := none },
        Envelope := { Event := [], Signature := [], Hash := [] }, Hash := [] },
    events := [], Proto := { Events := [], Header := { Event := [], Signature := [], Hash := [] } } }

/-- Modelled from the spec: `streamViewImpl.LastBlock` (view.go is not among the sources),
the last miniblock the view holds. A view always holds at least one block; on an empty
block list the zero block stands in. -/
def specLastBlock (v : streamViewImpl) : MiniblockInfo :=
  v.blocks.getLastD MiniblockInfo.zero

/-- Modelled from the spec: `streamViewImpl.SyncCookie` (view.go is not among the sources),
"`{nodeAddr, streamId, generation, minipool.len, view.LastBlock().hash}`". -/
def specSyncCookie (v : streamViewImpl) (nodeAddr : Address) : SyncCookie :=
  { NodeAddress := nodeAddr, StreamId := v.streamId, MinipoolGen := v.minipool.generation,
    MinipoolSlot := (v.minipool.events.length : Int),
    PrevMiniblockHash := (specLastBlock v).Hash }

/-- Modelled from the spec: `minipoolInstance.nextSlotNumber` (not among the sources), "a
slot counter = list length". -/
def specNextSlotNumber (m : minipoolInstance) : Int := (m.events.length : Int)

/-- The events a miniblock contributes to an iteration: its events, then its header event
(the sync test expects "join, miniblock, message, miniblock" from two blocks). -/
def blockEvents (b : MiniblockInfo) : List ParsedEvent := b.events ++ [b.headerEvent]

/-- Every event hash the view holds. -/
def viewHashes (v : streamViewImpl) : List Bytes :=
  ((v.blocks.flatMap blockEvents) ++ v.minipool.events).map fun e => e.Hash

/-- Modelled from the spec: `streamViewImpl.copyAndAddEvent` (view.go is not among the
sources), "a new view identical to the current one but with `e` appended to a cloned
minipool ... Validates event hash uniqueness within the view". -/
def specCopyAndAddEvent (v : streamViewImpl) (e : ParsedEvent) :
    Except RiverErrorImpl streamViewImpl :=
  if e.Hash ∈ viewHashes v then
    .error (RiverError ErrCode.Err_DUPLICATE_EVENT "copyAndAddEvent: event already exists")
  else
    .ok { v with minipool := { v.minipool with events := v.minipool.events ++ [e] } }

/-- Modelled from the spec: `streamViewImpl.copyAndApplyBlock` (view.go is not among the
sources), "a new view where the minipool becomes the sealed block, `generation` advances,
and events in `mb` are removed from the residual minipool. Fails if: `mb.num !=
generation`; parent hash mismatch; events not a subset of minipool; malformed header";
the view keeps only the blocks from the last one that carries a snapshot. -/
def specCopyAndApplyBlock (v : streamViewImpl) (mb : MiniblockInfo) (_cfg : ChainConfig) :
    Except RiverErrorImpl streamViewImpl :=
  match mb.headerEvent.Event.MiniblockHeader with
  | none => .error (RiverError ErrCode.Err_INTERNAL "copyAndApplyBlock: malformed header")
  | some header =>
    if mb.Num ≠ v.minipool.generation then
      .error (RiverError ErrCode.Err_BAD_BLOCK_NUMBER "copyAndApplyBlock: bad block number")
    else if header.PrevMiniblockHash ≠ (specLastBlock v).Hash then
      .error (RiverError ErrCode.Err_INTERNAL "copyAndApplyBlock: parent hash mismatch")
    else if !(mb.events.all fun e => decide (e ∈ v.minipool.events)) then
      .error (RiverError ErrCode.Err_INTERNAL "copyAndApplyBlock: event not in minipool")
    else
      .ok { streamId := v.streamId,
            blocks := if header.Snapshot.isSome then [mb] else v.blocks ++ [mb],
            minipool :=
              { events := v.minipool.events.filter fun e => !decide (e ∈ mb.events),
                generation := v.minipool.generation + 1 },
            snapshot := header.Snapshot.getD v.snapshot }

/-- Position of the first block numbered `n` among `blocks`, counting from `i`. -/
def findBlock (n : Int) : List MiniblockInfo → Int → Option Int
  | [], _ => none
  | b :: bs, i => if b.Num = n then some i else findBlock n bs (i + 1)

/-- Modelled from the spec: `streamViewImpl.indexOfMiniblockWithNum` (view.go is not among
the sources), the index in the view of the miniblock with the given number, an error when
the view holds none. -/
def specIndexOfMiniblockWithNum (v : streamViewImpl) (n : Int) : Except RiverErrorImpl Int :=
  match findBlock n v.blocks 0 with
  | some i => .ok i
  | none =>
    .error (RiverError ErrCode.Err_INVALID_ARGUMENT "indexOfMiniblockWithNum: not found")

/-- Run the callback over `es` (events of block or minipool `num`, positions from `idx`),
stopping at the first error or at the first `false`. -/
def forEachEventIn {α : Type} (num : Int)
    (op : α → ParsedEvent → Int → Int → α × Bool × Option RiverErrorImpl) :
    List ParsedEvent → Int → α → α × Bool × Option RiverErrorImpl
  | [], _, acc => (acc, true, none)
  | e :: es, idx, acc =>
    match op acc e num idx with
    | (acc1, _, some err) => (acc1, false, some err)
    | (acc1, false, none) => (acc1, false, none)
    | (acc1, true, none) => forEachEventIn num op es (idx + 1) acc1

/-- Run the callback over the events of each block in turn. -/
def forEachEventInBlocks {α : Type}
    (op : α → ParsedEvent → Int → Int → α × Bool × Option RiverErrorImpl) :
    List MiniblockInfo → α → α × Bool × Option RiverErrorImpl
  | [], acc => (acc, true, none)
  | b :: bs, acc =>
    match forEachEventIn b.Num op (blockEvents b) 0 acc with
    | (acc1, _, some err) => (acc1, false, some err)
    | (acc1, false, none) => (acc1, false, none)
    | (acc1, true, none) => forEachEventInBlocks op bs acc1

/-- Modelled from the spec: `streamViewImpl.forEachEvent` (view.go is not among the
sources), visiting "all events from that miniblock onward plus the current minipool"; it
fails on a start index outside the view and when the callback fails. -/
def specForEachEvent {α : Type} (v : streamViewImpl) (startBlock : Int) (acc : α)
    (op : α → ParsedEvent → Int → Int → α × Bool × Option RiverErrorImpl) :
    α × Option RiverErrorImpl :=
  if startBlock < 0 ∨ (v.blocks.length : Int) < startBlock then
    (acc, some (RiverError ErrCode.Err_INVALID_ARGUMENT "iterateEvents: bad startBlock"))
  else
    match forEachEventInBlocks op (v.blocks.drop startBlock.toNat) acc with
    | (acc1, _, some err) => (acc1, some err)
    | (acc1, false, none) => (acc1, none)
    | (acc1, true, none) =>
      let r := forEachEventIn v.minipool.generation op v.minipool.events 0 acc1
      (r.1, r.2.2)

/-- Modelled from the spec: `streamViewImpl.MinipoolEnvelopes` (view.go is not among the
sources), the envelopes of the minipool in order. -/
def specMinipoolEnvelopes (v : streamViewImpl) : List Envelope :=
  v.minipool.events.map fun e => e.Envelope

/-- Modelled from the spec: `streamViewImpl.MiniblocksFromLastSnapshot` (view.go is not
among the sources); the view holds exactly the blocks from the last snapshot on. -/
def specMiniblocksFromLastSnapshot (v : streamViewImpl) : List Miniblock :=
  v.blocks.map fun b => b.Proto

/-- Decode every element, failing at the first failure. -/
def decodeAll {α : Type} (f : Bytes → Except RiverErrorImpl α) :
    List Bytes → Except RiverErrorImpl (List α)
  | [] => .ok []
  | b :: bs =>
    match f b with
    | .error err => .error err
    | .ok a =>
      match decodeAll f bs with
      | .error err => .error err
      | .ok as => .ok (a :: as)

/-- Modelled from the spec: `MakeStreamView` (view.go is not among the sources) builds the
view from the miniblocks since the last snapshot and the stored minipool; the minipool
generation is the number after the last block. -/
def specMakeStreamView (C : Codec) (streamId : StreamId)
    (data : ReadStreamFromLastSnapshotResult) : Except RiverErrorImpl streamViewImpl :=
  match decodeAll C.decodeMiniblock data.Miniblocks with
  | .error err => .error err
  | .ok blocks =>
    match blocks.getLast? with
    | none => .error (RiverError ErrCode.Err_INTERNAL "MakeStreamView: no blocks")
    | some last =>
      match decodeAll C.decodeEvent data.MinipoolEnvelopes with
      | .error err => .error err
      | .ok events =>
        .ok { streamId := streamId, blocks := blocks,
              minipool := { events := events, generation := last.Num + 1 },
              snapshot :=
                match (blocks.head?.bind fun b => b.headerEvent.Event.MiniblockHeader).bind
                    fun h => h.Snapshot with
                | some sn => sn
                | none => { DisableMiniblockCreation := false } }

/-- Modelled from the spec: `NewMiniblockInfoFromBytes` (miniblock_info.go is not among the
sources) parses a miniblock and, given a non-negative expected number, rejects a block
with another number. -/
def specNewMiniblockInfoFromBytes (C : Codec) (b : Bytes) (expectedBlockNumber : Int) :
    Except RiverErrorImpl MiniblockInfo :=
  match C.decodeMiniblock b with
  | .error err => .error err
  | .ok mb =>
    if 0 ≤ expectedBlockNumber ∧ mb.Num ≠ expectedBlockNumber then
      .error (RiverError ErrCode.Err_BAD_BLOCK_NUMBER "block number does not equal expected")
    else .ok mb

/-- The view operations as the specification describes them, over a codec, for the stream
`streamId`. -/
def specView (C : Codec) (streamId : StreamId) : ViewOps :=
  { LastBlock := specLastBlock
    SyncCookie := specSyncCookie
    nextSlotNumber := specNextSlotNumber
    copyAndAddEvent := specCopyAndAddEvent
    copyAndApplyBlock := specCopyAndApplyBlock
    indexOfMiniblockWithNum := specIndexOfMiniblockWithNum
    forEachEvent := specForEachEvent
    MinipoolEnvelopes := specMinipoolEnvelopes
    MiniblocksFromLastSnapshot := specMiniblocksFromLastSnapshot
    MakeStreamView := specMakeStreamView C streamId
    GetEnvelopeBytes := fun e => C.encodeEnvelope e.Envelope
    NewMiniblockInfoFromBytes := specNewMiniblockInfoFromBytes C }

/-! ## A small concrete instance

An in-memory storage, a one-byte codec and a few streams, on which the operations can be
evaluated. -/

/-- The event tagged `n`: its envelope and its hash are the single byte `n`. -/
def evt (n : Nat) : ParsedEvent :=
  { Event := { PrevMiniblockHash := [], MiniblockHeader := none },
    Envelope := { Event := [n], Signature := [], Hash := [n] }, Hash := [n] }

/-- The miniblock numbered `num` with hash `[h]`, parent hash `prev`, the given events and,
when `snap` is set, a snapshot in its header. -/
def mkBlock (num : Nat) (h : Nat) (prev : Bytes) (snap : Bool) (events : List Nat) :
    MiniblockInfo :=
  { Hash := [h], Num := (num : Int),
    headerEvent :=
      { Event :=
          { PrevMiniblockHash := prev,
            MiniblockHeader := some
              { MiniblockNum := (num : Int), PrevMiniblockHash := prev,
                EventHashes := events.map fun n => [n],
                Snapshot := if snap then some { DisableMiniblockCreation := false } else none } },
        Envelope := { Event := [h], Signature := [], Hash := [h] }, Hash := [h] },
    events := events.map evt,
    Proto :=
      { Events := events.map fun n => (evt n).Envelope,
        Header := { Event := [h], Signature := [], Hash := [h] } } }

/-- A codec over one-byte events; a miniblock is `num, hash, parent, snapshot flag` followed
by its event tags. -/
def byteCodec : Codec :=
  { encodeEnvelope := fun env => .ok env.Event
    decodeEvent := fun b =>
      match b with
      | [n] => .ok (evt n)
      | _ => .error (RiverError ErrCode.Err_INVALID_ARGUMENT "bad event")
    decodeMiniblock := fun b =>
      match b with
      | num :: h :: parent :: snap :: events =>
        .ok (mkBlock num h (if num = 0 then [] else [parent]) (decide (snap ≠ 0)) events)
      | _ => .error (RiverError ErrCode.Err_INVALID_ARGUMENT "bad miniblock") }

/-- State of the in-memory storage: the stored stream (if any), the saved candidates,
whether event writes fail, and how many of the coming block promotions fail. -/
structure MemStore where
  stream : Option ReadStreamFromLastSnapshotResult
  candidates : List ((Bytes × Int) × Bytes)
  writeFails : Bool
  promoteFailures : Nat
  deriving DecidableEq, Repr

/-- The error the in-memory storage reports for a failed operation. -/
def storageDown : RiverErrorImpl :=
  { Code := ErrCode.Err_UNAVAILABLE, Msg := "storage unavailable", FuncName := "" }

/-- The error the in-memory storage and registry report for a missing record. -/
def notFound : RiverErrorImpl :=
  { Code := ErrCode.Err_NOT_FOUND, Msg := "not found", FuncName := "" }

/-- An in-memory storage (and an empty registry). -/
def memStorage : External MemStore :=
  { ReadStreamFromLastSnapshot := fun st _ _ =>
      match st.stream with
      | some d => (.ok d, st)
      | none => (.error notFound, st)
    WriteEvent := fun st _ _ _ bytes =>
      if st.writeFails then (some storageDown, st)
      else
        (none, { st with stream := st.stream.map fun d =>
          { d with MinipoolEnvelopes := d.MinipoolEnvelopes ++ [bytes] } })
    PromoteBlock := fun st _ _ _ _ envelopes =>
      match st.promoteFailures with
      | n + 1 => (some storageDown, { st with promoteFailures := n })
      | 0 => (none, { st with stream := st.stream.map fun d =>
          { d with MinipoolEnvelopes := envelopes } })
    ReadMiniblockCandidate := fun st _ h n =>
      match st.candidates.lookup (h, n) with
      | some b => (.ok b, st)
      | none => (.error notFound, st)
    ReadMiniblocks := fun st _ _ _ =>
      match st.stream with
      | some d => (.ok d.Miniblocks, st)
      | none => (.error notFound, st)
    WriteBlockProposal := fun st _ h n b =>
      (none, { st with candidates := ((h, n), b) :: st.candidates })
    CreateStreamStorage := fun st _ mb =>
      let d : ReadStreamFromLastSnapshotResult :=
        { StartMiniblockNumber := 0, Miniblocks := [mb], MinipoolEnvelopes := [] }
      (none, { st with stream := some d })
    GetStreamWithGenesis := fun st _ => (.error notFound, st) }

/-- The view operations of the concrete instance, for the stream `[7]`. -/
def demoView : ViewOps := specView byteCodec [7]

/-- What the storage holds for the stream `[7]`: its genesis block (hash `[100]`, with
snapshot) and the given minipool envelopes. -/
def demoStreamData (minipool : List Bytes) : ReadStreamFromLastSnapshotResult :=
  { StartMiniblockNumber := 0, Miniblocks := [[0, 100, 0, 1]], MinipoolEnvelopes := minipool }

/-- A storage holding the stream with its genesis block. -/
def demoStore : MemStore :=
  { stream := some (demoStreamData []), candidates := [], writeFails := false,
    promoteFailures := 0 }

/-- The same storage, refusing event writes. -/
def demoStoreNoWrite : MemStore := { demoStore with writeFails := true }

/-- The same storage, failing the next `n` block promotions. -/
def demoStoreFlaky (n : Nat) : MemStore := { demoStore with promoteFailures := n }

/-- The view of the stream at genesis with events `1` and `2` in the minipool. -/
def demoViewState : streamViewImpl :=
  { streamId := [7], blocks := [mkBlock 0 100 [] true []],
    minipool := { events := [evt 1, evt 2], generation := 1 },
    snapshot := { DisableMiniblockCreation := false } }

/-- An unloaded stream on node `[9]`, no receiver ever subscribed. -/
def demoUnloaded : streamImpl :=
  { params := { Wallet := { Address := [9] }, ChainConfig := { RecencyConstraintsGen := 5 } },
    streamId := [7], nodes := none, view := none, lastAccessedTime := 0, receivers := none }

/-- A loaded stream with receivers `11` and `12` subscribed. -/
def demoLoaded : streamImpl :=
  { demoUnloaded with
    view := some demoViewState
    receivers := some ((ReceiverSet.NewSet.Add 11).Add 12) }

/-- The world around the stream: the given storage state and an empty trace. -/
def demoWorld (st : MemStore) : World MemStore := { store := st, trace := [] }

/-- The miniblock sealing events `1` and `2` as block 1 on top of genesis. -/
def demoBlock : MiniblockInfo := mkBlock 1 101 [100] false [1, 2]

/-- The view `demoViewState` with event `3` admitted. -/
def demoViewAdded : streamViewImpl :=
  { demoViewState with minipool := { events := [evt 1, evt 2, evt 3], generation := 1 } }

/-- The view `demoViewState` with `demoBlock` applied. -/
def demoViewApplied : streamViewImpl :=
  { streamId := [7], blocks := [mkBlock 0 100 [] true [], demoBlock],
    minipool := { events := [], generation := 2 },
    snapshot := { DisableMiniblockCreation := false } }

/-- The update every receiver gets when event `3` is admitted to `demoViewState`. -/
def demoAddUpdate : StreamAndCookie :=
  { Events := [(evt 3).Envelope],
    NextSyncCookie := { NodeAddress := [9], StreamId := [7], MinipoolGen := 1,
                        MinipoolSlot := 3, PrevMiniblockHash := [100] },
    Miniblocks := [], SyncReset := false }

/-- The update every receiver gets when `demoBlock` is applied to `demoViewState`. -/
def demoBlockUpdate : StreamAndCookie :=
  { Events := [demoBlock.headerEvent.Envelope],
    NextSyncCookie := { NodeAddress := [9], StreamId := [7], MinipoolGen := 2,
                        MinipoolSlot := 0, PrevMiniblockHash := [101] },
    Miniblocks := [], SyncReset := false }

/-- The view the stream `[7]` gets when loaded from `demoStore`. -/
def demoGenesisView : streamViewImpl :=
  { streamId := [7], blocks := [mkBlock 0 100 [] true []],
    minipool := { events := [], generation := 1 },
    snapshot := { DisableMiniblockCreation := false } }

/-- A miniblock numbered 1 whose parent hash is not the hash of the genesis block. -/
def demoOrphanBlock : MiniblockInfo := mkBlock 1 101 [55] false [1, 2]

/-- The genesis block offered again. -/
def demoGenesisBlock : MiniblockInfo := mkBlock 0 100 [] true []

/-- The storage holding, besides the stream, the genesis block as a saved candidate. -/
def demoStoreCandidate : MemStore :=
  { demoStore with candidates := [(([100], 0), [0, 100, 0, 1])] }

/-- A cookie for the stream `[7]` on node `[9]`. -/
def demoCookie (gen slot : Int) : SyncCookie :=
  { NodeAddress := [9], StreamId := [7], MinipoolGen := gen, MinipoolSlot := slot,
    PrevMiniblockHash := [100] }

/-- The sync cookie of `demoViewState` on node `[9]`. -/
def demoCurrentCookie : SyncCookie := demoCookie 1 2

/-! ## Further operations of `streamImpl` -/

section MoreOperations

variable {σ : Type}

/-- Go `streamImpl.Unsub`. -/
def Unsub (s : streamImpl) (receiver : SyncResultReceiver) : streamImpl :=
  match s.receivers with
  | none => s
  | some rs => { s with receivers := some (rs.Remove receiver) }

/-- Go `streamImpl.ForceFlush`. -/
def ForceFlush (s : streamImpl) (w : World σ) : streamImpl × World σ :=
  let s1 := { s with view := none }
  let w1 : World σ :=
    match s1.receivers with
    | none => w
    | some rs =>
      if rs.Cardinality > 0 then
        { w with trace := w.trace ++ rs.Iter.map fun r =>
            Effect.OnSyncError r (RiverError ErrCode.Err_INTERNAL "Stream unloaded") }
      else w
  ({ s1 with receivers := none }, w1)

/-- Largest Go `time.Duration` (nanoseconds in an `int64`). -/
def maxDuration : Int := 2 ^ 63 - 1

/-- Smallest Go `time.Duration`. -/
def minDuration : Int := -(2 ^ 63)

/-- Go `time.Since(t)` with `now` the reading of the clock: the difference, saturated to the
range of a `time.Duration`. -/
def timeSince (now t : Int) : Int := max minDuration (min maxDuration (now - t))

/-- Go `streamImpl.tryCleanup`; `now` is the reading of the clock. The function calls no
collaborator and no receiver: the world comes back as it went in. -/
def tryCleanup (now : Int) (s : streamImpl) (w : World σ) (expiration : Int) :
    Bool × streamImpl × World σ :=
  match s.view with
  | none => (true, s, w)
  | some view =>
    let expired := decide (timeSince now s.lastAccessedTime ≥ expiration)
    if expired && view.minipool.events.length == 0 then (true, { s with view := none }, w)
    else (false, s, w)

/-! ## Sequences of calls -/

/-- One call that may advance the log of a stream. -/
inductive Call
  | addEvent (now : Int) (event : ParsedEvent)
  | applyMiniblock (now : Int) (miniblock : MiniblockInfo)
  | promoteCandidate (now : Int) (mbHash : Bytes) (mbNum : Int)
  deriving DecidableEq, Repr

/-- Run one call. -/
def runCall (V : ViewOps) (X : External σ) (c : Call) (s : streamImpl) (w : World σ) :
    Outcome σ :=
  match c with
  | .addEvent now event => AddEvent V X now s w event
  | .applyMiniblock now miniblock => ApplyMiniblock V X now s w miniblock
  | .promoteCandidate now mbHash mbNum => PromoteCandidate V X now s w mbHash mbNum

/-- Run the calls one after the other, each on the stream and world the previous one left
(a call that returns an error leaves the stream usable; a panic ends the run). The result
lists what each call returned. -/
def runCalls (V : ViewOps) (X : External σ) :
    List Call → streamImpl → World σ →
      Except String (List (Option RiverErrorImpl) × streamImpl × World σ)
  | [], s, w => .ok ([], s, w)
  | c :: cs, s, w =>
    match runCall V X c s w with
    | .error p => .error p
    | .ok (res, s1, w1) =>
      match runCalls V X cs s1 w1 with
      | .error p => .error p
      | .ok (rs, s2, w2) => .ok (res :: rs, s2, w2)

/-- The miniblock a call offers to the view: the argument of `ApplyMiniblock`, the candidate
`PromoteCandidate` reads and parses (after its lazy load), nothing for `AddEvent`. -/
def offeredBlock (V : ViewOps) (X : External σ) (c : Call) (s : streamImpl) (w : World σ) :
    Option MiniblockInfo :=
  match c with
  | .addEvent _ _ => none
  | .applyMiniblock _ miniblock => some miniblock
  | .promoteCandidate _ mbHash mbNum =>
    let l := loadInternal V X s w
    match (X.ReadMiniblockCandidate l.2.2.store l.2.1.streamId mbHash mbNum).1 with
    | .error _ => none
    | .ok b =>
      match V.NewMiniblockInfoFromBytes b mbNum with
      | .error _ => none
      | .ok mb => some mb

/-- What a call admits to the log: the envelope of the event when `AddEvent` returns nil;
the header envelope of the offered miniblock when `ApplyMiniblock` or `PromoteCandidate`
returns nil for a miniblock numbered past the last block of the view in place (so that
the view advanced); nothing for a call that failed or was a no-op. -/
def admittedByCall (V : ViewOps) (X : External σ) (c : Call) (s : streamImpl) (w : World σ) :
    List Envelope :=
  match runCall V X c s w with
  | .ok (none, _, _) =>
    match c with
    | .addEvent _ event => [event.Envelope]
    | _ =>
      match offeredBlock V X c s w, (loadInternal V X s w).2.1.view with
      | some mb, some view =>
        if (V.LastBlock view).Num < mb.Num then [mb.headerEvent.Envelope] else []
      | _, _ => []
  | _ => []

/-- What a sequence of calls admits, in call order. -/
def admittedBy (V : ViewOps) (X : External σ) :
    List Call → streamImpl → World σ → List Envelope
  | [], _, _ => []
  | c :: cs, s, w =>
    match runCall V X c s w with
    | .error _ => []
    | .ok (_, s1, w1) => admittedByCall V X c s w ++ admittedBy V X cs s1 w1

/-- The callbacks made to receiver `r`, oldest first. -/
def callbacksTo (r : SyncResultReceiver) (trace : List Effect) : List Effect :=
  trace.filter fun e =>
    match e with
    | .OnUpdate r' _ => decide (r' = r)
    | .OnSyncError r' _ => decide (r' = r)
    | .OnStreamSyncDown r' _ => decide (r' = r)
    | _ => false

/-- The errors signalled to receiver `r` through `OnSyncError`, oldest first. -/
def syncErrorsTo (r : SyncResultReceiver) (trace : List Effect) : List RiverErrorImpl :=
  trace.filterMap fun e =>
    match e with
    | .OnSyncError r' err => if r' = r then some err else none
    | _ => none

/-- The envelopes delivered to receiver `r` through `OnUpdate`, oldest first. -/
def envelopesTo (r : SyncResultReceiver) (trace : List Effect) : List Envelope :=
  (updatesTo r trace).flatMap fun u => u.Events

/-- The `Events` list of each `OnUpdate` delivered to receiver `r`, oldest first. -/
def eventListsTo (r : SyncResultReceiver) (trace : List Effect) : List (List Envelope) :=
  (updatesTo r trace).map fun u => u.Events

/-- Go zero value of `SyncCookie`. -/
def SyncCookie.zero : SyncCookie :=
  { NodeAddress := [], StreamId := [], MinipoolGen := 0, MinipoolSlot := 0,
    PrevMiniblockHash := [] }

/-- What a call that admitted `adm` leaves behind: the receiver set, the parameters and the
stream id are untouched, and the new part of the trace is calls to collaborators followed,
when something was admitted, by one `OnUpdate` carrying `adm` for each registered
receiver. -/
structure StepFrame (s : streamImpl) (w : World σ) (adm : List Envelope)
    (out : Option RiverErrorImpl × streamImpl × World σ) : Prop where
  receivers : out.2.1.receivers = s.receivers
  params : out.2.1.params = s.params
  streamId : out.2.1.streamId = s.streamId
  trace : ∃ quiet cookie, (∀ x ∈ quiet, x.isCallback = false) ∧
    out.2.2.trace = w.trace ++ (quiet ++
      if adm = [] then []
      else (registered s).map fun r =>
        Effect.OnUpdate r
          { Events := adm, NextSyncCookie := cookie, Miniblocks := [], SyncReset := false })

end MoreOperations

/-! ## Replaying a view to a cookie -/

/-- The envelopes of the view from block index `i` on: the events of each block and its
header, then the minipool. -/
def replayFrom (v : streamViewImpl) (i : Nat) : List Envelope :=
  ((v.blocks.drop i).flatMap blockEvents ++ v.minipool.events).map fun e => e.Envelope

/-- The view `v` still accounts for the envelopes `A` admitted since a cookie of generation
`g` was issued over a minipool with envelopes `m0`: while the generation is `g` the
minipool is `m0` followed by `A`; later, as long as the view holds the block numbered
`g`, every envelope of `A` is in the replay from that block. Blocks are numbered below the
generation throughout. -/
structure Covers (g : Int) (m0 A : List Envelope) (v : streamViewImpl) : Prop where
  blocks_lt : ∀ b ∈ v.blocks, b.Num < v.minipool.generation
  gen_le : g ≤ v.minipool.generation
  same : v.minipool.generation = g → v.minipool.events.map (fun e => e.Envelope) = m0 ++ A
  later : g < v.minipool.generation → ∀ i, findBlock g v.blocks 0 = some i →
    ∀ x ∈ A, x ∈ replayFrom v i.toNat

/-! ## More of the concrete instance -/

/-- A loaded stream at genesis with an empty minipool, receivers `11` and `12` subscribed,
last used at time 0. -/
def demoIdle : streamImpl :=
  { demoLoaded with view := some demoGenesisView }

/-- Three calls on the loaded stream: admit event `3`, apply `demoBlock`, and offer event
`3` once more (which is rejected as a duplicate). -/
def demoCalls : List Call :=
  [Call.addEvent 5 (evt 3), Call.applyMiniblock 6 demoBlock, Call.addEvent 7 (evt 3)]

/-- The error `ForceFlush` signals. -/
def streamUnloaded : RiverErrorImpl := RiverError ErrCode.Err_INTERNAL "Stream unloaded"

/-- The stream after `demoBlock` was applied to the loaded stream at time 6. -/
def demoApplied : streamImpl :=
  { demoLoaded with view := some demoViewApplied, lastAccessedTime := 6 }

/-- The world after `demoBlock` was applied to the loaded stream. -/
def demoAppliedWorld : World MemStore :=
  { store := demoStore,
    trace := [Effect.PromoteBlock [7] 1 [101] false [],
      Effect.OnUpdate 12 demoBlockUpdate, Effect.OnUpdate 11 demoBlockUpdate] }

/-- The view at genesis with event `3` in the minipool. -/
def demoGenesisAdded : streamViewImpl :=
  { demoGenesisView with minipool := { events := [evt 3], generation := 1 } }

/-- The update every receiver gets when event `3` is admitted to the view at genesis. -/
def demoFirstUpdate : StreamAndCookie :=
  { Events := [(evt 3).Envelope], NextSyncCookie := demoCookie 1 1,
    Miniblocks := [], SyncReset := false }

/-- The idle stream after event `3` was admitted at time 5. -/
def demoIdleAdded : streamImpl :=
  { demoIdle with view := some demoGenesisAdded, lastAccessedTime := 5 }

/-- The world after event `3` was admitted to the idle stream. -/
def demoIdleAddedWorld : World MemStore :=
  { store := { demoStore with stream := some (demoStreamData [[3]]) },
    trace := [Effect.WriteEvent [7] 1 0 [3], Effect.OnUpdate 12 demoFirstUpdate,
      Effect.OnUpdate 11 demoFirstUpdate] }

/-! ## Reading operations of `streamImpl` -/

section ReadOperations

variable {σ : Type}

/-- Go `NewMiniblockInfoFromProtoOpts`. -/
structure NewMiniblockInfoFromProtoOpts where
  ExpectedBlockNumber : Int
  DontParseEvents : Bool
  deriving DecidableEq, Repr

/-- The functions of `MiniblockInfo` that `GetMiniblocks` and `SaveMiniblockCandidate` call;
their code is not among the sources. `header` is the pointer `miniblock.header()` returns
(`none` for nil). -/
structure MiniblockOps where
  header : MiniblockInfo → Option MiniblockHeader
  NewMiniblockInfoFromProto :
    Miniblock → NewMiniblockInfoFromProtoOpts → Except RiverErrorImpl MiniblockInfo
  ToBytes : MiniblockInfo → Except RiverErrorImpl Bytes

/-- Go `streamImpl.getView`: the view pointer it returns (`none` for nil) and the error;
`now` is the reading of `time.Now()`, taken only when the view has to be loaded. -/
def getView (V : ViewOps) (X : External σ) (now : Int) (s : streamImpl) (w : World σ) :
    (Option streamViewImpl × Option RiverErrorImpl) × streamImpl × World σ :=
  match s.view with
  | some view => ((some view, none), s, w)
  | none =>
    let s1 := { s with lastAccessedTime := now }
    match loadInternal V X s1 w with
    | (some err, s2, w2) => ((none, some err), s2, w2)
    | (none, s2, w2) => ((s2.view, none), s2, w2)

/-- The loop of Go `streamImpl.GetMiniblocks` over the blocks read from storage, from index
`i` on, with `startMiniblockNumber` the value of that variable on entry. The inner result is
the filled part of `miniblocks`, or the parse error that ends the loop. -/
def parseMiniblocks (V : ViewOps) (M : MiniblockOps) :
    List Bytes → Nat → Int → Except String (Except RiverErrorImpl (List Miniblock))
  | [], _, _ => .ok (.ok [])
  | binMiniblock :: rest, i, startMiniblockNumber =>
    match V.NewMiniblockInfoFromBytes binMiniblock
        (wrapInt64 (startMiniblockNumber + (i : Int))) with
    | .error err => .ok (.error err)
    | .ok miniblock =>
      let start1 : Except String Int :=
        if i = 0 then
          match M.header miniblock with
          | none => .error nilDeref
          | some h => .ok h.MiniblockNum
        else .ok startMiniblockNumber
      match start1 with
      | .error p => .error p
      | .ok start2 =>
        match parseMiniblocks V M rest (i + 1) start2 with
        | .error p => .error p
        | .ok (.error err) => .ok (.error err)
        | .ok (.ok ms) => .ok (.ok (miniblock.Proto :: ms))

/-- Go `streamImpl.GetMiniblocks`: the slice (`none` for nil), the terminus flag and the
error, with the stream and the world after the call. -/
def GetMiniblocks (V : ViewOps) (M : MiniblockOps) (X : External σ) (s : streamImpl)
    (w : World σ) (fromInclusive : Int) (toExclusive : Int) :
    Except String ((Option (List Miniblock) × Bool × Option RiverErrorImpl) ×
      streamImpl × World σ) :=
  let rd := X.ReadMiniblocks w.store s.streamId fromInclusive toExclusive
  let w1 := w.emit rd.2 (Effect.ReadMiniblocks s.streamId fromInclusive toExclusive)
  match rd.1 with
  | .error err => .ok ((none, false, some err), s, w1)
  | .ok blocks =>
    match parseMiniblocks V M blocks 0 (-1) with
    | .error p => .error p
    | .ok (.error err) => .ok ((none, false, some err), s, w1)
    | .ok (.ok miniblocks) =>
      let terminus := decide (fromInclusive = 0)
      .ok ((some miniblocks, terminus, none), s, w1)

/-- Go `streamImplStatus`. -/
structure streamImplStatus where
  loaded : Bool
  numMinipoolEvents : Int
  numSubscribers : Int
  lastAccess : Int
  deriving DecidableEq, Repr

/-- Go `streamImpl.getStatus`. `s.receivers.Cardinality()` is a method call on the
interface value `s.receivers`, made without a nil check. -/
def getStatus (s : streamImpl) : Except String streamImplStatus :=
  match s.receivers with
  | none => .error nilDeref
  | some receivers =>
    let ret : streamImplStatus :=
      { loaded := false, numMinipoolEvents := 0,
        numSubscribers := (receivers.Cardinality : Int), lastAccess := s.lastAccessedTime }
    match s.view with
    | some view =>
      .ok { ret with loaded := true, numMinipoolEvents := (view.minipool.events.length : Int) }
    | none => .ok ret

/-- Go `streamImpl.SaveMiniblockCandidate`. -/
def SaveMiniblockCandidate (V : ViewOps) (M : MiniblockOps) (X : External σ) (now : Int)
    (s : streamImpl) (w : World σ) (mb : Miniblock) : Outcome σ :=
  match M.NewMiniblockInfoFromProto mb { ExpectedBlockNumber := -1, DontParseEvents := true } with
  | .error err => .ok (some err, s, w)
  | .ok mbInfo =>
    match M.ToBytes mbInfo with
    | .error err => .ok (some err, s, w)
    | .ok serialized =>
      match getView V X now s w with
      | ((_, some err), s1, w1) => .ok (some err, s1, w1)
      | ((none, none), _, _) => .error nilDeref
      | ((some view, none), s1, w1) =>
        if mbInfo.Num ≤ (V.LastBlock view).Num then
          .ok (some (RiverError ErrCode.Err_INTERNAL "Miniblock is too old"), s1, w1)
        else
          let wr := X.WriteBlockProposal w1.store s1.streamId mbInfo.Hash mbInfo.Num serialized
          .ok (wr.1, s1, w1.emit wr.2
            (Effect.WriteBlockProposal s1.streamId mbInfo.Hash mbInfo.Num serialized))

/-- Whether an effect is a call of `WriteBlockProposal`. -/
def Effect.isWriteBlockProposal : Effect → Bool
  | .WriteBlockProposal _ _ _ _ => true
  | _ => false

/-- Whether an effect is one of the calls a load of the view makes: the read of the stream
from storage, the lookup in the registry, the creation of the stream in storage. -/
def Effect.isLoadCall : Effect → Bool
  | .ReadStreamFromLastSnapshot _ _ => true
  | .GetStreamWithGenesis _ => true
  | .CreateStreamStorage _ _ => true
  | _ => false

end ReadOperations

/-! ## The miniblock functions, from the specification -/

/-- Modelled from the spec: `MiniblockInfo.header`, `NewMiniblockInfoFromProto` and
`MiniblockInfo.ToBytes` (miniblock_info.go is not among the sources), over a codec: the
header is the miniblock header carried by the header event; a miniblock message is parsed
by re-encoding and decoding it, rejecting another number than a non-negative expected one;
`encodeMiniblock` is the wire encoding of a parsed miniblock. -/
def specMiniblockOps (decodeProto : Miniblock → Except RiverErrorImpl MiniblockInfo)
    (encodeMiniblock : MiniblockInfo → Except RiverErrorImpl Bytes) : MiniblockOps :=
  { header := fun b => b.headerEvent.Event.MiniblockHeader
    NewMiniblockInfoFromProto := fun mb opts =>
      match decodeProto mb with
      | .error err => .error err
      | .ok info =>
        if 0 ≤ opts.ExpectedBlockNumber ∧ info.Num ≠ opts.ExpectedBlockNumber then
          .error (RiverError ErrCode.Err_BAD_BLOCK_NUMBER "block number does not equal expected")
        else .ok info
    ToBytes := encodeMiniblock }

/-! ## The sync session -/

/-- Protocol enum `SyncOp`. -/
inductive SyncOp
  | SYNC_UNSPECIFIED
  | SYNC_NEW
  | SYNC_CLOSE
  | SYNC_UPDATE
  | SYNC_PONG
  | SYNC_DOWN
  deriving DecidableEq, Repr

/-- Protocol message `SyncStreamsResponse`. -/
structure SyncStreamsResponse where
  SyncId : String
  SyncOp : SyncOp
  Stream : Option StreamAndCookie
  PongNonce : String
  StreamId : Bytes
  deriving DecidableEq, Repr

/-- Go `SyncStreamsResponseFromStreamAndCookie`. -/
def SyncStreamsResponseFromStreamAndCookie (result : StreamAndCookie) : SyncStreamsResponse :=
  { SyncId := "", SyncOp := SyncOp.SYNC_UNSPECIFIED, Stream := some result, PongNonce := "",
    StreamId := [] }

/-- One turn of the receive loop of Go `TestUnstableStreams` on the message `msg`:
`streamDownMessages` is the set of streams whose last message was a `SYNC_DOWN`; an error is
a failed assertion of the test. Stream ids are taken as bytes (`StreamIdFromBytes` is the
identity on well-formed ids); the collecting of cookies and message texts is left out. -/
def receiveStep (syncID : String) (streamDownMessages : List StreamId)
    (msg : SyncStreamsResponse) : Except String (List StreamId) :=
  match msg.SyncOp with
  | .SYNC_NEW => .ok streamDownMessages
  | .SYNC_UPDATE =>
    if syncID ≠ msg.SyncId then .error "sync id"
    else
      match msg.Stream with
      | none => .error "stream"
      | some stream =>
        .ok (streamDownMessages.filter fun id => !decide (id = stream.NextSyncCookie.StreamId))
  | .SYNC_DOWN =>
    if syncID ≠ msg.SyncId then .error "sync id"
    else if msg.StreamId ∈ streamDownMessages then
      .error "received a second down message in a row for a stream"
    else .ok (msg.StreamId :: streamDownMessages)
  | .SYNC_CLOSE =>
    if syncID ≠ msg.SyncId then .error "invalid sync id in sync close message"
    else .ok streamDownMessages
  | .SYNC_UNSPECIFIED => .ok streamDownMessages
  | .SYNC_PONG => .ok streamDownMessages

/-- The receive loop of Go `TestUnstableStreams` over the messages of a session, in order. -/
def receiveLoop (syncID : String) :
    List SyncStreamsResponse → List StreamId → Except String (List StreamId)
  | [], streamDownMessages => .ok streamDownMessages
  | msg :: rest, streamDownMessages =>
    match receiveStep syncID streamDownMessages msg with
    | .error e => .error e
    | .ok next => receiveLoop syncID rest next

/-- Modelled from the spec: the state of a SyncSession (the sync handler is not among the
sources), "`syncId` ..., a map `streamId → receiver`, a bounded outbound queue of
`SyncStreamsResponse`, and lifecycle flags". `subs` lists the streams with a live
sub-subscription, `down` the streams flagged down ("cleared on next UPDATE for that
stream"), `closed` is the lifecycle flag, and `out` is every message given to the outbound
queue, oldest first. -/
structure SyncSession where
  syncId : String
  subs : List StreamId
  down : List StreamId
  closed : Bool
  out : List SyncStreamsResponse
  deriving DecidableEq, Repr

/-- Modelled from the spec: what happens to a SyncSession (the sync handler is not among
the sources). `addStream` is `AddStreamToSync` (or an initial cookie of `SyncStreams`) whose
`Sub` succeeded and answered with the catch-up update; `onUpdate` is an update a sub
delivers; `onSyncError` and `onStreamSyncDown` are "any sub reporting `OnSyncError` or the
owning node losing the stream"; `queueFull` is the slow-client policy, with whether a
`SYNC_CLOSE` could still be emitted. -/
inductive SessionInput
  | addStream (catchUp : StreamAndCookie)
  | removeStream (streamId : StreamId)
  | onUpdate (r : StreamAndCookie)
  | onSyncError (streamId : StreamId)
  | onStreamSyncDown (streamId : StreamId)
  | ping (nonce : String)
  | cancel
  | queueFull (closeEmitted : Bool)
  deriving DecidableEq, Repr

/-- Modelled from the spec: the `SYNC_UPDATE` message, "carries `{syncId, stream:
StreamAndCookie}`". -/
def syncUpdate (syncId : String) (r : StreamAndCookie) : SyncStreamsResponse :=
  { SyncStreamsResponseFromStreamAndCookie r with SyncId := syncId, SyncOp := SyncOp.SYNC_UPDATE }

/-- Modelled from the spec: the `SYNC_DOWN` message, "`{syncId, streamId}`". -/
def syncDown (syncId : String) (streamId : StreamId) : SyncStreamsResponse :=
  { SyncId := syncId, SyncOp := SyncOp.SYNC_DOWN, Stream := none, PongNonce := "",
    StreamId := streamId }

/-- Modelled from the spec: a message that carries only the sync id and, for a pong, the
nonce (`SYNC_NEW`, `SYNC_PONG`, `SYNC_CLOSE`). -/
def syncControl (syncId : String) (op : SyncOp) (nonce : String) : SyncStreamsResponse :=
  { SyncId := syncId, SyncOp := op, Stream := none, PongNonce := nonce, StreamId := [] }

/-- Modelled from the spec: `SyncStreams` opens the session and "emits `SYNC_NEW` first". -/
def SyncSession.start (syncId : String) : SyncSession :=
  { syncId := syncId, subs := [], down := [], closed := false,
    out := [syncControl syncId SyncOp.SYNC_NEW ""] }

/-- Modelled from the spec: the sub of a stream went down: "emit `SYNC_DOWN` and drop that
sub", a stream already flagged down emitting no second `SYNC_DOWN`. -/
def SyncSession.streamDown (sess : SyncSession) (streamId : StreamId) : SyncSession :=
  if sess.closed ∨ streamId ∉ sess.subs then sess
  else if streamId ∈ sess.down then
    { sess with subs := sess.subs.filter fun id => !decide (id = streamId) }
  else
    { sess with
      subs := sess.subs.filter fun id => !decide (id = streamId)
      down := streamId :: sess.down
      out := sess.out ++ [syncDown sess.syncId streamId] }

/-- Modelled from the spec: one step of a SyncSession (§4.4; the sync handler is not among
the sources). A closed session emits nothing more; an update is forwarded for a stream with
a live sub and clears its down flag; a ping is answered by a pong; `CancelSync` "issues
`SYNC_CLOSE` and tears down all sub-subscriptions"; a full queue cancels the session. -/
def SyncSession.step (sess : SyncSession) (input : SessionInput) : SyncSession :=
  match input with
  | .addStream catchUp =>
    if sess.closed then sess
    else
      { sess with
        subs := catchUp.NextSyncCookie.StreamId ::
          sess.subs.filter fun id => !decide (id = catchUp.NextSyncCookie.StreamId)
        down := sess.down.filter fun id => !decide (id = catchUp.NextSyncCookie.StreamId)
        out := sess.out ++ [syncUpdate sess.syncId catchUp] }
  | .removeStream streamId =>
    if sess.closed then sess
    else { sess with subs := sess.subs.filter fun id => !decide (id = streamId) }
  | .onUpdate r =>
    if sess.closed ∨ r.NextSyncCookie.StreamId ∉ sess.subs then sess
    else
      { sess with
        down := sess.down.filter fun id => !decide (id = r.NextSyncCookie.StreamId)
        out := sess.out ++ [syncUpdate sess.syncId r] }
  | .onSyncError streamId => sess.streamDown streamId
  | .onStreamSyncDown streamId => sess.streamDown streamId
  | .ping nonce =>
    if sess.closed then sess
    else { sess with out := sess.out ++ [syncControl sess.syncId SyncOp.SYNC_PONG nonce] }
  | .cancel =>
    if sess.closed then sess
    else
      { sess with
        subs := [], closed := true
        out := sess.out ++ [syncControl sess.syncId SyncOp.SYNC_CLOSE ""] }
  | .queueFull closeEmitted =>
    if sess.closed then sess
    else
      { sess with
        subs := [], closed := true
        out := sess.out ++
          if closeEmitted then [syncControl sess.syncId SyncOp.SYNC_CLOSE ""] else [] }

/-- Modelled from the spec: the session after a sequence of inputs. -/
def SyncSession.run (sess : SyncSession) (inputs : List SessionInput) : SyncSession :=
  inputs.foldl SyncSession.step sess

/-- Whether the message is a `SYNC_DOWN` for the stream `id`. -/
def SyncStreamsResponse.isDownFor (msg : SyncStreamsResponse) (id : Bytes) : Bool :=
  decide (msg.SyncOp = SyncOp.SYNC_DOWN) && decide (msg.StreamId = id)

/-- Whether the message is a `SYNC_UPDATE` for the stream `id` (the stream of its next sync
cookie, as the test reads it). -/
def SyncStreamsResponse.isUpdateFor (msg : SyncStreamsResponse) (id : Bytes) : Bool :=
  match msg.Stream with
  | none => false
  | some stream =>
    decide (msg.SyncOp = SyncOp.SYNC_UPDATE) && decide (stream.NextSyncCookie.StreamId = id)

/-- What a session keeps true of its output: the receive loop of the test accepts it, every
stream the loop holds as down is flagged down in the session, and the sync id is the one
the session started with. -/
structure SessionInv (syncId : String) (sess : SyncSession) : Prop where
  sync : sess.syncId = syncId
  accepted : ∃ d, receiveLoop syncId sess.out [] = .ok d ∧ ∀ id ∈ d, id ∈ sess.down

/-! ## More of the concrete instance: reading and proposing -/

/-- The miniblock functions of the concrete instance. In it the block with hash `[100 + n]`
is numbered `n`, follows the block with hash `[100 + n - 1]`, and carries a snapshot only at
genesis; the bytes of a block are those `byteCodec` decodes. -/
def demoMiniblockOps : MiniblockOps :=
  specMiniblockOps
    (fun mb =>
      match mb.Header.Event with
      | [h] =>
        .ok (mkBlock (h - 100) h (if h = 100 then [] else [h - 1]) (decide (h = 100))
          (mb.Events.flatMap fun e => e.Event))
      | _ => .error (RiverError ErrCode.Err_INVALID_ARGUMENT "bad miniblock"))
    (fun info =>
      .ok (info.Num.toNat :: (info.Hash ++
        [info.headerEvent.Event.PrevMiniblockHash.headD 0,
          if headerHasSnapshot info then 1 else 0] ++
        info.events.flatMap fun e => e.Envelope.Event)))

/-- A storage from which the blocks before number 5 are gone: it holds the blocks 5 (with
a snapshot) and 6 of the stream. -/
def demoStorePruned : MemStore :=
  { demoStore with
    stream := some { StartMiniblockNumber := 5, Miniblocks := [[5, 105, 104, 1], [6, 106, 105, 0]],
                     MinipoolEnvelopes := [] } }

/-- The loaded stream with nobody subscribed (the receiver set was never created). -/
def demoQuiet : streamImpl := { demoLoaded with receivers := none }

/-- A storage that holds what the view `demoViewState` holds: the genesis block and the
events `1` and `2` in the minipool. -/
def demoStoreSynced : MemStore := { demoStore with stream := some (demoStreamData [[1], [2]]) }

/-- The storage `demoStoreSynced` after one more write of event `1`. -/
def demoStoreTwice : MemStore :=
  { demoStore with stream := some (demoStreamData [[1], [2], [1]]) }

/-- The error `copyAndAddEvent` of the specification gives for an event the view holds. -/
def duplicateEvent : RiverErrorImpl :=
  RiverError ErrCode.Err_DUPLICATE_EVENT "copyAndAddEvent: event already exists"

/-- The error `SaveMiniblockCandidate` gives for a stale proposal. -/
def miniblockTooOld : RiverErrorImpl := RiverError ErrCode.Err_INTERNAL "Miniblock is too old"

/-- The in-memory storage with a registry that knows the stream `[7]`: on node `[9]`, at
genesis, with the genesis block of the concrete instance. -/
def demoChain : External MemStore :=
  { memStorage with
    GetStreamWithGenesis := fun st _ =>
      (.ok ({ Nodes := [[8], [9]], LastMiniblockNum := 0 }, [100], [0, 100, 0, 1]), st) }

/-- A storage that does not hold the stream yet. -/
def demoStoreEmpty : MemStore := { demoStore with stream := none }

/-- The stream after it was created from the registry: its nodes are known and its view is
the view at genesis. -/
def demoCreated : streamImpl :=
  { demoUnloaded with
    nodes := some (NewStreamNodes [[8], [9]] [9])
    view := some demoGenesisView }

/-- A session in which the stream `[7]` goes down, comes back and goes down again, with a
second report of each outage and a ping in between. -/
def demoSessionInputs : List SessionInput :=
  [SessionInput.addStream demoAddUpdate, SessionInput.onSyncError [7],
    SessionInput.onStreamSyncDown [7], SessionInput.ping "p1",
    SessionInput.addStream demoBlockUpdate, SessionInput.onUpdate demoBlockUpdate,
    SessionInput.onSyncError [7], SessionInput.cancel, SessionInput.onUpdate demoBlockUpdate]

/-! ## Lemmas -/

section Frames
variable {σ : Type}

theorem initFromBlockchain_frame (V : ViewOps) (X : External σ) (s : streamImpl)
    (w : World σ) : LoadFrame s w (initFromBlockchain V X s w) := by
  unfold initFromBlockchain
  simp only [World.emit]
  split
  · exact ⟨rfl, rfl, rfl, rfl, by simp, by simp,
      ⟨_, rfl, by simp [Effect.isCallback, Effect.isPromoteBlock]⟩⟩
  · split
    · exact ⟨rfl, rfl, rfl, rfl, by simp, by simp,
        ⟨_, rfl, by simp [Effect.isCallback, Effect.isPromoteBlock]⟩⟩
    · split
      · exact ⟨rfl, rfl, rfl, rfl, by simp, by simp,
          ⟨_, rfl, by simp [Effect.isCallback, Effect.isPromoteBlock]⟩⟩
      · split
        · exact ⟨rfl, rfl, rfl, rfl, by simp, by simp,
            ⟨_, by simp [List.append_assoc]; rfl,
              by simp [Effect.isCallback, Effect.isPromoteBlock]⟩⟩
        · split
          · exact ⟨rfl, rfl, rfl, rfl, by simp, by simp,
              ⟨_, by simp [List.append_assoc]; rfl,
                by simp [Effect.isCallback, Effect.isPromoteBlock]⟩⟩
          · exact ⟨rfl, rfl, rfl, rfl, by simp, by simp,
              ⟨_, by simp [List.append_assoc]; rfl,
                by simp [Effect.isCallback, Effect.isPromoteBlock]⟩⟩

theorem LoadFrame.after_emit {s : streamImpl} {w : World σ} {st : σ} {e : Effect}
    {r : Option RiverErrorImpl × streamImpl × World σ} (h : LoadFrame s (w.emit st e) r)
    (he : e.isCallback = false ∧ e.isPromoteBlock = false) : LoadFrame s w r := by
  obtain ⟨ext, hext, hq⟩ := h.quiet
  refine ⟨h.receivers, h.lastAccessedTime, h.params, h.streamId, h.loaded, h.failed,
    ⟨e :: ext, ?_, ?_⟩⟩
  · rw [hext]; simp [World.emit]
  · intro x hx
    rcases List.mem_cons.1 hx with rfl | hx
    · exact he
    · exact hq x hx

theorem loadInternal_frame (V : ViewOps) (X : External σ) (s : streamImpl) (w : World σ) :
    LoadFrame s w (loadInternal V X s w) := by
  unfold loadInternal
  split
  · exact ⟨rfl, rfl, rfl, rfl, by simpa using ‹s.view.isSome = true›, by simp,
      ⟨[], by simp, by simp⟩⟩
  · simp only []
    split
    · split
      · exact (initFromBlockchain_frame V X s _).after_emit
          (by simp [Effect.isCallback, Effect.isPromoteBlock])
      · exact ⟨rfl, rfl, rfl, rfl, by simp, by simp,
          ⟨_, rfl, by simp [Effect.isCallback, Effect.isPromoteBlock]⟩⟩
    · split
      · exact ⟨rfl, rfl, rfl, rfl, by simp, by simp,
          ⟨_, rfl, by simp [Effect.isCallback, Effect.isPromoteBlock]⟩⟩
      · exact ⟨rfl, rfl, rfl, rfl, by simp, by simp,
          ⟨_, rfl, by simp [Effect.isCallback, Effect.isPromoteBlock]⟩⟩

theorem loadInternal_of_loaded (V : ViewOps) (X : External σ) (s : streamImpl) (w : World σ)
    (view : streamViewImpl) (h : s.view = some view) : loadInternal V X s w = (none, s, w) := by
  simp [loadInternal, h]

/-- Updates delivered to `r` by a run of `OnUpdate resp` over a duplicate-free list. -/
theorem updatesTo_append (r : SyncResultReceiver) (a b : List Effect) :
    updatesTo r (a ++ b) = updatesTo r a ++ updatesTo r b := by
  simp [updatesTo, List.filterMap_append]

theorem updatesTo_quiet (r : SyncResultReceiver) (ext : List Effect)
    (h : ∀ e ∈ ext, e.isCallback = false) : updatesTo r ext = [] := by
  induction ext with
  | nil => rfl
  | cons e es ih =>
    have he := h e (List.mem_cons_self _ _)
    have hes : ∀ x ∈ es, x.isCallback = false := fun x hx => h x (List.mem_cons_of_mem _ hx)
    have := ih hes
    cases e <;> simp_all [updatesTo, Effect.isCallback]

theorem updatesTo_fanout_not_mem (r : SyncResultReceiver) (resp : StreamAndCookie)
    (l : List SyncResultReceiver) (h : r ∉ l) :
    updatesTo r (l.map fun x => Effect.OnUpdate x resp) = [] := by
  induction l with
  | nil => rfl
  | cons a as ih =>
    have h1 : a ≠ r := fun e => h (e ▸ List.mem_cons_self _ _)
    have h2 : r ∉ as := fun e => h (List.mem_cons_of_mem _ e)
    have := ih h2
    simp_all [updatesTo]

theorem updatesTo_fanout_mem (r : SyncResultReceiver) (resp : StreamAndCookie)
    (l : List SyncResultReceiver) (hn : l.Nodup) (h : r ∈ l) :
    updatesTo r (l.map fun x => Effect.OnUpdate x resp) = [resp] := by
  induction l with
  | nil => cases h
  | cons a as ih =>
    have hn' := List.nodup_cons.1 hn
    rcases List.mem_cons.1 h with rfl | h'
    · have := updatesTo_fanout_not_mem r resp as hn'.1
      simp_all [updatesTo]
    · have hne : a ≠ r := fun e => hn'.1 (e ▸ h')
      have := ih hn'.2 h'
      simp_all [updatesTo]

theorem registered_nodup (s : streamImpl) : (registered s).Nodup := by
  unfold registered
  cases s.receivers with
  | none => exact List.nodup_nil
  | some rs => exact rs.nodup

theorem notifySubscribers_trace (now : Int) (s : streamImpl) (w : World σ)
    (envelopes : List Envelope) (c p : SyncCookie) :
    (notifySubscribers now s w envelopes c p).2.store = w.store ∧
    (notifySubscribers now s w envelopes c p).2.trace = w.trace ++ (registered s).map fun r =>
      Effect.OnUpdate r
        { Events := envelopes, NextSyncCookie := c, Miniblocks := [], SyncReset := false } := by
  unfold notifySubscribers registered
  cases hr : s.receivers with
  | none => simp
  | some rs =>
    by_cases hc : rs.Cardinality > 0
    · simp [hc]
    · have : rs.elems = [] := by
        have : rs.elems.length = 0 := by simpa [ReceiverSet.Cardinality] using hc
        exact List.length_eq_zero.1 this
      simp [hc, ReceiverSet.Iter, this]

theorem notifySubscribers_state (now : Int) (s : streamImpl) (w : World σ)
    (envelopes : List Envelope) (c p : SyncCookie) :
    (notifySubscribers now s w envelopes c p).1 =
      { s with lastAccessedTime := if registered s = [] then s.lastAccessedTime else now } := by
  obtain ⟨params, sid, nodes, view, t, recv⟩ := s
  unfold notifySubscribers registered
  cases recv with
  | none => simp
  | some rs =>
    by_cases hc : rs.Cardinality > 0
    · have : rs.elems ≠ [] := by
        intro h; simp [ReceiverSet.Cardinality, h] at hc
      simp [hc, ReceiverSet.Iter, this]
    · have : rs.elems = [] := by
        have : rs.elems.length = 0 := by simpa [ReceiverSet.Cardinality] using hc
        exact List.length_eq_zero.1 this
      simp [hc, ReceiverSet.Iter, this]

theorem envelopeBytesOf_ok (V : ViewOps) (es : List ParsedEvent) (bs : List Bytes)
    (h : envelopeBytesOf V es = .ok bs) :
    List.Forall₂ (fun e b => V.GetEnvelopeBytes e = .ok b) es bs := by
  induction es generalizing bs with
  | nil =>
    simp [envelopeBytesOf] at h
    subst h
    exact List.Forall₂.nil
  | cons e es ih =>
    unfold envelopeBytesOf at h
    cases hb : V.GetEnvelopeBytes e with
    | error err => simp [hb] at h
    | ok b =>
      cases hr : envelopeBytesOf V es with
      | error err => simp [hb, hr] at h
      | ok rest =>
        simp [hb, hr] at h
        subst h
        exact List.Forall₂.cons hb (ih rest hr)

theorem updatesTo_after_fanout (r : SyncResultReceiver) (resp : StreamAndCookie)
    (trace quiet : List Effect) (l : List SyncResultReceiver) (hn : l.Nodup)
    (hq : ∀ e ∈ quiet, e.isCallback = false) :
    updatesTo r (trace ++ (quiet ++ l.map fun x => Effect.OnUpdate x resp)) =
      updatesTo r trace ++ (if r ∈ l then [resp] else []) := by
  rw [updatesTo_append, updatesTo_append, updatesTo_quiet r quiet hq]
  by_cases h : r ∈ l
  · simp [h, updatesTo_fanout_mem r resp l hn h]
  · simp [h, updatesTo_fanout_not_mem r resp l h]

theorem addReceiver_params (s : streamImpl) (r : SyncResultReceiver) :
    (addReceiver s r).params = s.params := by
  unfold addReceiver
  cases s.receivers <;> rfl

theorem mem_registered_addReceiver (s : streamImpl) (r : SyncResultReceiver) :
    r ∈ registered (addReceiver s r) := by
  unfold addReceiver registered
  cases s.receivers with
  | none => simp [ReceiverSet.Add, ReceiverSet.Iter, ReceiverSet.NewSet]
  | some rs => simp [ReceiverSet.Add, ReceiverSet.Iter]

theorem specNewMiniblockInfoFromBytes_num (C : Codec) (b : Bytes) (n : Int)
    (mb : MiniblockInfo) (hn : 0 ≤ n) (h : specNewMiniblockInfoFromBytes C b n = .ok mb) :
    mb.Num = n := by
  unfold specNewMiniblockInfoFromBytes at h
  cases hd : C.decodeMiniblock b with
  | error err => simp [hd] at h
  | ok m =>
    simp only [hd] at h
    by_cases hc : 0 ≤ n ∧ m.Num ≠ n
    · simp [hc] at h
    · simp only [hc, if_false] at h
      injection h with h
      subst h
      by_contra hne
      exact hc ⟨hn, hne⟩

theorem findBlock_range (n : Int) (bs : List MiniblockInfo) (i j : Int)
    (h : findBlock n bs i = some j) : i ≤ j ∧ j < i + bs.length := by
  induction bs generalizing i with
  | nil => simp [findBlock] at h
  | cons b bs ih =>
    unfold findBlock at h
    by_cases hb : b.Num = n
    · simp [hb] at h
      subst h
      simp only [List.length_cons, Nat.cast_add, Nat.cast_one]
      omega
    · simp only [hb, if_false] at h
      have := ih (i + 1) h
      simp only [List.length_cons, Nat.cast_add, Nat.cast_one]
      omega

theorem forEachEventIn_collect (num : Int) (es : List ParsedEvent) (idx : Int)
    (acc : List Envelope) :
    forEachEventIn num collectEnvelope es idx acc =
      (acc ++ es.map fun e => e.Envelope, true, none) := by
  induction es generalizing idx acc with
  | nil => simp [forEachEventIn]
  | cons e es ih =>
    simp [forEachEventIn, collectEnvelope, ih]

theorem forEachEventInBlocks_collect (bs : List MiniblockInfo) (acc : List Envelope) :
    forEachEventInBlocks collectEnvelope bs acc =
      (acc ++ (bs.flatMap blockEvents).map fun e => e.Envelope, true, none) := by
  induction bs generalizing acc with
  | nil => simp [forEachEventInBlocks]
  | cons b bs ih =>
    simp [forEachEventInBlocks, forEachEventIn_collect, ih, List.flatMap_cons]

theorem specForEachEvent_collect (v : streamViewImpl) (i : Int) (h0 : 0 ≤ i)
    (h1 : i ≤ v.blocks.length) :
    specForEachEvent v i ([] : List Envelope) collectEnvelope =
      (((v.blocks.drop i.toNat).flatMap blockEvents ++ v.minipool.events).map
        fun e => e.Envelope, none) := by
  have hr : ¬ (i < 0 ∨ (v.blocks.length : Int) < i) := by omega
  simp [specForEachEvent, hr, forEachEventInBlocks_collect, forEachEventIn_collect]

end Frames

/-! ## The stream contract -/

section Claims
variable {σ : Type}

/-- C1 (amended): when `WriteEvent` returns an error `e`, `AddEvent` returns exactly `e`
with the view that was in place when `WriteEvent` was called still in place: the pre-call
view of a loaded stream, the view the lazy load installed otherwise. The copy made by
`copyAndAddEvent` is never published, the receiver set and the access time are untouched
and no receiver gets an `OnUpdate`. -/
theorem AddEvent_write_error (V : ViewOps) (X : External σ) (now : Int) (s s1 : streamImpl)
    (w w1 : World σ) (event : ParsedEvent) (view : streamViewImpl) (envelopeBytes : Bytes)
    (e : RiverErrorImpl) (st' : σ)
    (hload : loadInternal V X s w = (none, s1, w1))
    (hview : s1.view = some view)
    (hbytes : V.GetEnvelopeBytes event = .ok envelopeBytes)
    (hwrite : X.WriteEvent w1.store s1.streamId view.minipool.generation
      (V.nextSlotNumber view.minipool) envelopeBytes = (some e, st')) :
    AddEvent V X now s w event = .ok (some e, s1, w1.emit st' (Effect.WriteEvent s1.streamId
      view.minipool.generation (V.nextSlotNumber view.minipool) envelopeBytes)) ∧
    (∀ v0, s.view = some v0 → s1 = s ∧ view = v0) ∧
    s1.receivers = s.receivers ∧ s1.lastAccessedTime = s.lastAccessedTime ∧
    ∀ r, updatesTo r (w1.emit st' (Effect.WriteEvent s1.streamId view.minipool.generation
      (V.nextSlotNumber view.minipool) envelopeBytes)).trace = updatesTo r w.trace := by
  have hf := loadInternal_frame V X s w
  rw [hload] at hf
  refine ⟨?_, ?_, hf.receivers, hf.lastAccessedTime, ?_⟩
  · simp [AddEvent, hload, addEventImpl, hbytes, hview, hwrite]
  · intro v0 hv0
    have := loadInternal_of_loaded V X s w v0 hv0
    rw [hload] at this
    have hs : s1 = s := by injection this with _ h2; injection h2
    subst hs
    rw [hview] at hv0
    exact ⟨rfl, by injection hv0⟩
  · intro r
    obtain ⟨ext, hext, hq⟩ := hf.quiet
    simp only at hext
    simp only [World.emit, hext, updatesTo_append]
    rw [updatesTo_quiet r ext fun x hx => (hq x hx).1]
    simp [updatesTo]

/-- An instance for C1, on the loaded stream with a storage that refuses event writes: the error comes back
and the stream is untouched. -/
theorem AddEvent_write_error_witness :
    AddEvent demoView memStorage 5 demoLoaded
        (demoWorld demoStoreNoWrite) (evt 3) =
      .ok (some storageDown, demoLoaded,
        (demoWorld demoStoreNoWrite).emit
          demoStoreNoWrite (Effect.WriteEvent [7] 1 2 [3])) :=
  (AddEvent_write_error demoView memStorage 5 demoLoaded demoLoaded
    (demoWorld demoStoreNoWrite)
    (demoWorld demoStoreNoWrite) (evt 3) demoViewState [3] storageDown
    demoStoreNoWrite rfl rfl rfl rfl).1

/-- C1 (as stated) fails on an unloaded stream: `WriteEvent` returns an error, `AddEvent`
returns it, and the view after the call is the freshly loaded one, not the absent view
from before the call. -/
theorem unloaded_AddEvent_publishes_loaded_view :
    demoUnloaded.view = none ∧
    AddEvent demoView memStorage 5 demoUnloaded
        (demoWorld demoStoreNoWrite) (evt 3) =
      .ok (some storageDown, { demoUnloaded with view := some demoGenesisView },
        { store := demoStoreNoWrite,
          trace := [Effect.ReadStreamFromLastSnapshot [7] 4, Effect.WriteEvent [7] 1 0 [3]] }) ∧
    ({ demoUnloaded with view := some demoGenesisView } : streamImpl).view ≠
      demoUnloaded.view := by
  refine ⟨rfl, rfl, ?_⟩
  simp [demoUnloaded]

/-- C2: on a loaded stream, when `WriteEvent` and `copyAndAddEvent` both succeed,
`AddEvent` returns nil, has called `WriteEvent` exactly once with the pre-call minipool
generation, the pre-call next slot number and the event's envelope bytes, has replaced the
view by `view.copyAndAddEvent(event)`, and has sent each registered receiver exactly one
`OnUpdate` carrying the single envelope of the event and the sync cookie of the new view;
an unregistered receiver got nothing. -/
theorem AddEvent_success (V : ViewOps) (X : External σ) (now : Int) (s : streamImpl)
    (w : World σ) (event : ParsedEvent) (view newSV : streamViewImpl) (envelopeBytes : Bytes)
    (st' : σ)
    (hview : s.view = some view)
    (hbytes : V.GetEnvelopeBytes event = .ok envelopeBytes)
    (hwrite : X.WriteEvent w.store s.streamId view.minipool.generation
      (V.nextSlotNumber view.minipool) envelopeBytes = (none, st'))
    (hcopy : V.copyAndAddEvent view event = .ok newSV) :
    AddEvent V X now s w event = .ok (none,
      { s with
        view := some newSV
        lastAccessedTime := if registered s = [] then s.lastAccessedTime else now },
      { store := st',
        trace := w.trace ++ ([Effect.WriteEvent s.streamId view.minipool.generation
          (V.nextSlotNumber view.minipool) envelopeBytes] ++ (registered s).map fun r =>
            Effect.OnUpdate r
              { Events := [event.Envelope],
                NextSyncCookie := V.SyncCookie newSV s.params.Wallet.Address,
                Miniblocks := [], SyncReset := false }) }) ∧
    ∀ r, updatesTo r (w.trace ++ ([Effect.WriteEvent s.streamId view.minipool.generation
          (V.nextSlotNumber view.minipool) envelopeBytes] ++ (registered s).map fun r =>
            Effect.OnUpdate r
              { Events := [event.Envelope],
                NextSyncCookie := V.SyncCookie newSV s.params.Wallet.Address,
                Miniblocks := [], SyncReset := false })) =
      updatesTo r w.trace ++
        (if r ∈ registered s then
          [{ Events := [event.Envelope],
             NextSyncCookie := V.SyncCookie newSV s.params.Wallet.Address,
             Miniblocks := [], SyncReset := false }]
        else []) := by
  constructor
  · have hl := loadInternal_of_loaded V X s w view hview
    simp only [AddEvent, hl, addEventImpl, hbytes, hview, hwrite, hcopy, World.emit]
    have h1 := notifySubscribers_state now { s with view := some newSV }
      { store := st', trace := w.trace ++ [Effect.WriteEvent s.streamId
        view.minipool.generation (V.nextSlotNumber view.minipool) envelopeBytes] }
      [event.Envelope] (V.SyncCookie newSV s.params.Wallet.Address)
      (V.SyncCookie view s.params.Wallet.Address)
    have h2 := notifySubscribers_trace now { s with view := some newSV }
      { store := st', trace := w.trace ++ [Effect.WriteEvent s.streamId
        view.minipool.generation (V.nextSlotNumber view.minipool) envelopeBytes] }
      [event.Envelope] (V.SyncCookie newSV s.params.Wallet.Address)
      (V.SyncCookie view s.params.Wallet.Address)
    have hreg : registered { s with view := some newSV } = registered s := rfl
    rw [hreg] at h1 h2
    congr 1
    refine Prod.ext rfl (Prod.ext h1 ?_)
    cases hn : notifySubscribers now { s with view := some newSV }
      { store := st', trace := w.trace ++ [Effect.WriteEvent s.streamId
        view.minipool.generation (V.nextSlotNumber view.minipool) envelopeBytes] }
      [event.Envelope] (V.SyncCookie newSV s.params.Wallet.Address)
      (V.SyncCookie view s.params.Wallet.Address) with
    | mk a b =>
      rw [hn] at h2
      obtain ⟨hs, ht⟩ := h2
      cases b
      simp only at hs ht
      simp [hs, ht, List.append_assoc]
  · intro r
    exact updatesTo_after_fanout r _ w.trace _ (registered s) (registered_nodup s)
      (by simp [Effect.isCallback])

/-- An instance for C2, on the loaded stream with receivers 11 and 12: event 3 is written at generation 1,
slot 2, and both receivers get it. -/
theorem AddEvent_success_witness :
    AddEvent demoView memStorage 5 demoLoaded (demoWorld demoStore) (evt 3) =
      .ok (none, { demoLoaded with view := some demoViewAdded, lastAccessedTime := 5 },
        { store := { demoStore with stream := some (demoStreamData [[3]]) },
          trace := [Effect.WriteEvent [7] 1 2 [3], Effect.OnUpdate 12 demoAddUpdate,
            Effect.OnUpdate 11 demoAddUpdate] }) :=
  (AddEvent_success demoView memStorage 5 demoLoaded (demoWorld demoStore) (evt 3)
    demoViewState demoViewAdded [3] { demoStore with stream := some (demoStreamData [[3]]) }
    rfl rfl rfl rfl).1

/-- C3: on a loaded stream and a miniblock numbered past the last block, (a) when
`copyAndApplyBlock` succeeds and `PromoteBlock` returns an error `e`, `ApplyMiniblock`
returns `e`, the stream (its view included) is exactly the pre-call stream and the only
new interaction is that one `PromoteBlock` call, so no receiver is notified; (b) when
`copyAndApplyBlock` fails, its error is returned, the stream is unchanged and there is no
interaction at all, so `PromoteBlock` is never called. -/
theorem ApplyMiniblock_failure (V : ViewOps) (X : External σ) (now : Int) (s : streamImpl)
    (w : World σ) (mb : MiniblockInfo) (view : streamViewImpl)
    (hview : s.view = some view)
    (hnum : (V.LastBlock view).Num < mb.Num) :
    (∀ (newSV : streamViewImpl) (newMinipool : List Bytes) (e : RiverErrorImpl) (st' : σ),
      V.copyAndApplyBlock view mb s.params.ChainConfig = .ok newSV →
      envelopeBytesOf V newSV.minipool.events = .ok newMinipool →
      X.PromoteBlock w.store s.streamId view.minipool.generation mb.Hash
        (headerHasSnapshot mb) newMinipool = (some e, st') →
      ApplyMiniblock V X now s w mb = .ok (some e, s,
        { store := st',
          trace := w.trace ++ [Effect.PromoteBlock s.streamId view.minipool.generation
            mb.Hash (headerHasSnapshot mb) newMinipool] }) ∧
      ∀ r, updatesTo r (w.trace ++ [Effect.PromoteBlock s.streamId view.minipool.generation
            mb.Hash (headerHasSnapshot mb) newMinipool]) = updatesTo r w.trace) ∧
    (∀ e : RiverErrorImpl,
      V.copyAndApplyBlock view mb s.params.ChainConfig = .error e →
      ApplyMiniblock V X now s w mb = .ok (some e, s, w)) := by
  have hn : ¬ mb.Num ≤ (V.LastBlock view).Num := not_le.2 hnum
  constructor
  · intro newSV newMinipool e st' hcopy hbytes hpromote
    constructor
    · simp [ApplyMiniblock, applyMiniblockImplNoLock, hview, hn, hcopy, hbytes, hpromote,
        World.emit]
    · intro r
      simp [updatesTo]
  · intro e hcopy
    simp [ApplyMiniblock, applyMiniblockImplNoLock, hview, hn, hcopy]

/-- An instance for C3, on the loaded stream: a failing promotion, and a block with the wrong parent. -/
theorem ApplyMiniblock_failure_witness :
    ApplyMiniblock demoView memStorage 5 demoLoaded (demoWorld (demoStoreFlaky 1)) demoBlock =
      .ok (some storageDown, demoLoaded,
        { store := demoStoreFlaky 0,
          trace := [Effect.PromoteBlock [7] 1 [101] false []] }) ∧
    ApplyMiniblock demoView memStorage 5 demoLoaded (demoWorld demoStore) demoOrphanBlock =
      .ok (some (RiverError ErrCode.Err_INTERNAL "copyAndApplyBlock: parent hash mismatch"),
        demoLoaded, demoWorld demoStore) :=
  ⟨((ApplyMiniblock_failure demoView memStorage 5 demoLoaded (demoWorld (demoStoreFlaky 1))
      demoBlock demoViewState rfl (by decide)).1 demoViewApplied [] storageDown
      (demoStoreFlaky 0) rfl rfl rfl).1,
   (ApplyMiniblock_failure demoView memStorage 5 demoLoaded (demoWorld demoStore)
      demoOrphanBlock demoViewState rfl (by decide)).2 _ rfl⟩

/-- C4: on a loaded stream and a miniblock numbered past the last block, when
`copyAndApplyBlock` yields `newSV` and `PromoteBlock` succeeds, `ApplyMiniblock` returns
nil, has called `PromoteBlock` exactly once with the generation of the old view's minipool,
the miniblock's hash, the flag telling whether its header carries a snapshot, and the
envelope bytes of the residual minipool of `newSV` in minipool order; afterwards the view
is `newSV` and each registered receiver got exactly one `OnUpdate` whose events are only
the header envelope and whose cookie is the sync cookie of `newSV`. -/
theorem ApplyMiniblock_success (V : ViewOps) (X : External σ) (now : Int) (s : streamImpl)
    (w : World σ) (mb : MiniblockInfo) (view newSV : streamViewImpl)
    (newMinipool : List Bytes) (st' : σ)
    (hview : s.view = some view)
    (hnum : (V.LastBlock view).Num < mb.Num)
    (hcopy : V.copyAndApplyBlock view mb s.params.ChainConfig = .ok newSV)
    (hbytes : envelopeBytesOf V newSV.minipool.events = .ok newMinipool)
    (hpromote : X.PromoteBlock w.store s.streamId view.minipool.generation mb.Hash
      (headerHasSnapshot mb) newMinipool = (none, st')) :
    ApplyMiniblock V X now s w mb = .ok (none,
      { s with
        view := some newSV
        lastAccessedTime := if registered s = [] then s.lastAccessedTime else now },
      { store := st',
        trace := w.trace ++ ([Effect.PromoteBlock s.streamId view.minipool.generation mb.Hash
          (headerHasSnapshot mb) newMinipool] ++ (registered s).map fun r =>
            Effect.OnUpdate r
              { Events := [mb.headerEvent.Envelope],
                NextSyncCookie := V.SyncCookie newSV s.params.Wallet.Address,
                Miniblocks := [], SyncReset := false }) }) ∧
    (headerHasSnapshot mb = true ↔
      ∃ h sn, mb.headerEvent.Event.MiniblockHeader = some h ∧ h.Snapshot = some sn) ∧
    List.Forall₂ (fun e b => V.GetEnvelopeBytes e = .ok b) newSV.minipool.events newMinipool ∧
    ∀ r, updatesTo r (w.trace ++ ([Effect.PromoteBlock s.streamId view.minipool.generation
          mb.Hash (headerHasSnapshot mb) newMinipool] ++ (registered s).map fun r =>
            Effect.OnUpdate r
              { Events := [mb.headerEvent.Envelope],
                NextSyncCookie := V.SyncCookie newSV s.params.Wallet.Address,
                Miniblocks := [], SyncReset := false })) =
      updatesTo r w.trace ++
        (if r ∈ registered s then
          [{ Events := [mb.headerEvent.Envelope],
             NextSyncCookie := V.SyncCookie newSV s.params.Wallet.Address,
             Miniblocks := [], SyncReset := false }]
        else []) := by
  have hn : ¬ mb.Num ≤ (V.LastBlock view).Num := not_le.2 hnum
  refine ⟨?_, ?_, envelopeBytesOf_ok V _ _ hbytes, ?_⟩
  · simp only [ApplyMiniblock, applyMiniblockImplNoLock, hview, hn, hcopy, hbytes, hpromote,
      World.emit, Option.isNone_some, Bool.false_eq_true, if_false]
    have h1 := notifySubscribers_state now { s with view := some newSV }
      { store := st', trace := w.trace ++ [Effect.PromoteBlock s.streamId
        view.minipool.generation mb.Hash (headerHasSnapshot mb) newMinipool] }
      [mb.headerEvent.Envelope] (V.SyncCookie newSV s.params.Wallet.Address)
      (V.SyncCookie view s.params.Wallet.Address)
    have h2 := notifySubscribers_trace now { s with view := some newSV }
      { store := st', trace := w.trace ++ [Effect.PromoteBlock s.streamId
        view.minipool.generation mb.Hash (headerHasSnapshot mb) newMinipool] }
      [mb.headerEvent.Envelope] (V.SyncCookie newSV s.params.Wallet.Address)
      (V.SyncCookie view s.params.Wallet.Address)
    have hreg : registered { s with view := some newSV } = registered s := rfl
    rw [hreg] at h1 h2
    congr 1
    refine Prod.ext rfl (Prod.ext h1 ?_)
    cases hn : notifySubscribers now { s with view := some newSV }
      { store := st', trace := w.trace ++ [Effect.PromoteBlock s.streamId
        view.minipool.generation mb.Hash (headerHasSnapshot mb) newMinipool] }
      [mb.headerEvent.Envelope] (V.SyncCookie newSV s.params.Wallet.Address)
      (V.SyncCookie view s.params.Wallet.Address) with
    | mk a b =>
      rw [hn] at h2
      obtain ⟨hs, ht⟩ := h2
      cases b
      simp only at hs ht
      simp [hs, ht, List.append_assoc]
  · unfold headerHasSnapshot
    cases mb.headerEvent.Event.MiniblockHeader with
    | none => simp
    | some h => simp [Option.isSome_iff_exists]
  · intro r
    exact updatesTo_after_fanout r _ w.trace _ (registered s) (registered_nodup s)
      (by simp [Effect.isCallback])

/-- An instance for C4, on the loaded stream: block 1 is promoted and its header fanned out. -/
theorem ApplyMiniblock_success_witness :
    ApplyMiniblock demoView memStorage 5 demoLoaded (demoWorld demoStore) demoBlock =
      .ok (none, { demoLoaded with view := some demoViewApplied, lastAccessedTime := 5 },
        { store := demoStore,
          trace := [Effect.PromoteBlock [7] 1 [101] false [],
            Effect.OnUpdate 12 demoBlockUpdate, Effect.OnUpdate 11 demoBlockUpdate] }) :=
  (ApplyMiniblock_success demoView memStorage 5 demoLoaded (demoWorld demoStore) demoBlock
    demoViewState demoViewApplied [] demoStore rfl (by decide) rfl rfl rfl).1

/-- C5: on a loaded stream, a miniblock whose number is at most the last block number makes
`ApplyMiniblock` return nil with the stream (view, receiver set, access time) and the world
(storage state, calls made, callbacks delivered) exactly as before; the outcome does not
depend on what `copyAndApplyBlock` or `PromoteBlock` would do, neither being called. -/
theorem ApplyMiniblock_already_applied (V : ViewOps) (X : External σ) (now : Int)
    (s : streamImpl) (w : World σ) (mb : MiniblockInfo) (view : streamViewImpl)
    (hview : s.view = some view)
    (hnum : mb.Num ≤ (V.LastBlock view).Num) :
    ApplyMiniblock V X now s w mb = .ok (none, s, w) ∧
    (∀ copy promote,
      ApplyMiniblock { V with copyAndApplyBlock := copy } { X with PromoteBlock := promote }
        now s w mb = .ok (none, s, w)) := by
  constructor
  · simp [ApplyMiniblock, applyMiniblockImplNoLock, hview, hnum]
  · intro copy promote
    simp [ApplyMiniblock, applyMiniblockImplNoLock, hview, hnum]

/-- An instance for C5, on the loaded stream: the genesis block offered again changes nothing. -/
theorem ApplyMiniblock_already_applied_witness :
    ApplyMiniblock demoView memStorage 5 demoLoaded (demoWorld demoStore) demoGenesisBlock =
      .ok (none, demoLoaded, demoWorld demoStore) :=
  (ApplyMiniblock_already_applied demoView memStorage 5 demoLoaded (demoWorld demoStore)
    demoGenesisBlock demoViewState rfl (by decide)).1

/-- C6 (amended): on a loaded stream, if the first `ApplyMiniblock(mb)` returns nil, or
fails before it reaches `PromoteBlock` (leaving the trace as it was), then running
`ApplyMiniblock(mb)` again returns the same result and leaves the stream, the storage, the
`PromoteBlock` calls and the delivered updates exactly as the first call left them (given
that a view installed by `copyAndApplyBlock(mb)` has last block number `mb.Num`). -/
theorem ApplyMiniblock_twice (V : ViewOps) (X : External σ) (t1 t2 : Int)
    (s s1 : streamImpl) (w w1 : World σ) (mb : MiniblockInfo) (view : streamViewImpl)
    (r1 : Option RiverErrorImpl)
    (hview : s.view = some view)
    (hlast : ∀ nv, V.copyAndApplyBlock view mb s.params.ChainConfig = .ok nv →
      (V.LastBlock nv).Num = mb.Num)
    (hfirst : ApplyMiniblock V X t1 s w mb = .ok (r1, s1, w1))
    (hreach : r1 = none ∨ w1.trace = w.trace) :
    ApplyMiniblock V X t2 s1 w1 mb = .ok (r1, s1, w1) := by
  simp only [ApplyMiniblock, applyMiniblockImplNoLock, hview, Option.isNone_some,
    Bool.false_eq_true, if_false] at hfirst
  by_cases hnum : mb.Num ≤ (V.LastBlock view).Num
  · simp only [hnum, if_true] at hfirst
    injection hfirst with hfirst
    injection hfirst with h1 h2
    injection h2 with h2 h3
    subst h1 h2 h3
    simp [ApplyMiniblock, applyMiniblockImplNoLock, hview, hnum]
  · simp only [hnum, if_false] at hfirst
    cases hcopy : V.copyAndApplyBlock view mb s.params.ChainConfig with
    | error e =>
      simp only [hcopy] at hfirst
      injection hfirst with hfirst
      injection hfirst with h1 h2
      injection h2 with h2 h3
      subst h1 h2 h3
      simp [ApplyMiniblock, applyMiniblockImplNoLock, hview, hnum, hcopy]
    | ok newSV =>
      simp only [hcopy] at hfirst
      cases hbytes : envelopeBytesOf V newSV.minipool.events with
      | error e =>
        simp only [hbytes] at hfirst
        injection hfirst with hfirst
        injection hfirst with h1 h2
        injection h2 with h2 h3
        subst h1 h2 h3
        simp [ApplyMiniblock, applyMiniblockImplNoLock, hview, hnum, hcopy, hbytes]
      | ok newMinipool =>
        simp only [hbytes] at hfirst
        cases hp : (X.PromoteBlock w.store s.streamId view.minipool.generation mb.Hash
            (headerHasSnapshot mb) newMinipool).1 with
        | some e =>
          simp only [hp] at hfirst
          injection hfirst with hfirst
          injection hfirst with h1 h2
          injection h2 with h2 h3
          subst h1 h2 h3
          rcases hreach with h | h
          · cases h
          · simp [World.emit] at h
        | none =>
          simp only [hp] at hfirst
          injection hfirst with hfirst
          injection hfirst with h1 h2
          injection h2 with h2 h3
          have hst := notifySubscribers_state t1 { s with view := some newSV }
            (w.emit (X.PromoteBlock w.store s.streamId view.minipool.generation mb.Hash
              (headerHasSnapshot mb) newMinipool).2
              (Effect.PromoteBlock s.streamId view.minipool.generation mb.Hash
                (headerHasSnapshot mb) newMinipool))
            [mb.headerEvent.Envelope] (V.SyncCookie newSV s.params.Wallet.Address)
            (V.SyncCookie view s.params.Wallet.Address)
          rw [h2] at hst
          have hv : s1.view = some newSV := by rw [hst]
          have hle : mb.Num ≤ (V.LastBlock newSV).Num := le_of_eq (hlast newSV hcopy).symm
          subst h1
          simp [ApplyMiniblock, applyMiniblockImplNoLock, hv, hle]

/-- An instance for C6, on the loaded stream: once block 1 is applied, applying it again changes nothing. -/
theorem ApplyMiniblock_twice_witness :
    ApplyMiniblock demoView memStorage 6
        { demoLoaded with view := some demoViewApplied, lastAccessedTime := 5 }
        { store := demoStore,
          trace := [Effect.PromoteBlock [7] 1 [101] false [],
            Effect.OnUpdate 12 demoBlockUpdate, Effect.OnUpdate 11 demoBlockUpdate] }
        demoBlock =
      .ok (none, { demoLoaded with view := some demoViewApplied, lastAccessedTime := 5 },
        { store := demoStore,
          trace := [Effect.PromoteBlock [7] 1 [101] false [],
            Effect.OnUpdate 12 demoBlockUpdate, Effect.OnUpdate 11 demoBlockUpdate] }) :=
  ApplyMiniblock_twice demoView memStorage 5 6 demoLoaded _ (demoWorld demoStore) _ demoBlock
    demoViewState none rfl
    (fun nv h => by
      have h2 : nv = demoViewApplied := by
        have h3 : demoView.copyAndApplyBlock demoViewState demoBlock
            demoLoaded.params.ChainConfig = .ok demoViewApplied := rfl
        rw [h3] at h
        injection h with h
        exact h.symm
      subst h2
      decide)
    rfl (Or.inl rfl)

/-- C6 (as stated) fails when the first `PromoteBlock` fails and the second succeeds: after
one `ApplyMiniblock(mb)` the view is the old one and nothing was delivered; after two, the
view has advanced, `PromoteBlock` was called twice and both receivers got the header. -/
theorem retried_ApplyMiniblock_differs :
    demoView.copyAndApplyBlock demoViewState demoBlock demoLoaded.params.ChainConfig =
      .ok demoViewApplied ∧
    (demoView.LastBlock demoViewApplied).Num = demoBlock.Num ∧
    ApplyMiniblock demoView memStorage 5 demoLoaded (demoWorld (demoStoreFlaky 1)) demoBlock =
      .ok (some storageDown, demoLoaded,
        { store := demoStoreFlaky 0,
          trace := [Effect.PromoteBlock [7] 1 [101] false []] }) ∧
    ApplyMiniblock demoView memStorage 6 demoLoaded
        { store := demoStoreFlaky 0, trace := [Effect.PromoteBlock [7] 1 [101] false []] }
        demoBlock =
      .ok (none, { demoLoaded with view := some demoViewApplied, lastAccessedTime := 6 },
        { store := demoStore,
          trace := [Effect.PromoteBlock [7] 1 [101] false [],
            Effect.PromoteBlock [7] 1 [101] false [],
            Effect.OnUpdate 12 demoBlockUpdate, Effect.OnUpdate 11 demoBlockUpdate] }) ∧
    ({ demoLoaded with view := some demoViewApplied, lastAccessedTime := 6 } : streamImpl) ≠
      demoLoaded := by
  refine ⟨rfl, rfl, rfl, rfl, ?_⟩
  decide

/-- C7 (amended): on a loaded stream, for every hash and every `n` not greater than the last
block number, `PromoteCandidate` never changes the stream, promotes no block and notifies
no receiver: its only interaction is the `ReadMiniblockCandidate` call. It returns nil
exactly when that read and the parsing of the candidate succeed; otherwise it returns the
read error or the parse error unchanged. (The parser is assumed to yield only a miniblock
numbered `n`.) -/
theorem PromoteCandidate_old_number (V : ViewOps) (X : External σ) (now : Int)
    (s : streamImpl) (w : World σ) (mbHash : Bytes) (mbNum : Int) (view : streamViewImpl)
    (hview : s.view = some view)
    (hnum : mbNum ≤ (V.LastBlock view).Num)
    (hparse : ∀ b mb, V.NewMiniblockInfoFromBytes b mbNum = .ok mb → mb.Num = mbNum) :
    ∃ r, PromoteCandidate V X now s w mbHash mbNum = .ok (r, s,
        w.emit (X.ReadMiniblockCandidate w.store s.streamId mbHash mbNum).2
          (Effect.ReadMiniblockCandidate s.streamId mbHash mbNum)) ∧
      (r = none ↔ ∃ b mb,
        (X.ReadMiniblockCandidate w.store s.streamId mbHash mbNum).1 = .ok b ∧
        V.NewMiniblockInfoFromBytes b mbNum = .ok mb) ∧
      (∀ e, (X.ReadMiniblockCandidate w.store s.streamId mbHash mbNum).1 = .error e →
        r = some e) ∧
      (∀ b e, (X.ReadMiniblockCandidate w.store s.streamId mbHash mbNum).1 = .ok b →
        V.NewMiniblockInfoFromBytes b mbNum = .error e → r = some e) := by
  cases hrd : (X.ReadMiniblockCandidate w.store s.streamId mbHash mbNum).1 with
  | error e =>
    refine ⟨some e, ?_, ?_, ?_, ?_⟩
    · simp [PromoteCandidate, promoteCandidateLoaded, hview, hrd]
    · simp
    · intro e' h; injection h with h; rw [h]
    · intro b e' h; cases h
  | ok b =>
    cases hp : V.NewMiniblockInfoFromBytes b mbNum with
    | error e =>
      refine ⟨some e, ?_, ?_, ?_, ?_⟩
      · simp [PromoteCandidate, promoteCandidateLoaded, hview, hrd, hp]
      · simp [hp]
      · intro e' h; cases h
      · intro b' e' h h'
        injection h with h
        subst h
        rw [hp] at h'
        injection h' with h'
        rw [h']
    | ok mb =>
      have hle : mb.Num ≤ (V.LastBlock view).Num := by rw [hparse b mb hp]; exact hnum
      refine ⟨none, ?_, ?_, ?_, ?_⟩
      · simp [PromoteCandidate, promoteCandidateLoaded, hview, hrd, hp,
          applyMiniblockImplNoLock, World.emit, hle]
      · simp [hp]
      · intro e' h; cases h
      · intro b' e' h h'
        injection h with h
        subst h
        rw [hp] at h'
        cases h'

/-- An instance for C7, on the loaded stream with the genesis block saved as a candidate: success, and only
the candidate read happened. -/
theorem PromoteCandidate_old_number_witness :
    PromoteCandidate demoView memStorage 5 demoLoaded (demoWorld demoStoreCandidate) [100] 0 =
      .ok (none, demoLoaded,
        { store := demoStoreCandidate, trace := [Effect.ReadMiniblockCandidate [7] [100] 0] }) := by
  obtain ⟨r, h, hr, _⟩ := PromoteCandidate_old_number demoView memStorage 5 demoLoaded
    (demoWorld demoStoreCandidate) [100] 0 demoViewState rfl (by decide)
    (fun b mb h => specNewMiniblockInfoFromBytes_num byteCodec b 0 mb (le_refl 0) h)
  have hn : r = none := hr.2 ⟨[0, 100, 0, 1], demoGenesisBlock, rfl, rfl⟩
  subst hn
  exact h

/-- C7 (as stated) fails for a hash under which no candidate is stored: the number 0 is not
greater than the last block number, yet `PromoteCandidate` returns the storage's not-found
error instead of success. -/
theorem PromoteCandidate_missing_candidate :
    (0 : Int) ≤ (demoView.LastBlock demoViewState).Num ∧
    PromoteCandidate demoView memStorage 5 demoLoaded (demoWorld demoStore) [100] 0 =
      .ok (some notFound, demoLoaded,
        { store := demoStore, trace := [Effect.ReadMiniblockCandidate [7] [100] 0] }) :=
  ⟨by decide, rfl⟩

/-- C8: whatever the stream state, a cookie for another node, for another stream or with
a negative slot makes `Sub` return an `Err_BAD_SYNC_COOKIE` error with the stream (view,
loaded or not, access time, receiver set) and the world (storage, calls, callbacks) exactly
as before. -/
theorem Sub_bad_cookie (V : ViewOps) (X : External σ) (now : Int) (s : streamImpl)
    (w : World σ) (cookie : SyncCookie) (receiver : SyncResultReceiver)
    (h : cookie.NodeAddress ≠ s.params.Wallet.Address ∨ cookie.StreamId ≠ s.streamId ∨
      cookie.MinipoolSlot < 0) :
    ∃ e, Sub V X now s w cookie receiver = .ok (some e, s, w) ∧
      e.Code = ErrCode.Err_BAD_SYNC_COOKIE := by
  unfold Sub
  by_cases h1 : cookie.NodeAddress ≠ s.params.Wallet.Address
  · exact ⟨RiverError ErrCode.Err_BAD_SYNC_COOKIE "cookies is not for this node",
      by simp [h1], rfl⟩
  · by_cases h2 : cookie.StreamId = s.streamId
    · have h3 : cookie.MinipoolSlot < 0 := by
        rcases h with h | h | h
        · exact absurd h h1
        · exact absurd h2 h
        · exact h
      refine ⟨(RiverError ErrCode.Err_BAD_SYNC_COOKIE "bad slot").Func "Stream.Sub", ?_, rfl⟩
      simp only [h1, if_false]
      simp [StreamId.EqualsBytes, h2, h3]
    · refine ⟨RiverError ErrCode.Err_BAD_SYNC_COOKIE "bad stream id", ?_, rfl⟩
      have h2' : ¬ s.streamId = cookie.StreamId := fun e => h2 e.symm
      simp only [h1, if_false]
      simp [StreamId.EqualsBytes, h2']

/-- An instance for C8, on the unloaded stream: a cookie with slot -1 is rejected and nothing is loaded. -/
theorem Sub_bad_cookie_witness :
    ∃ e, Sub demoView memStorage 5 demoUnloaded (demoWorld demoStore) (demoCookie 1 (-1)) 13 =
        .ok (some e, demoUnloaded, demoWorld demoStore) ∧
      e.Code = ErrCode.Err_BAD_SYNC_COOKIE :=
  Sub_bad_cookie demoView memStorage 5 demoUnloaded (demoWorld demoStore) (demoCookie 1 (-1))
    13 (Or.inr (Or.inr (by decide)))

/-- C9: on a loaded stream, a valid cookie of the current minipool generation with
`0 ≤ slot ≤ len(minipool)` makes `Sub` return nil (no panic: the slice bounds are in
range), register the receiver, and deliver to it exactly one `OnUpdate`: the envelopes of
the minipool events from position `slot` on, in minipool order (none when `slot` is the
length), the current sync cookie, no miniblocks, `SyncReset` false. -/
theorem Sub_same_generation (V : ViewOps) (X : External σ) (now : Int) (s : streamImpl)
    (w : World σ) (cookie : SyncCookie) (receiver : SyncResultReceiver)
    (view : streamViewImpl)
    (hview : s.view = some view)
    (hnode : cookie.NodeAddress = s.params.Wallet.Address)
    (hstream : cookie.StreamId = s.streamId)
    (hgen : cookie.MinipoolGen = view.minipool.generation)
    (hslot0 : 0 ≤ cookie.MinipoolSlot)
    (hslot : cookie.MinipoolSlot ≤ view.minipool.events.length) :
    Sub V X now s w cookie receiver = .ok (none,
      addReceiver { s with lastAccessedTime := now } receiver,
      { w with trace := w.trace ++ [Effect.OnUpdate receiver
        { Events := (view.minipool.events.drop cookie.MinipoolSlot.toNat).map
            fun e => e.Envelope,
          NextSyncCookie := V.SyncCookie view s.params.Wallet.Address,
          Miniblocks := [], SyncReset := false }] }) ∧
    receiver ∈ registered (addReceiver { s with lastAccessedTime := now } receiver) ∧
    (cookie.MinipoolSlot = view.minipool.events.length →
      (view.minipool.events.drop cookie.MinipoolSlot.toNat).map (fun e => e.Envelope) = []) ∧
    updatesTo receiver (w.trace ++ [Effect.OnUpdate receiver
        { Events := (view.minipool.events.drop cookie.MinipoolSlot.toNat).map
            fun e => e.Envelope,
          NextSyncCookie := V.SyncCookie view s.params.Wallet.Address,
          Miniblocks := [], SyncReset := false }]) =
      updatesTo receiver w.trace ++
        [{ Events := (view.minipool.events.drop cookie.MinipoolSlot.toNat).map
            fun e => e.Envelope,
           NextSyncCookie := V.SyncCookie view s.params.Wallet.Address,
           Miniblocks := [], SyncReset := false }] := by
  refine ⟨?_, ?_, ?_, ?_⟩
  · have hl := loadInternal_of_loaded V X s w view hview
    have hs : s.streamId = cookie.StreamId := hstream.symm
    have h1 : ¬ cookie.MinipoolSlot < 0 := not_lt.2 hslot0
    have h2 : ¬ cookie.MinipoolSlot > (view.minipool.events.length : Int) := not_lt.2 hslot
    have h3 : ¬ ((view.minipool.events.length : Int) - cookie.MinipoolSlot < 0) := by omega
    simp only [Sub, hnode, ne_eq, not_true_eq_false, if_false, StreamId.EqualsBytes, hs,
      decide_True, Bool.not_true, Bool.false_eq_true, h1, hl, subLoaded, hview, hgen,
      if_true, h2, makeSlice, h3, addReceiver_params]
    by_cases hlt : cookie.MinipoolSlot < (view.minipool.events.length : Int)
    · have h4 : ¬ (cookie.MinipoolSlot < 0 ∨
          (view.minipool.events.length : Int) < cookie.MinipoolSlot) := by omega
      simp only [hlt, if_true, sliceFrom, h4, if_false]
    · have h5 : cookie.MinipoolSlot.toNat = view.minipool.events.length := by omega
      simp only [hlt, if_false, h5, List.drop_length, List.map_nil]
  · exact mem_registered_addReceiver _ _
  · intro h
    have h5 : cookie.MinipoolSlot.toNat = view.minipool.events.length := by omega
    simp [h5]
  · simp [updatesTo]

/-- An instance for C9, on the loaded stream: a cookie at generation 1, slot 1 gets event 2. -/
theorem Sub_same_generation_witness :
    Sub demoView memStorage 5 demoLoaded (demoWorld demoStore) (demoCookie 1 1) 13 =
      .ok (none,
        { demoLoaded with
          lastAccessedTime := 5
          receivers := some (((ReceiverSet.NewSet.Add 11).Add 12).Add 13) },
        { store := demoStore,
          trace := [Effect.OnUpdate 13
            { Events := [(evt 2).Envelope], NextSyncCookie := demoCurrentCookie,
              Miniblocks := [], SyncReset := false }] }) :=
  (Sub_same_generation demoView memStorage 5 demoLoaded (demoWorld demoStore) (demoCookie 1 1)
    13 demoViewState rfl rfl rfl rfl (by decide) (by decide)).1

/-- C10: on a loaded stream, a valid cookie whose generation differs from the minipool
generation and for which `indexOfMiniblockWithNum` finds index `i` makes `Sub` return nil,
register the receiver and deliver exactly one `OnUpdate`, with `SyncReset` false and the
current sync cookie, whose events are what `forEachEvent(i)` visits: the events of every
miniblock from index `i` on (each block's events, then its header), followed by the
current minipool. -/
theorem Sub_older_generation (C : Codec) (sid : StreamId) (X : External σ) (now : Int)
    (s : streamImpl) (w : World σ) (cookie : SyncCookie) (receiver : SyncResultReceiver)
    (view : streamViewImpl) (i : Int)
    (hview : s.view = some view)
    (hnode : cookie.NodeAddress = s.params.Wallet.Address)
    (hstream : cookie.StreamId = s.streamId)
    (hslot0 : 0 ≤ cookie.MinipoolSlot)
    (hgen : cookie.MinipoolGen ≠ view.minipool.generation)
    (hidx : (specView C sid).indexOfMiniblockWithNum view cookie.MinipoolGen = .ok i) :
    Sub (specView C sid) X now s w cookie receiver = .ok (none,
      addReceiver { s with lastAccessedTime := now } receiver,
      { w with trace := w.trace ++ [Effect.OnUpdate receiver
        { Events := ((view.blocks.drop i.toNat).flatMap blockEvents ++
            view.minipool.events).map fun e => e.Envelope,
          NextSyncCookie := (specView C sid).SyncCookie view s.params.Wallet.Address,
          Miniblocks := [], SyncReset := false }] }) ∧
    (specView C sid).forEachEvent view i ([] : List Envelope) collectEnvelope =
      (((view.blocks.drop i.toNat).flatMap blockEvents ++ view.minipool.events).map
        fun e => e.Envelope, none) ∧
    receiver ∈ registered (addReceiver { s with lastAccessedTime := now } receiver) := by
  have hrange : 0 ≤ i ∧ i ≤ view.blocks.length := by
    simp only [specView, specIndexOfMiniblockWithNum] at hidx
    cases hf : findBlock cookie.MinipoolGen view.blocks 0 with
    | none => simp [hf] at hidx
    | some j =>
      simp only [hf] at hidx
      injection hidx with hidx
      subst hidx
      have := findBlock_range _ _ _ _ hf
      omega
  have hfe := specForEachEvent_collect view i hrange.1 hrange.2
  refine ⟨?_, hfe, ?_⟩
  · have hl := loadInternal_of_loaded (specView C sid) X s w view hview
    have hs : s.streamId = cookie.StreamId := hstream.symm
    have h1 : ¬ cookie.MinipoolSlot < 0 := not_lt.2 hslot0
    have hfe' : (specView C sid).forEachEvent view i ([] : List Envelope) collectEnvelope =
      (((view.blocks.drop i.toNat).flatMap blockEvents ++ view.minipool.events).map
        fun e => e.Envelope, none) := hfe
    simp only [Sub, hnode, ne_eq, not_true_eq_false, if_false, StreamId.EqualsBytes, hs,
      decide_True, Bool.not_true, Bool.false_eq_true, h1, hl, subLoaded, hview, hgen, hidx,
      hfe', addReceiver_params]
  · exact mem_registered_addReceiver _ _

/-- An instance for C10, after block 1 was applied: a cookie of generation 1 gets the events of block 1 and
its header. -/
theorem Sub_older_generation_witness :
    Sub demoView memStorage 5 { demoLoaded with view := some demoViewApplied }
        (demoWorld demoStore) (demoCookie 1 2) 13 =
      .ok (none,
        { demoLoaded with
          view := some demoViewApplied
          lastAccessedTime := 5
          receivers := some (((ReceiverSet.NewSet.Add 11).Add 12).Add 13) },
        { store := demoStore,
          trace := [Effect.OnUpdate 13
            { Events := [(evt 1).Envelope, (evt 2).Envelope, demoBlock.headerEvent.Envelope],
              NextSyncCookie := demoBlockUpdate.NextSyncCookie,
              Miniblocks := [], SyncReset := false }] }) :=
  (Sub_older_generation byteCodec [7] memStorage 5
    { demoLoaded with view := some demoViewApplied } (demoWorld demoStore) (demoCookie 1 2) 13
    demoViewApplied 1 rfl rfl rfl (by decide) (by decide) rfl).1

end Claims
/-! ## Lemmas on calls and their fan-out -/

section Steps
variable {σ : Type}

theorem notifySubscribers_frame (now : Int) (s : streamImpl) (w : World σ)
    (envelopes : List Envelope) (c p : SyncCookie) :
    (notifySubscribers now s w envelopes c p).1.receivers = s.receivers ∧
    (notifySubscribers now s w envelopes c p).1.params = s.params ∧
    (notifySubscribers now s w envelopes c p).1.streamId = s.streamId ∧
    (notifySubscribers now s w envelopes c p).1.view = s.view := by
  rw [notifySubscribers_state]
  exact ⟨rfl, rfl, rfl, rfl⟩

/-- Every way `addEventImpl` can end on a loaded stream. -/
theorem addEventImpl_inv (V : ViewOps) (X : External σ) (now : Int) (s : streamImpl)
    (w : World σ) (e : ParsedEvent) (view : streamViewImpl) (hview : s.view = some view) :
    ∃ res s1 w1, addEventImpl V X now s w e = .ok (res, s1, w1) ∧
      ((∃ newSV, res = none ∧ V.copyAndAddEvent view e = .ok newSV ∧ s1.view = some newSV ∧
          StepFrame s w [e.Envelope] (res, s1, w1)) ∨
       (res ≠ none ∧ s1 = s ∧ StepFrame s w [] (res, s1, w1))) := by
  unfold addEventImpl
  cases hb : V.GetEnvelopeBytes e with
  | error err =>
    refine ⟨some err, s, w, rfl, Or.inr ⟨by simp, rfl, rfl, rfl, rfl, ?_⟩⟩
    exact ⟨[], V.SyncCookie view [], by simp, by simp⟩
  | ok bytes =>
    simp only [hview]
    cases hw : (X.WriteEvent w.store s.streamId view.minipool.generation
        (V.nextSlotNumber view.minipool) bytes).1 with
    | some err =>
      refine ⟨some err, s, _, rfl, Or.inr ⟨by simp, rfl, rfl, rfl, rfl, ?_⟩⟩
      exact ⟨[Effect.WriteEvent s.streamId view.minipool.generation
        (V.nextSlotNumber view.minipool) bytes], V.SyncCookie view [],
        by simp [Effect.isCallback], by simp [World.emit]⟩
    | none =>
      cases hc : V.copyAndAddEvent view e with
      | error err =>
        refine ⟨some err, s, _, rfl, Or.inr ⟨by simp, rfl, rfl, rfl, rfl, ?_⟩⟩
        exact ⟨[Effect.WriteEvent s.streamId view.minipool.generation
        (V.nextSlotNumber view.minipool) bytes], V.SyncCookie view [],
        by simp [Effect.isCallback], by simp [World.emit]⟩
      | ok newSV =>
        refine ⟨none, _, _, rfl, Or.inl ⟨newSV, rfl, rfl, ?_, ?_⟩⟩
        · exact (notifySubscribers_frame _ _ _ _ _ _).2.2.2
        · have hf := notifySubscribers_frame now { s with view := some newSV }
            (w.emit (X.WriteEvent w.store s.streamId view.minipool.generation
              (V.nextSlotNumber view.minipool) bytes).2
              (Effect.WriteEvent s.streamId view.minipool.generation
                (V.nextSlotNumber view.minipool) bytes))
            [e.Envelope] (V.SyncCookie newSV s.params.Wallet.Address)
            (V.SyncCookie view s.params.Wallet.Address)
          have ht := notifySubscribers_trace now { s with view := some newSV }
            (w.emit (X.WriteEvent w.store s.streamId view.minipool.generation
              (V.nextSlotNumber view.minipool) bytes).2
              (Effect.WriteEvent s.streamId view.minipool.generation
                (V.nextSlotNumber view.minipool) bytes))
            [e.Envelope] (V.SyncCookie newSV s.params.Wallet.Address)
            (V.SyncCookie view s.params.Wallet.Address)
          refine ⟨hf.1, hf.2.1, hf.2.2.1, ⟨[Effect.WriteEvent s.streamId view.minipool.generation
            (V.nextSlotNumber view.minipool) bytes],
            V.SyncCookie newSV s.params.Wallet.Address, by simp [Effect.isCallback], ?_⟩⟩
          simp only
          rw [ht.2]
          have hreg : registered { s with view := some newSV } = registered s := rfl
          simp [World.emit, hreg, List.append_assoc]

/-- Every way `applyMiniblockImplNoLock` can end on a loaded stream. -/
theorem applyMiniblockImplNoLock_inv (V : ViewOps) (X : External σ) (now : Int)
    (s : streamImpl) (w : World σ) (mb : MiniblockInfo) (view : streamViewImpl)
    (hview : s.view = some view) :
    ∃ res s1 w1, applyMiniblockImplNoLock V X now s w mb = .ok (res, s1, w1) ∧
      ((res = none ∧ mb.Num ≤ (V.LastBlock view).Num ∧ s1 = s ∧ w1 = w) ∨
       (∃ newSV, res = none ∧ (V.LastBlock view).Num < mb.Num ∧
          V.copyAndApplyBlock view mb s.params.ChainConfig = .ok newSV ∧
          s1.view = some newSV ∧ StepFrame s w [mb.headerEvent.Envelope] (res, s1, w1)) ∨
       (res ≠ none ∧ (V.LastBlock view).Num < mb.Num ∧ s1 = s ∧
          StepFrame s w [] (res, s1, w1))) := by
  unfold applyMiniblockImplNoLock
  simp only [hview]
  by_cases hnum : mb.Num ≤ (V.LastBlock view).Num
  · exact ⟨none, s, w, by simp [hnum], Or.inl ⟨rfl, hnum, rfl, rfl⟩⟩
  · have hlt : (V.LastBlock view).Num < mb.Num := not_le.1 hnum
    simp only [hnum, if_false]
    cases hc : V.copyAndApplyBlock view mb s.params.ChainConfig with
    | error err =>
      refine ⟨some err, s, w, rfl, Or.inr (Or.inr ⟨by simp, hlt, rfl, rfl, rfl, rfl, ?_⟩)⟩
      exact ⟨[], V.SyncCookie view [], by simp, by simp⟩
    | ok newSV =>
      dsimp only
      cases hb : envelopeBytesOf V newSV.minipool.events with
      | error err =>
        refine ⟨some err, s, w, rfl, Or.inr (Or.inr ⟨by simp, hlt, rfl, rfl, rfl, rfl, ?_⟩)⟩
        exact ⟨[], V.SyncCookie view [], by simp, by simp⟩
      | ok newMinipool =>
        dsimp only
        cases hp : (X.PromoteBlock w.store s.streamId view.minipool.generation mb.Hash
            (headerHasSnapshot mb) newMinipool).1 with
        | some err =>
          refine ⟨some err, s, _, rfl, Or.inr (Or.inr ⟨by simp, hlt, rfl, rfl, rfl, rfl, ?_⟩)⟩
          exact ⟨[Effect.PromoteBlock s.streamId view.minipool.generation mb.Hash
            (headerHasSnapshot mb) newMinipool], V.SyncCookie view [],
            by simp [Effect.isCallback], by simp [World.emit]⟩
        | none =>
          refine ⟨none, _, _, rfl, Or.inr (Or.inl ⟨newSV, rfl, hlt, rfl, ?_, ?_⟩)⟩
          · exact (notifySubscribers_frame _ _ _ _ _ _).2.2.2
          · have hf := notifySubscribers_frame now { s with view := some newSV }
              (w.emit (X.PromoteBlock w.store s.streamId view.minipool.generation mb.Hash
                (headerHasSnapshot mb) newMinipool).2
                (Effect.PromoteBlock s.streamId view.minipool.generation mb.Hash
                  (headerHasSnapshot mb) newMinipool))
              [mb.headerEvent.Envelope] (V.SyncCookie newSV s.params.Wallet.Address)
              (V.SyncCookie view s.params.Wallet.Address)
            have ht := notifySubscribers_trace now { s with view := some newSV }
              (w.emit (X.PromoteBlock w.store s.streamId view.minipool.generation mb.Hash
                (headerHasSnapshot mb) newMinipool).2
                (Effect.PromoteBlock s.streamId view.minipool.generation mb.Hash
                  (headerHasSnapshot mb) newMinipool))
              [mb.headerEvent.Envelope] (V.SyncCookie newSV s.params.Wallet.Address)
              (V.SyncCookie view s.params.Wallet.Address)
            refine ⟨hf.1, hf.2.1, hf.2.2.1, ⟨[Effect.PromoteBlock s.streamId
              view.minipool.generation mb.Hash (headerHasSnapshot mb) newMinipool],
              V.SyncCookie newSV s.params.Wallet.Address, by simp [Effect.isCallback], ?_⟩⟩
            simp only
            rw [ht.2]
            have hreg : registered { s with view := some newSV } = registered s := rfl
            simp [World.emit, hreg, List.append_assoc]

theorem StepFrame.refl_nil (s : streamImpl) (w : World σ) (res : Option RiverErrorImpl) :
    StepFrame s w [] (res, s, w) :=
  ⟨rfl, rfl, rfl, ⟨[], SyncCookie.zero, by simp, by simp⟩⟩

theorem registered_congr {s s1 : streamImpl} (h : s1.receivers = s.receivers) :
    registered s1 = registered s := by
  unfold registered
  rw [h]

/-- A step taken after the lazy load is a step of the whole call. -/
theorem StepFrame.after_load {s s0 : streamImpl} {w w0 : World σ}
    {r0 : Option RiverErrorImpl} {adm : List Envelope}
    {out : Option RiverErrorImpl × streamImpl × World σ}
    (hl : LoadFrame s w (r0, s0, w0)) (h : StepFrame s0 w0 adm out) : StepFrame s w adm out := by
  obtain ⟨ext, hext, hq⟩ := hl.quiet
  obtain ⟨quiet, cookie, hquiet, htrace⟩ := h.trace
  refine ⟨h.receivers.trans hl.receivers, h.params.trans hl.params,
    h.streamId.trans hl.streamId, ⟨ext ++ quiet, cookie, ?_, ?_⟩⟩
  · intro x hx
    rcases List.mem_append.1 hx with hx | hx
    · exact (hq x hx).1
    · exact hquiet x hx
  · simp only at hext
    rw [htrace, hext, registered_congr hl.receivers]
    simp [List.append_assoc]

/-- A failed lazy load is a step that admits nothing. -/
theorem StepFrame.of_load {s s0 : streamImpl} {w w0 : World σ} {r0 : Option RiverErrorImpl}
    (hl : LoadFrame s w (r0, s0, w0)) : StepFrame s w [] (r0, s0, w0) :=
  StepFrame.after_load hl (StepFrame.refl_nil s0 w0 r0)

theorem ApplyMiniblock_eq (V : ViewOps) (X : External σ) (now : Int) (s : streamImpl)
    (w : World σ) (mb : MiniblockInfo) :
    ApplyMiniblock V X now s w mb =
      match loadInternal V X s w with
      | (some err, s1, w1) => .ok (some err, s1, w1)
      | (none, s1, w1) => applyMiniblockImplNoLock V X now s1 w1 mb := by
  unfold ApplyMiniblock
  cases hv : s.view with
  | none =>
    simp only [Option.isNone_none, if_true]
    try rfl
  | some view => simp [loadInternal_of_loaded V X s w view hv]

theorem PromoteCandidate_eq (V : ViewOps) (X : External σ) (now : Int) (s : streamImpl)
    (w : World σ) (mbHash : Bytes) (mbNum : Int) :
    PromoteCandidate V X now s w mbHash mbNum =
      match loadInternal V X s w with
      | (some err, s1, w1) => .ok (some err, s1, w1)
      | (none, s1, w1) => promoteCandidateLoaded V X now s1 w1 mbHash mbNum := by
  unfold PromoteCandidate
  cases hv : s.view with
  | none =>
    simp only [Option.isNone_none, if_true]
    try rfl
  | some view => simp [loadInternal_of_loaded V X s w view hv]

/-- A step taken after one more call to a collaborator is a step from before that call. -/
theorem StepFrame.after_call {s : streamImpl} {w : World σ} {st : σ} {e : Effect}
    {adm : List Envelope} {out : Option RiverErrorImpl × streamImpl × World σ}
    (he : e.isCallback = false) (h : StepFrame s (w.emit st e) adm out) :
    StepFrame s w adm out := by
  obtain ⟨quiet, cookie, hquiet, htrace⟩ := h.trace
  refine ⟨h.receivers, h.params, h.streamId, ⟨e :: quiet, cookie, ?_, ?_⟩⟩
  · intro x hx
    rcases List.mem_cons.1 hx with rfl | hx
    · exact he
    · exact hquiet x hx
  · rw [htrace]
    simp [World.emit, List.append_assoc]

/-- Every call returns, and what it leaves behind is a step admitting `admittedByCall`. -/
theorem runCall_step (V : ViewOps) (X : External σ) (c : Call) (s : streamImpl)
    (w : World σ) :
    ∃ res s1 w1, runCall V X c s w = .ok (res, s1, w1) ∧
      StepFrame s w (admittedByCall V X c s w) (res, s1, w1) := by
  have hl := loadInternal_frame V X s w
  rcases hload : loadInternal V X s w with ⟨r0, s0, w0⟩
  rw [hload] at hl
  cases c with
  | addEvent now e =>
    have hrun : runCall V X (.addEvent now e) s w = AddEvent V X now s w e := rfl
    cases r0 with
    | some err =>
      have h1 : AddEvent V X now s w e = .ok (some err, s0, w0) := by
        simp [AddEvent, hload]
      refine ⟨some err, s0, w0, hrun.trans h1, ?_⟩
      have hadm : admittedByCall V X (.addEvent now e) s w = [] := by
        simp [admittedByCall, hrun, h1]
      rw [hadm]
      exact StepFrame.of_load hl
    | none =>
      obtain ⟨view, hview0⟩ := Option.isSome_iff_exists.1 (hl.loaded rfl)
      have hview : s0.view = some view := hview0
      clear hview0
      obtain ⟨res, s1, w1, himpl, hcases⟩ := addEventImpl_inv V X now s0 w0 e view hview
      have h1 : AddEvent V X now s w e = .ok (res, s1, w1) := by
        simp [AddEvent, hload, himpl]
      refine ⟨res, s1, w1, hrun.trans h1, ?_⟩
      rcases hcases with ⟨newSV, hres, -, -, hstep⟩ | ⟨hres, -, hstep⟩
      · subst hres
        have hadm : admittedByCall V X (.addEvent now e) s w = [e.Envelope] := by
          simp [admittedByCall, hrun, h1]
        rw [hadm]
        exact StepFrame.after_load hl hstep
      · have hadm : admittedByCall V X (.addEvent now e) s w = [] := by
          cases res with
          | none => exact absurd rfl hres
          | some err => simp [admittedByCall, hrun, h1]
        rw [hadm]
        exact StepFrame.after_load hl hstep
  | applyMiniblock now mb =>
    have hrun : runCall V X (.applyMiniblock now mb) s w = ApplyMiniblock V X now s w mb := rfl
    cases r0 with
    | some err =>
      have h1 : ApplyMiniblock V X now s w mb = .ok (some err, s0, w0) := by
        rw [ApplyMiniblock_eq, hload]
      refine ⟨some err, s0, w0, hrun.trans h1, ?_⟩
      have hadm : admittedByCall V X (.applyMiniblock now mb) s w = [] := by
        simp [admittedByCall, hrun, h1]
      rw [hadm]
      exact StepFrame.of_load hl
    | none =>
      obtain ⟨view, hview0⟩ := Option.isSome_iff_exists.1 (hl.loaded rfl)
      have hview : s0.view = some view := hview0
      clear hview0
      obtain ⟨res, s1, w1, himpl, hcases⟩ :=
        applyMiniblockImplNoLock_inv V X now s0 w0 mb view hview
      have h1 : ApplyMiniblock V X now s w mb = .ok (res, s1, w1) := by
        rw [ApplyMiniblock_eq, hload]
        exact himpl
      refine ⟨res, s1, w1, hrun.trans h1, ?_⟩
      rcases hcases with ⟨hres, hnum, hs, hw⟩ | ⟨newSV, hres, hnum, -, -, hstep⟩ |
        ⟨hres, -, -, hstep⟩
      · subst hres hs hw
        have hadm : admittedByCall V X (.applyMiniblock now mb) s w = [] := by
          simp [admittedByCall, hrun, h1, offeredBlock, hload, hview, not_lt.2 hnum]
        rw [hadm]
        exact StepFrame.of_load hl
      · subst hres
        have hadm : admittedByCall V X (.applyMiniblock now mb) s w =
            [mb.headerEvent.Envelope] := by
          simp [admittedByCall, hrun, h1, offeredBlock, hload, hview, hnum]
        rw [hadm]
        exact StepFrame.after_load hl hstep
      · have hadm : admittedByCall V X (.applyMiniblock now mb) s w = [] := by
          cases res with
          | none => exact absurd rfl hres
          | some err => simp [admittedByCall, hrun, h1]
        rw [hadm]
        exact StepFrame.after_load hl hstep
  | promoteCandidate now mbHash mbNum =>
    have hrun : runCall V X (.promoteCandidate now mbHash mbNum) s w =
        PromoteCandidate V X now s w mbHash mbNum := rfl
    cases r0 with
    | some err =>
      have h1 : PromoteCandidate V X now s w mbHash mbNum = .ok (some err, s0, w0) := by
        rw [PromoteCandidate_eq, hload]
      refine ⟨some err, s0, w0, hrun.trans h1, ?_⟩
      have hadm : admittedByCall V X (.promoteCandidate now mbHash mbNum) s w = [] := by
        simp [admittedByCall, hrun, h1]
      rw [hadm]
      exact StepFrame.of_load hl
    | none =>
      obtain ⟨view, hview0⟩ := Option.isSome_iff_exists.1 (hl.loaded rfl)
      have hview : s0.view = some view := hview0
      clear hview0
      have h0 : PromoteCandidate V X now s w mbHash mbNum =
          promoteCandidateLoaded V X now s0 w0 mbHash mbNum := by
        rw [PromoteCandidate_eq, hload]
      have hquiet : (Effect.ReadMiniblockCandidate s0.streamId mbHash mbNum).isCallback =
          false := rfl
      cases hrd : (X.ReadMiniblockCandidate w0.store s0.streamId mbHash mbNum).1 with
      | error err =>
        have h1 : PromoteCandidate V X now s w mbHash mbNum = .ok (some err, s0,
            w0.emit (X.ReadMiniblockCandidate w0.store s0.streamId mbHash mbNum).2
              (Effect.ReadMiniblockCandidate s0.streamId mbHash mbNum)) := by
          rw [h0]
          simp [promoteCandidateLoaded, hrd]
        refine ⟨_, _, _, hrun.trans h1, ?_⟩
        have hadm : admittedByCall V X (.promoteCandidate now mbHash mbNum) s w = [] := by
          simp [admittedByCall, hrun, h1]
        rw [hadm]
        exact StepFrame.after_load hl (StepFrame.after_call hquiet (StepFrame.refl_nil _ _ _))
      | ok b =>
        cases hp : V.NewMiniblockInfoFromBytes b mbNum with
        | error err =>
          have h1 : PromoteCandidate V X now s w mbHash mbNum = .ok (some err, s0,
              w0.emit (X.ReadMiniblockCandidate w0.store s0.streamId mbHash mbNum).2
                (Effect.ReadMiniblockCandidate s0.streamId mbHash mbNum)) := by
            rw [h0]
            simp [promoteCandidateLoaded, hrd, hp]
          refine ⟨_, _, _, hrun.trans h1, ?_⟩
          have hadm : admittedByCall V X (.promoteCandidate now mbHash mbNum) s w = [] := by
            simp [admittedByCall, hrun, h1]
          rw [hadm]
          exact StepFrame.after_load hl
            (StepFrame.after_call hquiet (StepFrame.refl_nil _ _ _))
        | ok mb =>
          obtain ⟨res, s1, w1, himpl, hcases⟩ := applyMiniblockImplNoLock_inv V X now s0
            (w0.emit (X.ReadMiniblockCandidate w0.store s0.streamId mbHash mbNum).2
              (Effect.ReadMiniblockCandidate s0.streamId mbHash mbNum)) mb view hview
          have h1 : PromoteCandidate V X now s w mbHash mbNum = .ok (res, s1, w1) := by
            rw [h0]
            simp [promoteCandidateLoaded, hrd, hp, himpl]
          refine ⟨res, s1, w1, hrun.trans h1, ?_⟩
          have hoff : offeredBlock V X (.promoteCandidate now mbHash mbNum) s w = some mb := by
            simp [offeredBlock, hload, hrd, hp]
          rcases hcases with ⟨hres, hnum, hs, hw⟩ | ⟨newSV, hres, hnum, -, -, hstep⟩ |
            ⟨hres, -, -, hstep⟩
          · subst hres hs hw
            have hadm : admittedByCall V X (.promoteCandidate now mbHash mbNum) s w = [] := by
              simp [admittedByCall, hrun, h1, hoff, hload, hview, not_lt.2 hnum]
            rw [hadm]
            exact StepFrame.after_load hl
              (StepFrame.after_call hquiet (StepFrame.refl_nil _ _ _))
          · subst hres
            have hadm : admittedByCall V X (.promoteCandidate now mbHash mbNum) s w =
                [mb.headerEvent.Envelope] := by
              simp [admittedByCall, hrun, h1, hoff, hload, hview, hnum]
            rw [hadm]
            exact StepFrame.after_load hl (StepFrame.after_call hquiet hstep)
          · have hadm : admittedByCall V X (.promoteCandidate now mbHash mbNum) s w = [] := by
              cases res with
              | none => exact absurd rfl hres
              | some err => simp [admittedByCall, hrun, h1]
            rw [hadm]
            exact StepFrame.after_load hl (StepFrame.after_call hquiet hstep)

theorem callbacksTo_append (r : SyncResultReceiver) (a b : List Effect) :
    callbacksTo r (a ++ b) = callbacksTo r a ++ callbacksTo r b := by
  simp [callbacksTo]

theorem callbacksTo_quiet (r : SyncResultReceiver) (ext : List Effect)
    (h : ∀ e ∈ ext, e.isCallback = false) : callbacksTo r ext = [] := by
  induction ext with
  | nil => rfl
  | cons e es ih =>
    have he := h e (List.mem_cons_self _ _)
    have hes : ∀ x ∈ es, x.isCallback = false := fun x hx => h x (List.mem_cons_of_mem _ hx)
    have := ih hes
    cases e <;> simp_all [callbacksTo, Effect.isCallback]

theorem callbacksTo_fanout_not_mem (r : SyncResultReceiver) (resp : StreamAndCookie)
    (l : List SyncResultReceiver) (h : r ∉ l) :
    callbacksTo r (l.map fun x => Effect.OnUpdate x resp) = [] := by
  induction l with
  | nil => rfl
  | cons a as ih =>
    have h1 : a ≠ r := fun e => h (e ▸ List.mem_cons_self _ _)
    have h2 : r ∉ as := fun e => h (List.mem_cons_of_mem _ e)
    have := ih h2
    simp_all [callbacksTo]

theorem eventListsTo_append (r : SyncResultReceiver) (a b : List Effect) :
    eventListsTo r (a ++ b) = eventListsTo r a ++ eventListsTo r b := by
  simp [eventListsTo, updatesTo_append]

theorem envelopesTo_eq_flatten (r : SyncResultReceiver) (t : List Effect) :
    envelopesTo r t = (eventListsTo r t).flatten := by
  simp [envelopesTo, eventListsTo, List.flatMap, List.map_map]

/-- The updates a step delivers: one, carrying what was admitted, to each registered
receiver when something was admitted; none otherwise. -/
theorem StepFrame.updates {s : streamImpl} {w : World σ} {adm : List Envelope}
    {out : Option RiverErrorImpl × streamImpl × World σ} (h : StepFrame s w adm out) :
    ∃ cookie, ∀ q, updatesTo q out.2.2.trace = updatesTo q w.trace ++
      (if q ∈ registered s ∧ adm ≠ [] then
        [{ Events := adm, NextSyncCookie := cookie, Miniblocks := [], SyncReset := false }]
      else []) := by
  obtain ⟨quiet, cookie, hquiet, htrace⟩ := h.trace
  refine ⟨cookie, fun q => ?_⟩
  rw [htrace]
  by_cases hadm : adm = []
  · simp [hadm, updatesTo_append, updatesTo_quiet q quiet hquiet]
  · simp only [hadm, if_false]
    rw [updatesTo_after_fanout q _ w.trace quiet (registered s) (registered_nodup s) hquiet]
    by_cases hq : q ∈ registered s <;> simp [hq, hadm]

/-- A step makes no callback to a receiver that is not registered. -/
theorem StepFrame.callbacks_not_mem {s : streamImpl} {w : World σ} {adm : List Envelope}
    {out : Option RiverErrorImpl × streamImpl × World σ} (h : StepFrame s w adm out)
    (q : SyncResultReceiver) (hq : q ∉ registered s) :
    callbacksTo q out.2.2.trace = callbacksTo q w.trace := by
  obtain ⟨quiet, cookie, hquiet, htrace⟩ := h.trace
  rw [htrace]
  by_cases hadm : adm = []
  · simp [hadm, callbacksTo_append, callbacksTo_quiet q quiet hquiet]
  · simp only [hadm, if_false]
    rw [callbacksTo_append, callbacksTo_append, callbacksTo_quiet q quiet hquiet,
      callbacksTo_fanout_not_mem q _ _ hq]
    simp

theorem admittedByCall_short (V : ViewOps) (X : External σ) (c : Call) (s : streamImpl)
    (w : World σ) :
    admittedByCall V X c s w = [] ∨ ∃ e, admittedByCall V X c s w = [e] := by
  unfold admittedByCall
  split
  · split
    · exact Or.inr ⟨_, rfl⟩
    · split
      · split
        · exact Or.inr ⟨_, rfl⟩
        · exact Or.inl rfl
      · exact Or.inl rfl
  · exact Or.inl rfl

/-- The event lists a call delivers to a receiver. -/
theorem runCall_eventLists (V : ViewOps) (X : External σ) (c : Call) (s : streamImpl)
    (w : World σ) (res : Option RiverErrorImpl) (s1 : streamImpl) (w1 : World σ)
    (h : StepFrame s w (admittedByCall V X c s w) (res, s1, w1)) (q : SyncResultReceiver) :
    eventListsTo q w1.trace = eventListsTo q w.trace ++
      (if q ∈ registered s then (admittedByCall V X c s w).map fun e => [e] else []) := by
  obtain ⟨cookie, hu⟩ := h.updates
  have := hu q
  simp only at this
  unfold eventListsTo
  rw [this]
  rcases admittedByCall_short V X c s w with h0 | ⟨e, h1⟩
  · simp [h0]
  · by_cases hq : q ∈ registered s <;> simp [h1, hq]

/-- Every sequence of calls returns; it leaves the receiver set alone, delivers to each
registered receiver one update per admitted envelope, in call order, and calls no
unregistered receiver. -/
theorem runCalls_steps (V : ViewOps) (X : External σ) (calls : List Call) (s : streamImpl)
    (w : World σ) :
    ∃ rs s1 w1, runCalls V X calls s w = .ok (rs, s1, w1) ∧
      s1.receivers = s.receivers ∧ s1.params = s.params ∧ s1.streamId = s.streamId ∧
      (∀ q, eventListsTo q w1.trace = eventListsTo q w.trace ++
        (if q ∈ registered s then (admittedBy V X calls s w).map fun e => [e] else [])) ∧
      (∀ q, q ∉ registered s → callbacksTo q w1.trace = callbacksTo q w.trace) := by
  induction calls generalizing s w with
  | nil =>
    exact ⟨[], s, w, rfl, rfl, rfl, rfl, fun q => by simp [admittedBy], fun q _ => rfl⟩
  | cons c cs ih =>
    obtain ⟨res, s1, w1, hrun, hstep⟩ := runCall_step V X c s w
    obtain ⟨rs, s2, w2, hrest, hrecv, hpar, hsid, hev, hcb⟩ := ih s1 w1
    have hreg : registered s1 = registered s := registered_congr hstep.receivers
    refine ⟨res :: rs, s2, w2, ?_, hrecv.trans hstep.receivers, hpar.trans hstep.params,
      hsid.trans hstep.streamId, ?_, ?_⟩
    · simp [runCalls, hrun, hrest]
    · intro q
      rw [hev q, runCall_eventLists V X c s w res s1 w1 hstep q, hreg]
      by_cases hq : q ∈ registered s
      · simp [hq, admittedBy, hrun]
      · simp [hq]
    · intro q hq
      rw [hcb q (hreg ▸ hq)]
      exact hstep.callbacks_not_mem q hq

theorem Sub_of_loaded (V : ViewOps) (X : External σ) (now : Int) (s : streamImpl)
    (w : World σ) (cookie : SyncCookie) (r : SyncResultReceiver) (view : streamViewImpl)
    (hview : s.view = some view)
    (hnode : cookie.NodeAddress = s.params.Wallet.Address)
    (hstream : cookie.StreamId = s.streamId)
    (hslot0 : 0 ≤ cookie.MinipoolSlot) :
    Sub V X now s w cookie r = subLoaded V now s w cookie r := by
  have hl := loadInternal_of_loaded V X s w view hview
  have hs : s.streamId = cookie.StreamId := hstream.symm
  have h1 : ¬ cookie.MinipoolSlot < 0 := not_lt.2 hslot0
  simp [Sub, hnode, StreamId.EqualsBytes, hs, h1, hl]

theorem subLoaded_same_gen (V : ViewOps) (now : Int) (s : streamImpl) (w : World σ)
    (cookie : SyncCookie) (r : SyncResultReceiver) (view : streamViewImpl)
    (hview : s.view = some view)
    (hgen : cookie.MinipoolGen = view.minipool.generation)
    (hslot0 : 0 ≤ cookie.MinipoolSlot)
    (hslot : cookie.MinipoolSlot ≤ view.minipool.events.length) :
    subLoaded V now s w cookie r = .ok (none,
      addReceiver { s with lastAccessedTime := now } r,
      { w with trace := w.trace ++ [Effect.OnUpdate r
        { Events := (view.minipool.events.drop cookie.MinipoolSlot.toNat).map
            fun e => e.Envelope,
          NextSyncCookie := V.SyncCookie view s.params.Wallet.Address,
          Miniblocks := [], SyncReset := false }] }) := by
  have h2 : ¬ cookie.MinipoolSlot > (view.minipool.events.length : Int) := not_lt.2 hslot
  have h3 : ¬ ((view.minipool.events.length : Int) - cookie.MinipoolSlot < 0) := by omega
  simp only [subLoaded, hview, hgen, if_true, h2, makeSlice, h3, addReceiver_params, if_false]
  by_cases hlt : cookie.MinipoolSlot < (view.minipool.events.length : Int)
  · have h4 : ¬ (cookie.MinipoolSlot < 0 ∨
        (view.minipool.events.length : Int) < cookie.MinipoolSlot) := by omega
    simp only [hlt, if_true, sliceFrom, h4, if_false]
  · have h5 : cookie.MinipoolSlot.toNat = view.minipool.events.length := by omega
    simp only [hlt, if_false, h5, List.drop_length, List.map_nil]

theorem subLoaded_miss (V : ViewOps) (now : Int) (s : streamImpl) (w : World σ)
    (cookie : SyncCookie) (r : SyncResultReceiver) (view : streamViewImpl)
    (err : RiverErrorImpl)
    (hview : s.view = some view)
    (hgen : cookie.MinipoolGen ≠ view.minipool.generation)
    (hmiss : V.indexOfMiniblockWithNum view cookie.MinipoolGen = .error err) :
    subLoaded V now s w cookie r = .ok (none,
      addReceiver { s with lastAccessedTime := now } r,
      { w with trace := w.trace ++ [Effect.OnUpdate r
        { Events := V.MinipoolEnvelopes view,
          NextSyncCookie := V.SyncCookie view s.params.Wallet.Address,
          Miniblocks := V.MiniblocksFromLastSnapshot view, SyncReset := true }] }) := by
  simp only [subLoaded, hview, hgen, if_false, hmiss, addReceiver_params]

theorem subLoaded_hit (V : ViewOps) (now : Int) (s : streamImpl) (w : World σ)
    (cookie : SyncCookie) (r : SyncResultReceiver) (view : streamViewImpl) (i : Int)
    (envelopes : List Envelope)
    (hview : s.view = some view)
    (hgen : cookie.MinipoolGen ≠ view.minipool.generation)
    (hidx : V.indexOfMiniblockWithNum view cookie.MinipoolGen = .ok i)
    (hfe : V.forEachEvent view i ([] : List Envelope) collectEnvelope = (envelopes, none)) :
    subLoaded V now s w cookie r = .ok (none,
      addReceiver { s with lastAccessedTime := now } r,
      { w with trace := w.trace ++ [Effect.OnUpdate r
        { Events := envelopes,
          NextSyncCookie := V.SyncCookie view s.params.Wallet.Address,
          Miniblocks := [], SyncReset := false }] }) := by
  simp only [subLoaded, hview, hgen, if_false, hidx, hfe, addReceiver_params]

theorem addReceiver_of_mem (s : streamImpl) (r : SyncResultReceiver)
    (h : r ∈ registered s) : addReceiver s r = s := by
  obtain ⟨params, sid, nodes, view, t, recv⟩ := s
  cases recv with
  | none => simp [registered] at h
  | some rs =>
    have hm : r ∈ rs.elems := h
    simp only [addReceiver, ReceiverSet.Add]
    congr 2
    obtain ⟨elems, nd⟩ := rs
    simp only at hm
    simp [List.insert_of_mem hm]

/-- When `forEachEvent` cannot fail on an index that was found, `Sub` returns, and the
receiver set afterwards is the old one, or the old one with the receiver added. -/
theorem Sub_receivers (V : ViewOps) (X : External σ) (now : Int) (s : streamImpl)
    (w : World σ) (cookie : SyncCookie) (r : SyncResultReceiver)
    (hfe : ∀ view i, V.indexOfMiniblockWithNum view cookie.MinipoolGen = .ok i →
      (V.forEachEvent view i ([] : List Envelope) collectEnvelope).2 = none) :
    ∃ res s1 w1, Sub V X now s w cookie r = .ok (res, s1, w1) ∧
      (s1.receivers = s.receivers ∨ s1.receivers = (addReceiver s r).receivers) := by
  unfold Sub
  split
  · exact ⟨_, _, _, rfl, Or.inl rfl⟩
  · split
    · exact ⟨_, _, _, rfl, Or.inl rfl⟩
    · split
      · exact ⟨_, _, _, rfl, Or.inl rfl⟩
      · have hl := loadInternal_frame V X s w
        rcases hload : loadInternal V X s w with ⟨r0, s0, w0⟩
        rw [hload] at hl
        have hrecv : s0.receivers = s.receivers := hl.receivers
        have hadd : ∀ t, (addReceiver { s0 with lastAccessedTime := t } r).receivers =
            (addReceiver s r).receivers := by
          intro t
          unfold addReceiver
          simp only [hrecv]
          cases s.receivers <;> rfl
        cases r0 with
        | some err => exact ⟨_, _, _, rfl, Or.inl hrecv⟩
        | none =>
          obtain ⟨view, hview0⟩ := Option.isSome_iff_exists.1 (hl.loaded rfl)
          have hview : s0.view = some view := hview0
          simp only
          by_cases hgen : cookie.MinipoolGen = view.minipool.generation
          · by_cases hslot : cookie.MinipoolSlot ≤ view.minipool.events.length
            · have hslot0 : 0 ≤ cookie.MinipoolSlot := by omega
              exact ⟨_, _, _, subLoaded_same_gen V now s0 w0 cookie r view hview hgen hslot0
                hslot, Or.inr (hadd now)⟩
            · have h2 : cookie.MinipoolSlot > (view.minipool.events.length : Int) :=
                not_le.1 hslot
              refine ⟨some (RiverError ErrCode.Err_BAD_SYNC_COOKIE "Stream.Sub: bad slot"),
                { s0 with lastAccessedTime := now }, w0, ?_, Or.inl hrecv⟩
              simp only [subLoaded, hview, hgen, if_true, h2]
          · cases hidx : V.indexOfMiniblockWithNum view cookie.MinipoolGen with
            | error err =>
              exact ⟨_, _, _, subLoaded_miss V now s0 w0 cookie r view err hview hgen hidx,
                Or.inr (hadd now)⟩
            | ok i =>
              have h3 := hfe view i hidx
              have h4 : V.forEachEvent view i ([] : List Envelope) collectEnvelope =
                  ((V.forEachEvent view i ([] : List Envelope) collectEnvelope).1, none) := by
                rw [← h3]
              exact ⟨_, _, _, subLoaded_hit V now s0 w0 cookie r view i _ hview hgen hidx h4,
                Or.inr (hadd now)⟩

theorem findBlock_mem (n : Int) (bs : List MiniblockInfo) (i j : Int)
    (h : findBlock n bs i = some j) : ∃ b ∈ bs, b.Num = n := by
  induction bs generalizing i with
  | nil => simp [findBlock] at h
  | cons b bs ih =>
    unfold findBlock at h
    by_cases hb : b.Num = n
    · exact ⟨b, List.mem_cons_self _ _, hb⟩
    · simp only [hb, if_false] at h
      obtain ⟨b', hb', hn⟩ := ih (i + 1) h
      exact ⟨b', List.mem_cons_of_mem _ hb', hn⟩

theorem specForEachEvent_of_found (C : Codec) (sid : StreamId) (view : streamViewImpl)
    (n i : Int) (h : (specView C sid).indexOfMiniblockWithNum view n = .ok i) :
    (specView C sid).forEachEvent view i ([] : List Envelope) collectEnvelope =
      (((view.blocks.drop i.toNat).flatMap blockEvents ++ view.minipool.events).map
        fun e => e.Envelope, none) := by
  have hrange : 0 ≤ i ∧ i ≤ view.blocks.length := by
    simp only [specView, specIndexOfMiniblockWithNum] at h
    cases hf : findBlock n view.blocks 0 with
    | none => simp [hf] at h
    | some j =>
      simp only [hf] at h
      injection h with h
      subst h
      have := findBlock_range _ _ _ _ hf
      omega
  exact specForEachEvent_collect view i hrange.1 hrange.2

/-- A successful `AddEvent` delivers exactly one update, carrying the event, to every
registered receiver. -/
theorem AddEvent_nil_updates (V : ViewOps) (X : External σ) (now : Int) (s s2 : streamImpl)
    (w w2 : World σ) (event : ParsedEvent)
    (hadd : AddEvent V X now s w event = .ok (none, s2, w2)) :
    ∃ cookie, ∀ q, updatesTo q w2.trace = updatesTo q w.trace ++
      (if q ∈ registered s then
        [{ Events := [event.Envelope], NextSyncCookie := cookie, Miniblocks := [],
           SyncReset := false }]
      else []) := by
  obtain ⟨res', s', w', hrun, hstep⟩ := runCall_step V X (.addEvent now event) s w
  have hrun' : runCall V X (.addEvent now event) s w = .ok (none, s2, w2) := hadd
  rw [hrun'] at hrun
  injection hrun with hrun
  injection hrun with h1 h2
  injection h2 with h2 h3
  subst h1 h2 h3
  have hadm : admittedByCall V X (.addEvent now event) s w = [event.Envelope] := by
    simp [admittedByCall, hrun']
  rw [hadm] at hstep
  obtain ⟨cookie, hu⟩ := hstep.updates
  refine ⟨cookie, fun q => ?_⟩
  have := hu q
  simpa using this

theorem syncErrorsTo_append (r : SyncResultReceiver) (a b : List Effect) :
    syncErrorsTo r (a ++ b) = syncErrorsTo r a ++ syncErrorsTo r b := by
  simp [syncErrorsTo, List.filterMap_append]

theorem syncErrorsTo_signal (r : SyncResultReceiver) (err : RiverErrorImpl)
    (l : List SyncResultReceiver) (hn : l.Nodup) :
    syncErrorsTo r (l.map fun x => Effect.OnSyncError x err) =
      if r ∈ l then [err] else [] := by
  induction l with
  | nil => rfl
  | cons a as ih =>
    have hn' := List.nodup_cons.1 hn
    have ih' := ih hn'.2
    by_cases ha : a = r
    · subst ha
      simp only [syncErrorsTo] at ih' ⊢
      simp [ih', hn'.1]
    · have hne : ¬ r = a := fun e => ha e.symm
      simp only [syncErrorsTo] at ih' ⊢
      simp [ih', ha, hne]

theorem updatesTo_signal (r : SyncResultReceiver) (err : RiverErrorImpl)
    (l : List SyncResultReceiver) :
    updatesTo r (l.map fun x => Effect.OnSyncError x err) = [] := by
  induction l with
  | nil => rfl
  | cons a as ih =>
    simp only [updatesTo] at ih ⊢
    simp [ih]

theorem callbacksTo_signal_not_mem (r : SyncResultReceiver) (err : RiverErrorImpl)
    (l : List SyncResultReceiver) (h : r ∉ l) :
    callbacksTo r (l.map fun x => Effect.OnSyncError x err) = [] := by
  induction l with
  | nil => rfl
  | cons a as ih =>
    have h1 : a ≠ r := fun e => h (e ▸ List.mem_cons_self _ _)
    have h2 : r ∉ as := fun e => h (List.mem_cons_of_mem _ e)
    have := ih h2
    simp_all [callbacksTo]

theorem ForceFlush_trace (s : streamImpl) (w : World σ) :
    (ForceFlush s w).2.store = w.store ∧
    (ForceFlush s w).2.trace = w.trace ++ (registered s).map fun r =>
      Effect.OnSyncError r streamUnloaded := by
  obtain ⟨params, sid, nodes, view, t, recv⟩ := s
  unfold ForceFlush registered
  cases recv with
  | none => simp
  | some rs =>
    by_cases hc : rs.Cardinality > 0
    · simp [hc, streamUnloaded]
    · have : rs.elems = [] := by
        have : rs.elems.length = 0 := by simpa [ReceiverSet.Cardinality] using hc
        exact List.length_eq_zero.1 this
      simp [hc, ReceiverSet.Iter, this]

theorem tryCleanup_frame (now : Int) (s : streamImpl) (w : World σ) (ttl : Int) :
    (tryCleanup now s w ttl).2.1.receivers = s.receivers ∧
    (tryCleanup now s w ttl).2.2 = w := by
  unfold tryCleanup
  cases s.view with
  | none => exact ⟨rfl, rfl⟩
  | some view =>
    simp only
    split <;> exact ⟨rfl, rfl⟩

theorem ReceiverSet.ext_elems {a b : ReceiverSet} (h : a.elems = b.elems) : a = b := by
  cases a; cases b; cases h; rfl

theorem AddEvent_nil_view (V : ViewOps) (X : External σ) (now : Int) (s s1 : streamImpl)
    (w w1 : World σ) (e : ParsedEvent) (view : streamViewImpl)
    (hview : s.view = some view)
    (h : AddEvent V X now s w e = .ok (none, s1, w1)) :
    ∃ newSV, V.copyAndAddEvent view e = .ok newSV ∧ s1.view = some newSV ∧
      s1.params = s.params ∧ s1.streamId = s.streamId := by
  have hl := loadInternal_of_loaded V X s w view hview
  obtain ⟨res, s', w', himpl, hcases⟩ := addEventImpl_inv V X now s w e view hview
  have h1 : AddEvent V X now s w e = .ok (res, s', w') := by
    simp [AddEvent, hl, himpl]
  rw [h1] at h
  injection h with h
  injection h with h1 h2
  injection h2 with h2 h3
  subst h1 h2 h3
  rcases hcases with ⟨newSV, -, hcopy, hv, hstep⟩ | ⟨hres, -, -⟩
  · exact ⟨newSV, hcopy, hv, hstep.params, hstep.streamId⟩
  · exact absurd rfl hres

/-- How one call changes the view of a loaded stream, and what it admits. -/
theorem runCall_view (V : ViewOps) (X : External σ) (c : Call) (s s1 : streamImpl)
    (w w1 : World σ) (res : Option RiverErrorImpl) (view : streamViewImpl)
    (hview : s.view = some view)
    (hrun : runCall V X c s w = .ok (res, s1, w1)) :
    ∃ v1, s1.view = some v1 ∧ s1.params = s.params ∧ s1.streamId = s.streamId ∧
      ((v1 = view ∧ admittedByCall V X c s w = []) ∨
       (∃ e, V.copyAndAddEvent view e = .ok v1 ∧
          admittedByCall V X c s w = [e.Envelope]) ∨
       (∃ mb, V.copyAndApplyBlock view mb s.params.ChainConfig = .ok v1 ∧
          admittedByCall V X c s w = [mb.headerEvent.Envelope])) := by
  have hl := loadInternal_of_loaded V X s w view hview
  cases c with
  | addEvent now e =>
    have hrun0 : runCall V X (.addEvent now e) s w = AddEvent V X now s w e := rfl
    obtain ⟨res', s', w', himpl, hcases⟩ := addEventImpl_inv V X now s w e view hview
    have h1 : AddEvent V X now s w e = .ok (res', s', w') := by
      simp [AddEvent, hl, himpl]
    rw [hrun0, h1] at hrun
    injection hrun with hrun
    injection hrun with h1' h2
    injection h2 with h2 h3
    subst h1' h2 h3
    rcases hcases with ⟨newSV, hres, hcopy, hv, hstep⟩ | ⟨hres, hs, hstep⟩
    · subst hres
      refine ⟨newSV, hv, hstep.params, hstep.streamId, Or.inr (Or.inl ⟨e, hcopy, ?_⟩)⟩
      simp [admittedByCall, hrun0, h1]
    · subst hs
      refine ⟨view, hview, rfl, rfl, Or.inl ⟨rfl, ?_⟩⟩
      cases res' with
      | none => exact absurd rfl hres
      | some err => simp [admittedByCall, hrun0, h1]
  | applyMiniblock now mb =>
    have hrun0 : runCall V X (.applyMiniblock now mb) s w =
        ApplyMiniblock V X now s w mb := rfl
    obtain ⟨res', s', w', himpl, hcases⟩ :=
      applyMiniblockImplNoLock_inv V X now s w mb view hview
    have h1 : ApplyMiniblock V X now s w mb = .ok (res', s', w') := by
      rw [ApplyMiniblock_eq, hl]
      exact himpl
    rw [hrun0, h1] at hrun
    injection hrun with hrun
    injection hrun with h1' h2
    injection h2 with h2 h3
    subst h1' h2 h3
    rcases hcases with ⟨hres, hnum, hs, hw⟩ | ⟨newSV, hres, hnum, hcopy, hv, hstep⟩ |
      ⟨hres, -, hs, hstep⟩
    · subst hres hs hw
      refine ⟨view, hview, rfl, rfl, Or.inl ⟨rfl, ?_⟩⟩
      simp [admittedByCall, hrun0, h1, offeredBlock, hl, hview, not_lt.2 hnum]
    · subst hres
      refine ⟨newSV, hv, hstep.params, hstep.streamId, Or.inr (Or.inr ⟨mb, hcopy, ?_⟩)⟩
      simp [admittedByCall, hrun0, h1, offeredBlock, hl, hview, hnum]
    · subst hs
      refine ⟨view, hview, rfl, rfl, Or.inl ⟨rfl, ?_⟩⟩
      cases res' with
      | none => exact absurd rfl hres
      | some err => simp [admittedByCall, hrun0, h1]
  | promoteCandidate now mbHash mbNum =>
    have hrun0 : runCall V X (.promoteCandidate now mbHash mbNum) s w =
        PromoteCandidate V X now s w mbHash mbNum := rfl
    have h0 : PromoteCandidate V X now s w mbHash mbNum =
        promoteCandidateLoaded V X now s w mbHash mbNum := by
      rw [PromoteCandidate_eq, hl]
    cases hrd : (X.ReadMiniblockCandidate w.store s.streamId mbHash mbNum).1 with
    | error err =>
      have h1 : PromoteCandidate V X now s w mbHash mbNum = .ok (some err, s,
          w.emit (X.ReadMiniblockCandidate w.store s.streamId mbHash mbNum).2
            (Effect.ReadMiniblockCandidate s.streamId mbHash mbNum)) := by
        rw [h0]
        simp [promoteCandidateLoaded, hrd]
      rw [hrun0, h1] at hrun
      injection hrun with hrun
      injection hrun with h1' h2
      injection h2 with h2 h3
      subst h1' h2 h3
      refine ⟨view, hview, rfl, rfl, Or.inl ⟨rfl, ?_⟩⟩
      simp [admittedByCall, hrun0, h1]
    | ok b =>
      cases hp : V.NewMiniblockInfoFromBytes b mbNum with
      | error err =>
        have h1 : PromoteCandidate V X now s w mbHash mbNum = .ok (some err, s,
            w.emit (X.ReadMiniblockCandidate w.store s.streamId mbHash mbNum).2
              (Effect.ReadMiniblockCandidate s.streamId mbHash mbNum)) := by
          rw [h0]
          simp [promoteCandidateLoaded, hrd, hp]
        rw [hrun0, h1] at hrun
        injection hrun with hrun
        injection hrun with h1' h2
        injection h2 with h2 h3
        subst h1' h2 h3
        refine ⟨view, hview, rfl, rfl, Or.inl ⟨rfl, ?_⟩⟩
        simp [admittedByCall, hrun0, h1]
      | ok mb =>
        obtain ⟨res', s', w', himpl, hcases⟩ := applyMiniblockImplNoLock_inv V X now s
          (w.emit (X.ReadMiniblockCandidate w.store s.streamId mbHash mbNum).2
            (Effect.ReadMiniblockCandidate s.streamId mbHash mbNum)) mb view hview
        have h1 : PromoteCandidate V X now s w mbHash mbNum = .ok (res', s', w') := by
          rw [h0]
          simp [promoteCandidateLoaded, hrd, hp, himpl]
        have hoff : offeredBlock V X (.promoteCandidate now mbHash mbNum) s w = some mb := by
          simp [offeredBlock, hl, hrd, hp]
        rw [hrun0, h1] at hrun
        injection hrun with hrun
        injection hrun with h1' h2
        injection h2 with h2 h3
        subst h1' h2 h3
        rcases hcases with ⟨hres, hnum, hs, hw⟩ | ⟨newSV, hres, hnum, hcopy, hv, hstep⟩ |
          ⟨hres, -, hs, hstep⟩
        · subst hres hs
          refine ⟨view, hview, rfl, rfl, Or.inl ⟨rfl, ?_⟩⟩
          simp [admittedByCall, hrun0, h1, hoff, hl, hview, not_lt.2 hnum]
        · subst hres
          refine ⟨newSV, hv, hstep.params, hstep.streamId, Or.inr (Or.inr ⟨mb, hcopy, ?_⟩)⟩
          simp [admittedByCall, hrun0, h1, hoff, hl, hview, hnum]
        · subst hs
          refine ⟨view, hview, rfl, rfl, Or.inl ⟨rfl, ?_⟩⟩
          cases res' with
          | none => exact absurd rfl hres
          | some err => simp [admittedByCall, hrun0, h1]

theorem runCalls_cons_inv (V : ViewOps) (X : External σ) (c : Call) (cs : List Call)
    (s s2 : streamImpl) (w w2 : World σ) (rs : List (Option RiverErrorImpl))
    (h : runCalls V X (c :: cs) s w = .ok (rs, s2, w2)) :
    ∃ res s1 w1 rs', runCall V X c s w = .ok (res, s1, w1) ∧
      runCalls V X cs s1 w1 = .ok (rs', s2, w2) ∧ rs = res :: rs' := by
  unfold runCalls at h
  cases h1 : runCall V X c s w with
  | error p => simp [h1] at h
  | ok out =>
    obtain ⟨res, s1, w1⟩ := out
    simp only [h1] at h
    cases h2 : runCalls V X cs s1 w1 with
    | error p => simp [h2] at h
    | ok out2 =>
      obtain ⟨rs', s2', w2'⟩ := out2
      simp only [h2] at h
      injection h with h
      injection h with ha hb
      injection hb with hb hc
      subst ha hb hc
      exact ⟨res, s1, w1, rs', rfl, h2, rfl⟩

theorem mem_registered_Unsub (s : streamImpl) (r q : SyncResultReceiver) :
    q ∈ registered (Unsub s r) ↔ q ∈ registered s ∧ q ≠ r := by
  obtain ⟨params, sid, nodes, view, t, recv⟩ := s
  cases recv with
  | none => simp [Unsub, registered]
  | some rs =>
    simp only [Unsub, registered, ReceiverSet.Remove, ReceiverSet.Iter]
    rw [rs.nodup.mem_erase_iff]
    exact and_comm

end Steps

/-! ## Lemmas on the view of the specification -/

section SpecView
variable {σ : Type}

theorem specCopyAndAddEvent_ok (v v1 : streamViewImpl) (e : ParsedEvent)
    (h : specCopyAndAddEvent v e = .ok v1) :
    v1 = { v with minipool := { v.minipool with events := v.minipool.events ++ [e] } } := by
  unfold specCopyAndAddEvent at h
  split at h
  · cases h
  · injection h with h
    exact h.symm

theorem specCopyAndApplyBlock_ok (v v1 : streamViewImpl) (mb : MiniblockInfo)
    (cfg : ChainConfig) (h : specCopyAndApplyBlock v mb cfg = .ok v1) :
    ∃ header, mb.headerEvent.Event.MiniblockHeader = some header ∧
      mb.Num = v.minipool.generation ∧
      (∀ e ∈ mb.events, e ∈ v.minipool.events) ∧
      v1.streamId = v.streamId ∧
      v1.blocks = (if header.Snapshot.isSome then [mb] else v.blocks ++ [mb]) ∧
      v1.minipool.events = v.minipool.events.filter (fun e => !decide (e ∈ mb.events)) ∧
      v1.minipool.generation = v.minipool.generation + 1 := by
  unfold specCopyAndApplyBlock at h
  cases hh : mb.headerEvent.Event.MiniblockHeader with
  | none => simp [hh] at h
  | some header =>
    simp only [hh] at h
    split at h
    · cases h
    · split at h
      · cases h
      · split at h
        · cases h
        · rename_i h1 h2 h3
          injection h with h
          subst h
          refine ⟨header, rfl, not_not.1 h1, ?_, rfl, rfl, rfl, rfl⟩
          intro e he
          have h4 : (mb.events.all fun e => decide (e ∈ v.minipool.events)) = true := by
            simpa using h3
          have := List.all_eq_true.1 h4 e he
          simpa using this

theorem findBlock_append (n : Int) (bs cs : List MiniblockInfo) (i : Int) :
    findBlock n (bs ++ cs) i =
      match findBlock n bs i with
      | some j => some j
      | none => findBlock n cs (i + bs.length) := by
  induction bs generalizing i with
  | nil => simp [findBlock]
  | cons b bs ih =>
    simp only [List.cons_append, findBlock]
    by_cases hb : b.Num = n
    · simp [hb]
    · have hl : i + 1 + (bs.length : Int) = i + ((bs.length : Int) + 1) := by ring
      have := ih (i + 1)
      rw [hl] at this
      simpa [hb] using this

theorem findBlock_none (n : Int) (bs : List MiniblockInfo) (i : Int)
    (h : ∀ b ∈ bs, b.Num ≠ n) : findBlock n bs i = none := by
  induction bs generalizing i with
  | nil => rfl
  | cons b bs ih =>
    have hb : b.Num ≠ n := h b (List.mem_cons_self _ _)
    simp only [findBlock, hb, if_false]
    exact ih (i + 1) fun b' hb' => h b' (List.mem_cons_of_mem _ hb')

theorem mem_replayFrom_minipool (v : streamViewImpl) (i : Nat) (e : ParsedEvent)
    (h : e ∈ v.minipool.events) : e.Envelope ∈ replayFrom v i := by
  unfold replayFrom
  exact List.mem_map.2 ⟨e, List.mem_append.2 (Or.inr h), rfl⟩

/-- Admitting an event keeps the account of what was admitted since the cookie. -/
theorem Covers.add {g : Int} {m0 A : List Envelope} {v v1 : streamViewImpl}
    {e : ParsedEvent} (hc : Covers g m0 A v) (h : specCopyAndAddEvent v e = .ok v1) :
    Covers g m0 (A ++ [e.Envelope]) v1 := by
  have hv := specCopyAndAddEvent_ok v v1 e h
  subst hv
  refine ⟨hc.blocks_lt, hc.gen_le, ?_, ?_⟩
  · intro hg
    simp only [List.map_append, List.map_cons, List.map_nil]
    rw [hc.same hg, List.append_assoc]
  · intro hg i hi x hx
    rcases List.mem_append.1 hx with hx | hx
    · have := hc.later hg i hi x hx
      unfold replayFrom at this ⊢
      simp only [List.map_append, List.mem_append] at this ⊢
      rcases this with h1 | h1
      · exact Or.inl h1
      · exact Or.inr (Or.inl h1)
    · have hx' : x = e.Envelope := by simpa using hx
      subst hx'
      apply mem_replayFrom_minipool
      simp

/-- Sealing a miniblock keeps the account of what was admitted since the cookie. -/
theorem Covers.apply {g : Int} {m0 A : List Envelope} {v v1 : streamViewImpl}
    {mb : MiniblockInfo} {cfg : ChainConfig} (hc : Covers g m0 A v)
    (h : specCopyAndApplyBlock v mb cfg = .ok v1) :
    Covers g m0 (A ++ [mb.headerEvent.Envelope]) v1 := by
  obtain ⟨header, -, hnum, hsub, -, hblocks, hevents, hgen⟩ :=
    specCopyAndApplyBlock_ok v v1 mb cfg h
  have hsplit : ∀ e ∈ v.minipool.events, e ∈ mb.events ∨ e ∈ v1.minipool.events := by
    intro e he
    by_cases hm : e ∈ mb.events
    · exact Or.inl hm
    · right
      rw [hevents]
      exact List.mem_filter.2 ⟨he, by simpa using hm⟩
  have hhdr : ∀ i, i ≤ v1.blocks.length - 1 → mb ∈ v1.blocks.drop i := by
    intro i hi
    rw [hblocks] at hi ⊢
    by_cases hs : header.Snapshot.isSome
    · simp only [hs, if_true] at hi ⊢
      have : i = 0 := by simpa using hi
      subst this
      simp
    · simp only [hs] at hi ⊢
      simp only [Bool.false_eq_true, if_false, List.length_append, List.length_singleton,
        Nat.add_sub_cancel] at hi ⊢
      rw [List.drop_append_of_le_length hi]
      simp
  have hin : ∀ (i : Nat) (e : ParsedEvent), mb ∈ v1.blocks.drop i →
      (e ∈ mb.events ∨ e = mb.headerEvent ∨ e ∈ v1.minipool.events) →
      e.Envelope ∈ replayFrom v1 i := by
    intro i e hmb he
    unfold replayFrom
    refine List.mem_map.2 ⟨e, List.mem_append.2 ?_, rfl⟩
    rcases he with he | he | he
    · exact Or.inl (List.mem_flatMap.2 ⟨mb, hmb, List.mem_append.2 (Or.inl he)⟩)
    · exact Or.inl (List.mem_flatMap.2 ⟨mb, hmb, List.mem_append.2 (Or.inr (by simp [he]))⟩)
    · exact Or.inr he
  refine ⟨?_, ?_, ?_, ?_⟩
  · intro b hb
    rw [hgen]
    rw [hblocks] at hb
    by_cases hs : header.Snapshot.isSome
    · simp only [hs, if_true, List.mem_singleton] at hb
      subst hb
      omega
    · simp only [hs] at hb
      simp only [Bool.false_eq_true, if_false, List.mem_append, List.mem_singleton] at hb
      rcases hb with hb | hb
      · have := hc.blocks_lt b hb
        omega
      · subst hb
        omega
  · have := hc.gen_le
    omega
  · intro hg
    have := hc.gen_le
    omega
  · intro hg i hi x hx
    have hirange := findBlock_range _ _ _ _ hi
    have hidx : i.toNat ≤ v1.blocks.length - 1 := by omega
    have hmb := hhdr i.toNat hidx
    rcases List.mem_append.1 hx with hx | hx
    · by_cases hgv : v.minipool.generation = g
      · have hmini := hc.same hgv
        have hx2 : x ∈ v.minipool.events.map (fun e => e.Envelope) := by
          rw [hmini]
          exact List.mem_append.2 (Or.inr hx)
        obtain ⟨e, he, hex⟩ := List.mem_map.1 hx2
        subst hex
        rcases hsplit e he with h1 | h1
        · exact hin _ e hmb (Or.inl h1)
        · exact hin _ e hmb (Or.inr (Or.inr h1))
      · have hlt : g < v.minipool.generation := lt_of_le_of_ne hc.gen_le (Ne.symm hgv)
        have hne : mb.Num ≠ g := by omega
        by_cases hs : header.Snapshot.isSome
        · simp only [hblocks, hs, if_true, findBlock, hne, if_false] at hi
          cases hi
        · have hb2 : v1.blocks = v.blocks ++ [mb] := by simp [hblocks, hs]
          rw [hb2, findBlock_append] at hi
          cases hf : findBlock g v.blocks 0 with
          | none =>
            simp only [hf, findBlock, hne, if_false] at hi
            cases hi
          | some j =>
            simp only [hf] at hi
            injection hi with hi
            subst hi
            have hold := hc.later hlt j hf x hx
            have hjr := findBlock_range _ _ _ _ hf
            unfold replayFrom at hold
            obtain ⟨e, he, hex⟩ := List.mem_map.1 hold
            subst hex
            rcases List.mem_append.1 he with he | he
            · unfold replayFrom
              refine List.mem_map.2 ⟨e, List.mem_append.2 (Or.inl ?_), rfl⟩
              rw [hb2, List.drop_append_of_le_length (by omega)]
              rw [List.flatMap_append]
              exact List.mem_append.2 (Or.inl he)
            · rcases hsplit e he with h1 | h1
              · exact hin _ e hmb (Or.inl h1)
              · exact hin _ e hmb (Or.inr (Or.inr h1))
    · have hx' : x = mb.headerEvent.Envelope := by simpa using hx
      subst hx'
      exact hin _ mb.headerEvent hmb (Or.inr (Or.inl rfl))

theorem admittedBy_cons (V : ViewOps) (X : External σ) (c : Call) (cs : List Call)
    (s s1 : streamImpl) (w w1 : World σ) (res : Option RiverErrorImpl)
    (h : runCall V X c s w = .ok (res, s1, w1)) :
    admittedBy V X (c :: cs) s w = admittedByCall V X c s w ++ admittedBy V X cs s1 w1 := by
  simp [admittedBy, h]

/-- The account of what was admitted since the cookie survives any sequence of calls. -/
theorem Covers.after_calls (C : Codec) (sid : StreamId) (X : External σ) (calls : List Call)
    (s s1 : streamImpl) (w w1 : World σ) (rs : List (Option RiverErrorImpl))
    (v : streamViewImpl) (g : Int) (m0 A : List Envelope)
    (hview : s.view = some v) (hc : Covers g m0 A v)
    (hrun : runCalls (specView C sid) X calls s w = .ok (rs, s1, w1)) :
    ∃ v1, s1.view = some v1 ∧ v1.streamId = v.streamId ∧ s1.params = s.params ∧
      s1.streamId = s.streamId ∧
      Covers g m0 (A ++ admittedBy (specView C sid) X calls s w) v1 := by
  induction calls generalizing s w v A rs with
  | nil =>
    simp only [runCalls] at hrun
    injection hrun with hrun
    injection hrun with h1 h2
    injection h2 with h2 h3
    subst h2 h3
    exact ⟨v, hview, rfl, rfl, rfl, by simpa [admittedBy] using hc⟩
  | cons c cs ih =>
    obtain ⟨res, s', w', rs', hcall, hrest, -⟩ := runCalls_cons_inv _ X c cs s s1 w w1 rs hrun
    obtain ⟨v', hv', hpar, hsid, hcases⟩ :=
      runCall_view (specView C sid) X c s s' w w' res v hview hcall
    rw [admittedBy_cons _ X c cs s s' w w' res hcall, ← List.append_assoc]
    have hstep : v'.streamId = v.streamId ∧
        Covers g m0 (A ++ admittedByCall (specView C sid) X c s w) v' := by
      rcases hcases with ⟨hv, hadm⟩ | ⟨e, hcopy, hadm⟩ | ⟨mb, hcopy, hadm⟩
      · subst hv
        rw [hadm]
        exact ⟨rfl, by simpa using hc⟩
      · rw [hadm]
        have hcopy' : specCopyAndAddEvent v e = .ok v' := hcopy
        refine ⟨?_, hc.add hcopy'⟩
        rw [specCopyAndAddEvent_ok v v' e hcopy']
      · rw [hadm]
        have hcopy' : specCopyAndApplyBlock v mb s.params.ChainConfig = .ok v' := hcopy
        refine ⟨?_, hc.apply hcopy'⟩
        obtain ⟨_, -, -, -, hs, -⟩ := specCopyAndApplyBlock_ok v v' mb _ hcopy'
        exact hs
    obtain ⟨v1, hv1, hsid1, hpar1, hstr1, hcov⟩ := ih s' w' rs' v' _ hv' hstep.2 hrest
    exact ⟨v1, hv1, hsid1.trans hstep.1, hpar1.trans hpar, hstr1.trans hsid, hcov⟩

/-- The view after a run of successful `AddEvent` calls: the events appended, in order, to
the minipool. -/
theorem addEvents_view (C : Codec) (sid : StreamId) (X : External σ)
    (evs : List (Int × ParsedEvent)) (s s1 : streamImpl) (w w1 : World σ)
    (rs : List (Option RiverErrorImpl)) (v : streamViewImpl)
    (hview : s.view = some v)
    (hrun : runCalls (specView C sid) X (evs.map fun p => Call.addEvent p.1 p.2) s w =
      .ok (rs, s1, w1))
    (hok : ∀ x ∈ rs, x = none) :
    s1.view = some { v with minipool :=
        { v.minipool with events := v.minipool.events ++ evs.map fun p => p.2 } } ∧
      s1.params = s.params ∧ s1.streamId = s.streamId := by
  induction evs generalizing s w v rs with
  | nil =>
    simp only [List.map_nil, runCalls] at hrun
    injection hrun with hrun
    injection hrun with h1 h2
    injection h2 with h2 h3
    subst h2 h3
    simp [hview]
  | cons p ps ih =>
    simp only [List.map_cons] at hrun
    obtain ⟨res, s', w', rs', hcall, hrest, hrs⟩ :=
      runCalls_cons_inv _ X _ _ s s1 w w1 rs hrun
    subst hrs
    have hres : res = none := hok res (List.mem_cons_self _ _)
    subst hres
    have hadd : AddEvent (specView C sid) X p.1 s w p.2 = .ok (none, s', w') := hcall
    obtain ⟨newSV, hcopy, hv', hpar, hsid⟩ :=
      AddEvent_nil_view (specView C sid) X p.1 s s' w w' p.2 v hview hadd
    have hcopy' : specCopyAndAddEvent v p.2 = .ok newSV := hcopy
    have hnew := specCopyAndAddEvent_ok v newSV p.2 hcopy'
    subst hnew
    obtain ⟨h1, h2, h3⟩ := ih s' w' rs' _ hv' hrest
      (fun x hx => hok x (List.mem_cons_of_mem _ hx))
    refine ⟨?_, h2.trans hpar, h3.trans hsid⟩
    rw [h1]
    simp [List.append_assoc]

end SpecView

/-! ## The subscription contract -/

section Claims2
variable {σ : Type}

/-- C11: on a loaded stream, a valid cookie whose generation differs from the minipool
generation and is not the number of any miniblock the view holds makes `Sub` return nil
(not an error), register the receiver and deliver exactly one `OnUpdate` with `SyncReset`
true, the view's `MinipoolEnvelopes` as events, its `MiniblocksFromLastSnapshot` as
miniblocks and the current sync cookie. (`indexOfMiniblockWithNum` is taken to find only
numbers of miniblocks the view holds.) -/
theorem Sub_stale_cookie_reset (V : ViewOps) (X : External σ) (now : Int) (s : streamImpl)
    (w : World σ) (cookie : SyncCookie) (receiver : SyncResultReceiver)
    (view : streamViewImpl)
    (hview : s.view = some view)
    (hnode : cookie.NodeAddress = s.params.Wallet.Address)
    (hstream : cookie.StreamId = s.streamId)
    (hslot0 : 0 ≤ cookie.MinipoolSlot)
    (hgen : cookie.MinipoolGen ≠ view.minipool.generation)
    (hmiss : ∀ b ∈ view.blocks, b.Num ≠ cookie.MinipoolGen)
    (hfind : ∀ i, V.indexOfMiniblockWithNum view cookie.MinipoolGen = .ok i →
      ∃ b ∈ view.blocks, b.Num = cookie.MinipoolGen) :
    Sub V X now s w cookie receiver = .ok (none,
      addReceiver { s with lastAccessedTime := now } receiver,
      { w with trace := w.trace ++ [Effect.OnUpdate receiver
        { Events := V.MinipoolEnvelopes view,
          NextSyncCookie := V.SyncCookie view s.params.Wallet.Address,
          Miniblocks := V.MiniblocksFromLastSnapshot view, SyncReset := true }] }) ∧
    receiver ∈ registered (addReceiver { s with lastAccessedTime := now } receiver) ∧
    updatesTo receiver (w.trace ++ [Effect.OnUpdate receiver
        { Events := V.MinipoolEnvelopes view,
          NextSyncCookie := V.SyncCookie view s.params.Wallet.Address,
          Miniblocks := V.MiniblocksFromLastSnapshot view, SyncReset := true }]) =
      updatesTo receiver w.trace ++
        [{ Events := V.MinipoolEnvelopes view,
           NextSyncCookie := V.SyncCookie view s.params.Wallet.Address,
           Miniblocks := V.MiniblocksFromLastSnapshot view, SyncReset := true }] := by
  refine ⟨?_, mem_registered_addReceiver _ _, by simp [updatesTo]⟩
  rw [Sub_of_loaded V X now s w cookie receiver view hview hnode hstream hslot0]
  cases hidx : V.indexOfMiniblockWithNum view cookie.MinipoolGen with
  | error err => exact subLoaded_miss V now s w cookie receiver view err hview hgen hidx
  | ok i =>
    obtain ⟨b, hb, hn⟩ := hfind i hidx
    exact absurd hn (hmiss b hb)

/-- An instance for C11, on the loaded stream: a cookie of generation 5, which no block
of the view has as its number, gets a sync reset. -/
theorem Sub_stale_cookie_reset_witness :
    Sub demoView memStorage 5 demoLoaded (demoWorld demoStore) (demoCookie 5 0) 13 =
      .ok (none,
        { demoLoaded with
          lastAccessedTime := 5
          receivers := some (((ReceiverSet.NewSet.Add 11).Add 12).Add 13) },
        { store := demoStore,
          trace := [Effect.OnUpdate 13
            { Events := [(evt 1).Envelope, (evt 2).Envelope],
              NextSyncCookie := demoCurrentCookie,
              Miniblocks := [demoGenesisBlock.Proto], SyncReset := true }] }) :=
  (Sub_stale_cookie_reset demoView memStorage 5 demoLoaded (demoWorld demoStore)
    (demoCookie 5 0) 13 demoViewState rfl rfl rfl (by decide) (by decide) (by decide)
    (fun i h => findBlock_mem 5 demoViewState.blocks 0 i (by
      simp only [demoView, specView, specIndexOfMiniblockWithNum] at h
      cases hf : findBlock (demoCookie 5 0).MinipoolGen demoViewState.blocks 0 with
      | none => simp [hf] at h
      | some j =>
        simp only [hf] at h
        injection h with h
        subst h
        exact hf))).1

/-- C14: for every finite sequence of `AddEvent` / `ApplyMiniblock` / `PromoteCandidate`
calls, every call returns and the receiver set stays as it was; a receiver registered at
the start is delivered exactly one update per admitted envelope, in call order: the
envelope of each successfully admitted event and the header envelope of each miniblock
that advanced the view, nothing for calls that failed or were no-ops. Hence any two
registered receivers receive identical sequences. -/
theorem fanout_total_order (V : ViewOps) (X : External σ) (calls : List Call)
    (s : streamImpl) (w : World σ) (r : SyncResultReceiver) (hr : r ∈ registered s) :
    ∃ rs s1 w1, runCalls V X calls s w = .ok (rs, s1, w1) ∧
      s1.receivers = s.receivers ∧
      eventListsTo r w1.trace =
        eventListsTo r w.trace ++ (admittedBy V X calls s w).map (fun e => [e]) ∧
      envelopesTo r w1.trace = envelopesTo r w.trace ++ admittedBy V X calls s w ∧
      ∀ r2, r2 ∈ registered s →
        eventListsTo r2 w1.trace =
          eventListsTo r2 w.trace ++ (admittedBy V X calls s w).map (fun e => [e]) := by
  obtain ⟨rs, s1, w1, hrun, hrecv, -, -, hev, -⟩ := runCalls_steps V X calls s w
  refine ⟨rs, s1, w1, hrun, hrecv, ?_, ?_, ?_⟩
  · simpa [hr] using hev r
  · rw [envelopesTo_eq_flatten, envelopesTo_eq_flatten, hev r]
    simp [hr, List.flatten_append]
    induction admittedBy V X calls s w with
    | nil => rfl
    | cons a as ih => simp [ih]
  · intro r2 hr2
    simpa [hr2] using hev r2

/-- An instance for C14, on the loaded stream: admitting event 3, applying block 1 and
offering event 3 again delivers to receiver 11 exactly event 3 and the header of block 1. -/
theorem fanout_total_order_witness :
    ∃ rs s1 w1, runCalls demoView memStorage demoCalls demoLoaded (demoWorld demoStore) =
        .ok (rs, s1, w1) ∧
      s1.receivers = demoLoaded.receivers ∧
      eventListsTo 11 w1.trace =
        eventListsTo 11 (demoWorld demoStore).trace ++
          (admittedBy demoView memStorage demoCalls demoLoaded (demoWorld demoStore)).map
            (fun e => [e]) ∧
      envelopesTo 11 w1.trace = envelopesTo 11 (demoWorld demoStore).trace ++
        admittedBy demoView memStorage demoCalls demoLoaded (demoWorld demoStore) ∧
      ∀ r2, r2 ∈ registered demoLoaded →
        eventListsTo r2 w1.trace =
          eventListsTo r2 (demoWorld demoStore).trace ++
            (admittedBy demoView memStorage demoCalls demoLoaded (demoWorld demoStore)).map
              (fun e => [e]) :=
  fanout_total_order demoView memStorage demoCalls demoLoaded (demoWorld demoStore) 11
    (by decide)

/-- C15: `Sub` with a receiver that is already registered leaves the receiver set exactly
as it was, whatever the cookie and whatever `Sub` returns, so a following successful
`AddEvent` delivers exactly one `OnUpdate`, carrying the event, to that receiver.
(`forEachEvent` is taken not to fail on an index `indexOfMiniblockWithNum` found.) -/
theorem Sub_idempotent_add (V : ViewOps) (X : External σ) (now : Int) (s : streamImpl)
    (w : World σ) (cookie : SyncCookie) (r : SyncResultReceiver)
    (hr : r ∈ registered s)
    (hfe : ∀ view i, V.indexOfMiniblockWithNum view cookie.MinipoolGen = .ok i →
      (V.forEachEvent view i ([] : List Envelope) collectEnvelope).2 = none) :
    ∃ res s1 w1, Sub V X now s w cookie r = .ok (res, s1, w1) ∧
      s1.receivers = s.receivers ∧
      ∀ now2 event s2 w2, AddEvent V X now2 s1 w1 event = .ok (none, s2, w2) →
        ∃ u, updatesTo r w2.trace = updatesTo r w1.trace ++ [u] ∧
          u.Events = [event.Envelope] := by
  obtain ⟨res, s1, w1, hsub, hrecv⟩ := Sub_receivers V X now s w cookie r hfe
  have hsame : s1.receivers = s.receivers := by
    rcases hrecv with h | h
    · exact h
    · rw [h, addReceiver_of_mem s r hr]
  refine ⟨res, s1, w1, hsub, hsame, ?_⟩
  intro now2 event s2 w2 hadd
  obtain ⟨res', s', w', hrun, hstep⟩ := runCall_step V X (.addEvent now2 event) s1 w1
  have hrun' : runCall V X (.addEvent now2 event) s1 w1 = .ok (none, s2, w2) := hadd
  rw [hrun'] at hrun
  injection hrun with hrun
  injection hrun with h1 h2
  injection h2 with h2 h3
  subst h1 h2 h3
  have hadm : admittedByCall V X (.addEvent now2 event) s1 w1 = [event.Envelope] := by
    simp [admittedByCall, hrun']
  rw [hadm] at hstep
  obtain ⟨cookie', hu⟩ := hstep.updates
  have hr1 : r ∈ registered s1 := by rw [registered_congr hsame]; exact hr
  refine ⟨{ Events := [event.Envelope], NextSyncCookie := cookie',
            Miniblocks := [], SyncReset := false }, ?_, rfl⟩
  have := hu r
  simpa [hr1] using this

/-- An instance for C15, on the loaded stream: receiver 11 subscribes again. -/
theorem Sub_idempotent_add_witness :
    ∃ res s1 w1, Sub demoView memStorage 5 demoLoaded (demoWorld demoStore)
        demoCurrentCookie 11 = .ok (res, s1, w1) ∧
      s1.receivers = demoLoaded.receivers ∧
      ∀ now2 event s2 w2, AddEvent demoView memStorage now2 s1 w1 event = .ok (none, s2, w2) →
        ∃ u, updatesTo 11 w2.trace = updatesTo 11 w1.trace ++ [u] ∧
          u.Events = [event.Envelope] :=
  Sub_idempotent_add demoView memStorage 5 demoLoaded (demoWorld demoStore) demoCurrentCookie
    11 (by decide)
    (fun view i h => by
      have h2 := specForEachEvent_of_found byteCodec [7] view _ i h
      exact congrArg Prod.snd h2)

/-- C16: `Unsub(r)` always returns; it leaves the view, the access time and every other
field but the receiver set alone; afterwards exactly the receivers other than `r` that
were registered are registered; doing it twice gives the same stream as doing it once; and
when `r` was not registered, in particular when the receiver set is nil, the stream is
unchanged. -/
theorem Unsub_idempotent_remove (s : streamImpl) (r : SyncResultReceiver) :
    (Unsub s r).view = s.view ∧ (Unsub s r).lastAccessedTime = s.lastAccessedTime ∧
    (Unsub s r).params = s.params ∧ (Unsub s r).streamId = s.streamId ∧
    (Unsub s r).nodes = s.nodes ∧
    registered (Unsub s r) = (registered s).erase r ∧
    (∀ q, q ∈ registered (Unsub s r) ↔ q ∈ registered s ∧ q ≠ r) ∧
    Unsub (Unsub s r) r = Unsub s r ∧
    (r ∉ registered s → Unsub s r = s) ∧
    (s.receivers = none → Unsub s r = s) := by
  obtain ⟨params, sid, nodes, view, t, recv⟩ := s
  cases recv with
  | none =>
    simp [Unsub, registered]
  | some rs =>
    have hnd := rs.nodup
    refine ⟨rfl, rfl, rfl, rfl, rfl, rfl, ?_, ?_, ?_, by simp⟩
    · intro q
      simp only [Unsub, registered, ReceiverSet.Remove, ReceiverSet.Iter]
      rw [hnd.mem_erase_iff]
      exact and_comm
    · simp only [Unsub, ReceiverSet.Remove]
      congr 2
      apply ReceiverSet.ext_elems
      simp only
      exact List.erase_of_not_mem (fun h => (hnd.mem_erase_iff.1 h).1 rfl)
    · intro hr
      simp only [Unsub, ReceiverSet.Remove]
      congr 2
      apply ReceiverSet.ext_elems
      exact List.erase_of_not_mem hr

/-- C17: after `Unsub(r)`, whatever sequence of `AddEvent`, `ApplyMiniblock` and
`PromoteCandidate` calls follows, every call returns, `r` is still not registered and no
callback of `r` is invoked, while every other receiver that was registered is delivered
one update per admitted envelope, in call order. -/
theorem Unsub_stops_updates (V : ViewOps) (X : External σ) (calls : List Call)
    (s : streamImpl) (w : World σ) (r : SyncResultReceiver) :
    ∃ rs s1 w1, runCalls V X calls (Unsub s r) w = .ok (rs, s1, w1) ∧
      r ∉ registered s1 ∧
      callbacksTo r w1.trace = callbacksTo r w.trace ∧
      ∀ q, q ∈ registered s → q ≠ r →
        q ∈ registered s1 ∧
        eventListsTo q w1.trace = eventListsTo q w.trace ++
          (admittedBy V X calls (Unsub s r) w).map (fun e => [e]) := by
  obtain ⟨rs, s1, w1, hrun, hrecv, -, -, hev, hcb⟩ := runCalls_steps V X calls (Unsub s r) w
  have hmem := mem_registered_Unsub s r
  have hr : r ∉ registered (Unsub s r) := fun h => ((hmem r).1 h).2 rfl
  have hreg : registered s1 = registered (Unsub s r) := registered_congr hrecv
  refine ⟨rs, s1, w1, hrun, by rw [hreg]; exact hr, hcb r hr, ?_⟩
  intro q hq hne
  have hq' : q ∈ registered (Unsub s r) := (hmem q).2 ⟨hq, hne⟩
  refine ⟨by rw [hreg]; exact hq', ?_⟩
  simpa [hq'] using hev q

/-- C18: `ForceFlush` leaves the view absent and the receiver set nil; its only
interactions are one `OnSyncError` with the `Err_INTERNAL` error "Stream unloaded" for
each receiver that was registered, so each of them is signalled exactly once and gets no
`OnUpdate`, and no other receiver is called; a later `AddEvent` returns and calls no
receiver at all. -/
theorem ForceFlush_signals_once (s : streamImpl) (w : World σ) :
    (ForceFlush s w).1.view = none ∧ (ForceFlush s w).1.receivers = none ∧
    registered (ForceFlush s w).1 = [] ∧
    (ForceFlush s w).2.store = w.store ∧
    (ForceFlush s w).2.trace = w.trace ++ (registered s).map (fun r =>
      Effect.OnSyncError r streamUnloaded) ∧
    streamUnloaded.Code = ErrCode.Err_INTERNAL ∧ streamUnloaded.Msg = "Stream unloaded" ∧
    (∀ q, syncErrorsTo q (ForceFlush s w).2.trace = syncErrorsTo q w.trace ++
      (if q ∈ registered s then [streamUnloaded] else [])) ∧
    (∀ q, updatesTo q (ForceFlush s w).2.trace = updatesTo q w.trace) ∧
    (∀ q, q ∉ registered s →
      callbacksTo q (ForceFlush s w).2.trace = callbacksTo q w.trace) ∧
    (∀ (V : ViewOps) (X : External σ) (now : Int) (event : ParsedEvent),
      ∃ res s2 w2, AddEvent V X now (ForceFlush s w).1 (ForceFlush s w).2 event =
          .ok (res, s2, w2) ∧
        ∀ q, callbacksTo q w2.trace = callbacksTo q (ForceFlush s w).2.trace) := by
  have ht := ForceFlush_trace s w
  have hreg : registered (ForceFlush s w).1 = [] := rfl
  refine ⟨rfl, rfl, hreg, ht.1, ht.2, rfl, rfl, ?_, ?_, ?_, ?_⟩
  · intro q
    rw [ht.2, syncErrorsTo_append, syncErrorsTo_signal q _ _ (registered_nodup s)]
  · intro q
    rw [ht.2, updatesTo_append, updatesTo_signal]
    simp
  · intro q hq
    rw [ht.2, callbacksTo_append, callbacksTo_signal_not_mem q _ _ hq]
    simp
  · intro V X now event
    obtain ⟨res, s2, w2, hrun, hstep⟩ :=
      runCall_step V X (.addEvent now event) (ForceFlush s w).1 (ForceFlush s w).2
    refine ⟨res, s2, w2, hrun, fun q => ?_⟩
    exact hstep.callbacks_not_mem q (by rw [hreg]; simp)

/-- C19: `tryCleanup(ttl)` returns true exactly when the view is absent after the call; a
view that was loaded is unloaded if and only if the time since `lastAccessedTime` is at
least `ttl` and the minipool is empty; when it returns false the stream is unchanged. It
never touches the receiver set or the access time and calls nothing. -/
theorem tryCleanup_eviction (now : Int) (s : streamImpl) (w : World σ) (ttl : Int) :
    ((tryCleanup now s w ttl).1 = true ↔ (tryCleanup now s w ttl).2.1.view = none) ∧
    (∀ view, s.view = some view →
      ((tryCleanup now s w ttl).2.1.view = none ↔
        ttl ≤ timeSince now s.lastAccessedTime ∧ view.minipool.events = [])) ∧
    ((tryCleanup now s w ttl).1 = false → (tryCleanup now s w ttl).2.1 = s) ∧
    (tryCleanup now s w ttl).2.1.receivers = s.receivers ∧
    (tryCleanup now s w ttl).2.1.lastAccessedTime = s.lastAccessedTime ∧
    (tryCleanup now s w ttl).2.2 = w := by
  unfold tryCleanup
  cases hv : s.view with
  | none => simp [hv]
  | some view =>
    by_cases h1 : ttl ≤ timeSince now s.lastAccessedTime
    · by_cases h2 : view.minipool.events = []
      · simp [h1, h2]
      · have h3 : ¬ view.minipool.events.length = 0 := fun h =>
          h2 (List.length_eq_zero.1 h)
        simp [h1, h2, h3, hv]
    · simp [h1, hv]

/-- C20 (amended): `tryCleanup` neither signals nor evicts receivers: whether or not it
unloads the view, the receiver set is exactly as before and nothing is called; the
receivers registered before an eviction stay registered, and the next successful
`AddEvent` (which loads the view again) delivers its event to each of them. -/
theorem tryCleanup_keeps_receivers (now : Int) (s : streamImpl) (w : World σ) (ttl : Int) :
    (tryCleanup now s w ttl).2.1.receivers = s.receivers ∧
    (tryCleanup now s w ttl).2.2 = w ∧
    ∀ (V : ViewOps) (X : External σ) (now2 : Int) (event : ParsedEvent) (s2 : streamImpl)
      (w2 : World σ),
      AddEvent V X now2 (tryCleanup now s w ttl).2.1 (tryCleanup now s w ttl).2.2 event =
        .ok (none, s2, w2) →
      ∀ q, q ∈ registered s →
        ∃ u, updatesTo q w2.trace = updatesTo q w.trace ++ [u] ∧
          u.Events = [event.Envelope] := by
  have h := tryCleanup_frame now s w ttl
  refine ⟨h.1, h.2, ?_⟩
  intro V X now2 event s2 w2 hadd q hq
  obtain ⟨cookie, hu⟩ := AddEvent_nil_updates V X now2 _ s2 _ w2 event hadd
  have hq' : q ∈ registered (tryCleanup now s w ttl).2.1 := by
    rw [registered_congr h.1]; exact hq
  refine ⟨{ Events := [event.Envelope], NextSyncCookie := cookie,
            Miniblocks := [], SyncReset := false }, ?_, rfl⟩
  have := hu q
  rw [h.2] at this
  simpa [hq'] using this

/-- An instance for C20, on the idle stream: the view is unloaded, the next `AddEvent`
loads it again and receiver 11 gets the event. -/
theorem tryCleanup_keeps_receivers_witness :
    (tryCleanup 100 demoIdle (demoWorld demoStore) 10).2.1.view = none ∧
    AddEvent demoView memStorage 101 (tryCleanup 100 demoIdle (demoWorld demoStore) 10).2.1
        (tryCleanup 100 demoIdle (demoWorld demoStore) 10).2.2 (evt 3) =
      .ok (none, { demoIdleAdded with lastAccessedTime := 101 },
        { demoIdleAddedWorld with trace :=
            Effect.ReadStreamFromLastSnapshot [7] 4 :: demoIdleAddedWorld.trace }) ∧
    ∃ u, updatesTo 11 (Effect.ReadStreamFromLastSnapshot [7] 4 :: demoIdleAddedWorld.trace) =
        updatesTo 11 (demoWorld demoStore).trace ++ [u] ∧
      u.Events = [(evt 3).Envelope] :=
  ⟨rfl, rfl, (tryCleanup_keeps_receivers 100 demoIdle (demoWorld demoStore) 10).2.2 demoView
    memStorage 101 (evt 3) { demoIdleAdded with lastAccessedTime := 101 }
    { demoIdleAddedWorld with trace :=
        Effect.ReadStreamFromLastSnapshot [7] 4 :: demoIdleAddedWorld.trace } rfl 11
    (by decide)⟩

/-- C20 (as stated) fails on an idle stream with an empty minipool and two receivers:
`tryCleanup` unloads the view, both receivers stay registered, and nothing at all is
called, so neither of them is signalled. -/
theorem tryCleanup_unloads_with_receivers :
    registered demoIdle = [12, 11] ∧
    tryCleanup 100 demoIdle (demoWorld demoStore) 10 =
      (true, { demoIdle with view := none }, demoWorld demoStore) ∧
    ({ demoIdle with view := none } : streamImpl).view = none ∧
    registered ({ demoIdle with view := none } : streamImpl) = [12, 11] ∧
    syncErrorsTo 11 (demoWorld demoStore).trace = [] ∧
    syncErrorsTo 12 (demoWorld demoStore).trace = [] := by
  refine ⟨rfl, rfl, rfl, rfl, rfl, rfl⟩

end Claims2

section Claims3
variable {σ : Type}

/-- C12 (amended): let `c` be the sync cookie of a loaded stream (blocks numbered below the
generation). After any sequence of `AddEvent`, `ApplyMiniblock` and `PromoteCandidate`
calls, `Sub(c)` returns nil and delivers one update. Unless it is a sync reset (which
carries the whole minipool and every miniblock since the last snapshot), the update
contains every envelope admitted after `c` was produced. When no miniblock was sealed
since `c` it is not a reset and its events are exactly those envelopes, in admission
order; when one was, the update replays the view from the miniblock numbered
`c.MinipoolGen`, whatever `c.MinipoolSlot` is. -/
theorem cookie_round_trip (C : Codec) (sid : StreamId) (X : External σ) (calls : List Call)
    (now : Int) (s : streamImpl) (w : World σ) (r : SyncResultReceiver) (v : streamViewImpl)
    (hview : s.view = some v)
    (hsid : v.streamId = s.streamId)
    (hwf : ∀ b ∈ v.blocks, b.Num < v.minipool.generation) :
    ∃ rs s1 w1 v1 u,
      runCalls (specView C sid) X calls s w = .ok (rs, s1, w1) ∧ s1.view = some v1 ∧
      Sub (specView C sid) X now s1 w1 (specSyncCookie v s.params.Wallet.Address) r =
        .ok (none, addReceiver { s1 with lastAccessedTime := now } r,
          { w1 with trace := w1.trace ++ [Effect.OnUpdate r u] }) ∧
      (u.SyncReset = false →
        ∀ x ∈ admittedBy (specView C sid) X calls s w, x ∈ u.Events) ∧
      (v1.minipool.generation = v.minipool.generation →
        u.SyncReset = false ∧ u.Events = admittedBy (specView C sid) X calls s w) ∧
      (u.SyncReset = false → v1.minipool.generation ≠ v.minipool.generation →
        ∃ i, findBlock v.minipool.generation v1.blocks 0 = some i ∧
          u.Events = replayFrom v1 i.toNat) ∧
      (u.SyncReset = true →
        u.Events = v1.minipool.events.map (fun e => e.Envelope) ∧
        u.Miniblocks = v1.blocks.map (fun b => b.Proto)) := by
  obtain ⟨rs, s1, w1, hrun, -⟩ := runCalls_steps (specView C sid) X calls s w
  have hc0 : Covers v.minipool.generation (v.minipool.events.map fun e => e.Envelope) [] v :=
    ⟨hwf, le_refl _, fun _ => by simp, fun h => absurd h (lt_irrefl _)⟩
  obtain ⟨v1, hv1, hsid1, hpar, hstr, hcov⟩ :=
    Covers.after_calls C sid X calls s s1 w w1 rs v _ _ [] hview hc0 hrun
  simp only [List.nil_append] at hcov
  have hnode : (specSyncCookie v s.params.Wallet.Address).NodeAddress =
      s1.params.Wallet.Address := by rw [hpar]; rfl
  have hstream : (specSyncCookie v s.params.Wallet.Address).StreamId = s1.streamId := by
    rw [hstr, ← hsid]; rfl
  have hslot0 : 0 ≤ (specSyncCookie v s.params.Wallet.Address).MinipoolSlot := by
    simp [specSyncCookie]
  have hsub := Sub_of_loaded (specView C sid) X now s1 w1
    (specSyncCookie v s.params.Wallet.Address) r v1 hv1 hnode hstream hslot0
  by_cases hgen : v1.minipool.generation = v.minipool.generation
  · -- no miniblock sealed since the cookie
    have hsame := hcov.same hgen
    have hlen : (v1.minipool.events.length : Int) =
        (v.minipool.events.length : Int) +
          ((admittedBy (specView C sid) X calls s w).length : Int) := by
      have := congrArg List.length hsame
      simp only [List.length_map, List.length_append] at this
      omega
    have hslot : (specSyncCookie v s.params.Wallet.Address).MinipoolSlot ≤
        v1.minipool.events.length := by
      simp only [specSyncCookie]
      omega
    have hres := subLoaded_same_gen (specView C sid) now s1 w1
      (specSyncCookie v s.params.Wallet.Address) r v1 hv1 hgen.symm hslot0 hslot
    have hevents : (v1.minipool.events.drop
        (specSyncCookie v s.params.Wallet.Address).MinipoolSlot.toNat).map
          (fun e => e.Envelope) = admittedBy (specView C sid) X calls s w := by
      rw [List.map_drop, hsame]
      have hk : (specSyncCookie v s.params.Wallet.Address).MinipoolSlot.toNat =
          (v.minipool.events.map fun e => e.Envelope).length := by
        simp [specSyncCookie]
      rw [hk, List.drop_left]
    refine ⟨rs, s1, w1, v1, _, hrun, hv1, hsub.trans hres, ?_, ?_, ?_, ?_⟩
    · intro _ x hx
      simp only
      rw [hevents]
      exact hx
    · intro _
      exact ⟨rfl, hevents⟩
    · intro _ hne
      exact absurd hgen hne
    · intro h
      cases h
  · have hlt : v.minipool.generation < v1.minipool.generation :=
      lt_of_le_of_ne hcov.gen_le (Ne.symm hgen)
    have hgen' : (specSyncCookie v s.params.Wallet.Address).MinipoolGen ≠
        v1.minipool.generation := fun h => hgen h.symm
    cases hf : findBlock v.minipool.generation v1.blocks 0 with
    | none =>
      have hidx : (specView C sid).indexOfMiniblockWithNum v1
          (specSyncCookie v s.params.Wallet.Address).MinipoolGen =
          .error (RiverError ErrCode.Err_INVALID_ARGUMENT
            "indexOfMiniblockWithNum: not found") := by
        simp [specView, specIndexOfMiniblockWithNum, specSyncCookie, hf]
      have hres := subLoaded_miss (specView C sid) now s1 w1
        (specSyncCookie v s.params.Wallet.Address) r v1 _ hv1 hgen' hidx
      refine ⟨rs, s1, w1, v1, _, hrun, hv1, hsub.trans hres, ?_, ?_, ?_, ?_⟩
      · intro h
        cases h
      · intro h
        exact absurd h hgen
      · intro h
        cases h
      · intro _
        exact ⟨rfl, rfl⟩
    | some i =>
      have hidx : (specView C sid).indexOfMiniblockWithNum v1
          (specSyncCookie v s.params.Wallet.Address).MinipoolGen = .ok i := by
        simp [specView, specIndexOfMiniblockWithNum, specSyncCookie, hf]
      have hfe := specForEachEvent_of_found C sid v1 _ i hidx
      have hres := subLoaded_hit (specView C sid) now s1 w1
        (specSyncCookie v s.params.Wallet.Address) r v1 i _ hv1 hgen' hidx hfe
      refine ⟨rs, s1, w1, v1, _, hrun, hv1, hsub.trans hres, ?_, ?_, ?_, ?_⟩
      · intro _ x hx
        exact hcov.later hlt i hf x hx
      · intro h
        exact absurd h hgen
      · intro _ _
        exact ⟨i, hf, rfl⟩
      · intro h
        cases h

/-- An instance for C12, on the loaded stream: event 3 is admitted and block 1 sealed; the
cookie taken before both still gets an update. -/
theorem cookie_round_trip_witness :
    ∃ rs s1 w1 v1 u,
      runCalls (specView byteCodec [7]) memStorage demoCalls demoLoaded (demoWorld demoStore) =
        .ok (rs, s1, w1) ∧ s1.view = some v1 ∧
      Sub (specView byteCodec [7]) memStorage 9 s1 w1
          (specSyncCookie demoViewState demoLoaded.params.Wallet.Address) 13 =
        .ok (none, addReceiver { s1 with lastAccessedTime := 9 } 13,
          { w1 with trace := w1.trace ++ [Effect.OnUpdate 13 u] }) ∧
      (u.SyncReset = false →
        ∀ x ∈ admittedBy (specView byteCodec [7]) memStorage demoCalls demoLoaded
          (demoWorld demoStore), x ∈ u.Events) ∧
      (v1.minipool.generation = demoViewState.minipool.generation →
        u.SyncReset = false ∧ u.Events = admittedBy (specView byteCodec [7]) memStorage
          demoCalls demoLoaded (demoWorld demoStore)) ∧
      (u.SyncReset = false → v1.minipool.generation ≠ demoViewState.minipool.generation →
        ∃ i, findBlock demoViewState.minipool.generation v1.blocks 0 = some i ∧
          u.Events = replayFrom v1 i.toNat) ∧
      (u.SyncReset = true →
        u.Events = v1.minipool.events.map (fun e => e.Envelope) ∧
        u.Miniblocks = v1.blocks.map (fun b => b.Proto)) :=
  cookie_round_trip byteCodec [7] memStorage demoCalls 9 demoLoaded (demoWorld demoStore) 13
    demoViewState rfl rfl (by decide)

/-- C12 (as stated) fails once a miniblock is sealed: the cookie `(generation 1, slot 2)`
was produced when events 1 and 2 were already in the minipool; after block 1 seals them,
`Sub` with that cookie delivers events 1 and 2 again, ahead of the header, in an update
that is not a sync reset, although only the header was admitted after the cookie. -/
theorem stale_generation_redelivers :
    specSyncCookie demoViewState demoLoaded.params.Wallet.Address = demoCurrentCookie ∧
    runCalls demoView memStorage [Call.applyMiniblock 6 demoBlock] demoLoaded
        (demoWorld demoStore) = .ok ([none], demoApplied, demoAppliedWorld) ∧
    admittedBy demoView memStorage [Call.applyMiniblock 6 demoBlock] demoLoaded
        (demoWorld demoStore) = [demoBlock.headerEvent.Envelope] ∧
    Sub demoView memStorage 7 demoApplied demoAppliedWorld demoCurrentCookie 13 =
      .ok (none, addReceiver { demoApplied with lastAccessedTime := 7 } 13,
        { demoAppliedWorld with trace := demoAppliedWorld.trace ++ [Effect.OnUpdate 13
          { Events := [(evt 1).Envelope, (evt 2).Envelope, demoBlock.headerEvent.Envelope],
            NextSyncCookie := demoBlockUpdate.NextSyncCookie,
            Miniblocks := [], SyncReset := false }] }) ∧
    (evt 1).Envelope ∉ [demoBlock.headerEvent.Envelope] := by
  refine ⟨rfl, rfl, rfl, rfl, by decide⟩

/-- C13: on a loaded stream whose current cookie is `c` (generation `g`, slot `k`), after
`n ≥ 0` successful `AddEvent` calls and nothing else, `Sub(c)` returns nil and delivers
exactly one update: the envelopes of the admitted events in admission order, no
miniblocks, no reset, and a `NextSyncCookie` of generation `g` and slot `k + n`. -/
theorem round_trip_same_generation (C : Codec) (sid : StreamId) (X : External σ)
    (evs : List (Int × ParsedEvent)) (now : Int) (s s1 : streamImpl) (w w1 : World σ)
    (rs : List (Option RiverErrorImpl)) (r : SyncResultReceiver) (v : streamViewImpl)
    (hview : s.view = some v)
    (hsid : v.streamId = s.streamId)
    (hrun : runCalls (specView C sid) X (evs.map fun p => Call.addEvent p.1 p.2) s w =
      .ok (rs, s1, w1))
    (hok : ∀ x ∈ rs, x = none) :
    (specSyncCookie v s.params.Wallet.Address).MinipoolGen = v.minipool.generation ∧
    (specSyncCookie v s.params.Wallet.Address).MinipoolSlot = v.minipool.events.length ∧
    Sub (specView C sid) X now s1 w1 (specSyncCookie v s.params.Wallet.Address) r =
      .ok (none, addReceiver { s1 with lastAccessedTime := now } r,
        { w1 with trace := w1.trace ++ [Effect.OnUpdate r
          { Events := evs.map fun p => p.2.Envelope,
            NextSyncCookie :=
              { NodeAddress := s.params.Wallet.Address, StreamId := v.streamId,
                MinipoolGen := v.minipool.generation,
                MinipoolSlot := (v.minipool.events.length : Int) + (evs.length : Int),
                PrevMiniblockHash := (specSyncCookie v s.params.Wallet.Address).PrevMiniblockHash },
            Miniblocks := [], SyncReset := false }] }) := by
  refine ⟨rfl, rfl, ?_⟩
  obtain ⟨hv1, hpar, hstr⟩ := addEvents_view C sid X evs s s1 w w1 rs v hview hrun hok
  have hnode : (specSyncCookie v s.params.Wallet.Address).NodeAddress =
      s1.params.Wallet.Address := by rw [hpar]; rfl
  have hstream : (specSyncCookie v s.params.Wallet.Address).StreamId = s1.streamId := by
    rw [hstr, ← hsid]; rfl
  have hslot0 : 0 ≤ (specSyncCookie v s.params.Wallet.Address).MinipoolSlot := by
    simp [specSyncCookie]
  rw [Sub_of_loaded (specView C sid) X now s1 w1 _ r _ hv1 hnode hstream hslot0]
  rw [subLoaded_same_gen (specView C sid) now s1 w1 _ r _ hv1 rfl hslot0
    (by simp [specSyncCookie])]
  have hk : (specSyncCookie v s.params.Wallet.Address).MinipoolSlot.toNat =
      v.minipool.events.length := by simp [specSyncCookie]
  simp only [hk, List.drop_left, List.map_map, hpar]
  simp [specView, specSyncCookie, specLastBlock, Function.comp_def]

/-- An instance for C13, on the stream at genesis with an empty minipool: with the cookie
`(generation 1, slot 0)` and event 3 admitted, `Sub` delivers event 3 and slot 1. -/
theorem round_trip_same_generation_witness :
    Sub (specView byteCodec [7]) memStorage 9 demoIdleAdded demoIdleAddedWorld
        (specSyncCookie demoGenesisView demoIdle.params.Wallet.Address) 13 =
      .ok (none, addReceiver { demoIdleAdded with lastAccessedTime := 9 } 13,
        { demoIdleAddedWorld with trace := demoIdleAddedWorld.trace ++ [Effect.OnUpdate 13
          { Events := [(evt 3).Envelope], NextSyncCookie := demoCookie 1 1,
            Miniblocks := [], SyncReset := false }] }) :=
  (round_trip_same_generation byteCodec [7] memStorage [(5, evt 3)] 9 demoIdle demoIdleAdded
    (demoWorld demoStore) demoIdleAddedWorld [none] 13 demoGenesisView rfl rfl rfl
    (by decide)).2.2

end Claims3

/-! ## The reading contract -/

section Claims4
variable {σ : Type}

/-- When every parsed miniblock has a header, the loop of `GetMiniblocks` ends: either with
the `Proto` of each block, in order, or with the error of the first block that does not
parse. -/
theorem parseMiniblocks_inv (V : ViewOps) (M : MiniblockOps)
    (hheader : ∀ b n mb, V.NewMiniblockInfoFromBytes b n = .ok mb → (M.header mb).isSome = true)
    (blocks : List Bytes) :
    ∀ (i : Nat) (start : Int),
      (∃ ms, parseMiniblocks V M blocks i start = .ok (.ok ms) ∧
        List.Forall₂ (fun b m => ∃ n mb, V.NewMiniblockInfoFromBytes b n = .ok mb ∧
          m = mb.Proto) blocks ms) ∨
      (∃ err, parseMiniblocks V M blocks i start = .ok (.error err) ∧
        ∃ b ∈ blocks, ∃ n, V.NewMiniblockInfoFromBytes b n = .error err) := by
  induction blocks with
  | nil =>
    intro i start
    exact Or.inl ⟨[], rfl, List.Forall₂.nil⟩
  | cons b rest ih =>
    intro i start
    unfold parseMiniblocks
    cases hp : V.NewMiniblockInfoFromBytes b (wrapInt64 (start + (i : Int))) with
    | error err =>
      exact Or.inr ⟨err, rfl, b, List.mem_cons_self _ _, _, hp⟩
    | ok miniblock =>
      obtain ⟨h, hh⟩ := Option.isSome_iff_exists.1 (hheader b _ miniblock hp)
      by_cases hi : i = 0
      · simp only [hi, if_true, hh]
        rcases ih (0 + 1) h.MiniblockNum with ⟨ms, hms, hall⟩ | ⟨err, herr, b1, hb1, n, hn⟩
        · refine Or.inl ⟨miniblock.Proto :: ms, by rw [hms], ?_⟩
          exact List.Forall₂.cons ⟨_, miniblock, hp, rfl⟩ hall
        · exact Or.inr ⟨err, by rw [herr], b1, List.mem_cons_of_mem _ hb1, n, hn⟩
      · simp only [hi, if_false]
        rcases ih (i + 1) start with ⟨ms, hms, hall⟩ | ⟨err, herr, b1, hb1, n, hn⟩
        · refine Or.inl ⟨miniblock.Proto :: ms, by rw [hms], ?_⟩
          exact List.Forall₂.cons ⟨_, miniblock, hp, rfl⟩ hall
        · exact Or.inr ⟨err, by rw [herr], b1, List.mem_cons_of_mem _ hb1, n, hn⟩

/-- A miniblock that `NewMiniblockInfoFromBytes` of the specification returns is the one
the codec decodes. -/
theorem specNewMiniblockInfoFromBytes_decode (C : Codec) (b : Bytes) (n : Int)
    (mb : MiniblockInfo) (h : specNewMiniblockInfoFromBytes C b n = .ok mb) :
    C.decodeMiniblock b = .ok mb := by
  unfold specNewMiniblockInfoFromBytes at h
  cases hd : C.decodeMiniblock b with
  | error err => simp [hd] at h
  | ok mb1 =>
    simp only [hd] at h
    split at h
    · cases h
    · cases h
      rfl

/-- The miniblocks `byteCodec` decodes have a header. -/
theorem demoView_header (b : Bytes) (n : Int) (mb : MiniblockInfo)
    (h : demoView.NewMiniblockInfoFromBytes b n = .ok mb) :
    (demoMiniblockOps.header mb).isSome = true := by
  have hd : byteCodec.decodeMiniblock b = .ok mb :=
    specNewMiniblockInfoFromBytes_decode byteCodec b n mb h
  simp only [byteCodec] at hd
  split at hd
  · cases hd
    rfl
  · cases hd

/-- C21 (the code at the failing input): with the blocks before number 5 gone from storage,
`GetMiniblocks(2, 10)` returns the blocks 5 and 6, so the first block returned is numbered
above `from`, and yet the terminus flag is false: the flag is `from == 0` and nothing
else. -/
theorem GetMiniblocks_terminus_pruned :
    GetMiniblocks demoView demoMiniblockOps memStorage demoUnloaded
        (demoWorld demoStorePruned) 2 10 =
      .ok ((some [(mkBlock 5 105 [104] true []).Proto, (mkBlock 6 106 [105] false []).Proto],
          false, none),
        demoUnloaded, { store := demoStorePruned, trace := [Effect.ReadMiniblocks [7] 2 10] }) ∧
    demoView.NewMiniblockInfoFromBytes [5, 105, 104, 1] (-1) =
      .ok (mkBlock 5 105 [104] true []) ∧
    (2 : Int) < (mkBlock 5 105 [104] true []).Num := by
  refine ⟨rfl, rfl, by decide⟩

/-- C22: `GetMiniblocks` makes one call, `ReadMiniblocks(streamId, from, to)`, and nothing
else: no load of the view, and the stream (view, access time, receivers) is as before.
When the read fails, or a block does not parse, that error comes back with a nil slice and
terminus false; otherwise the slice holds the `Proto` of each block read, in order. Parsed
miniblocks are taken to have a header, as the loop reads it without a check. -/
theorem GetMiniblocks_reads_storage (V : ViewOps) (M : MiniblockOps) (X : External σ)
    (s : streamImpl) (w : World σ) (fromInclusive toExclusive : Int)
    (hheader : ∀ b n mb, V.NewMiniblockInfoFromBytes b n = .ok mb → (M.header mb).isSome = true) :
    ∃ res, GetMiniblocks V M X s w fromInclusive toExclusive =
        .ok (res, s,
          { store := (X.ReadMiniblocks w.store s.streamId fromInclusive toExclusive).2,
            trace := w.trace ++ [Effect.ReadMiniblocks s.streamId fromInclusive toExclusive] }) ∧
      ((∃ err, (X.ReadMiniblocks w.store s.streamId fromInclusive toExclusive).1 = .error err ∧
          res = (none, false, some err)) ∨
       (∃ blocks err,
          (X.ReadMiniblocks w.store s.streamId fromInclusive toExclusive).1 = .ok blocks ∧
          (∃ b ∈ blocks, ∃ n, V.NewMiniblockInfoFromBytes b n = .error err) ∧
          res = (none, false, some err)) ∨
       (∃ blocks miniblocks terminus,
          (X.ReadMiniblocks w.store s.streamId fromInclusive toExclusive).1 = .ok blocks ∧
          res = (some miniblocks, terminus, none) ∧
          List.Forall₂ (fun b m => ∃ n mb, V.NewMiniblockInfoFromBytes b n = .ok mb ∧
            m = mb.Proto) blocks miniblocks)) := by
  cases hrd : (X.ReadMiniblocks w.store s.streamId fromInclusive toExclusive).1 with
  | error err =>
    refine ⟨(none, false, some err), ?_, Or.inl ⟨err, rfl, rfl⟩⟩
    simp only [GetMiniblocks, hrd, World.emit]
  | ok blocks =>
    rcases parseMiniblocks_inv V M hheader blocks 0 (-1) with
      ⟨ms, hms, hall⟩ | ⟨err, herr, hbad⟩
    · refine ⟨(some ms, decide (fromInclusive = 0), none), ?_,
        Or.inr (Or.inr ⟨blocks, ms, _, rfl, rfl, hall⟩)⟩
      simp only [GetMiniblocks, hrd, hms, World.emit]
    · refine ⟨(none, false, some err), ?_, Or.inr (Or.inl ⟨blocks, err, rfl, hbad, rfl⟩)⟩
      simp only [GetMiniblocks, hrd, herr, World.emit]

/-- An instance for C22, on the unloaded stream: the genesis block is read from storage and
the stream stays unloaded. -/
theorem GetMiniblocks_reads_storage_witness :
    (∀ b n mb, demoView.NewMiniblockInfoFromBytes b n = .ok mb →
      (demoMiniblockOps.header mb).isSome = true) ∧
    GetMiniblocks demoView demoMiniblockOps memStorage demoUnloaded (demoWorld demoStore) 0 1 =
      .ok ((some [demoGenesisBlock.Proto], true, none), demoUnloaded,
        { store := demoStore, trace := [Effect.ReadMiniblocks [7] 0 1] }) ∧
    ∃ res, GetMiniblocks demoView demoMiniblockOps memStorage demoUnloaded
        (demoWorld demoStore) 0 1 =
      .ok (res, demoUnloaded,
        { store := (memStorage.ReadMiniblocks (demoWorld demoStore).store
            demoUnloaded.streamId 0 1).2,
          trace := (demoWorld demoStore).trace ++
            [Effect.ReadMiniblocks demoUnloaded.streamId 0 1] }) :=
  ⟨demoView_header, rfl,
    (GetMiniblocks_reads_storage demoView demoMiniblockOps memStorage demoUnloaded
      (demoWorld demoStore) 0 1 demoView_header).imp fun _ h => h.1⟩

end Claims4

/-! ## Lemmas on loading the view -/

section Loads
variable {σ : Type}

/-- The calls `initFromBlockchain` makes are calls of a load. -/
theorem initFromBlockchain_calls (V : ViewOps) (X : External σ) (s : streamImpl)
    (w : World σ) :
    ∃ ext, (initFromBlockchain V X s w).2.2.trace = w.trace ++ ext ∧
      ∀ e ∈ ext, e.isLoadCall = true := by
  unfold initFromBlockchain
  simp only []
  split
  · exact ⟨_, rfl, by simp [Effect.isLoadCall]⟩
  · split
    · exact ⟨_, rfl, by simp [Effect.isLoadCall]⟩
    · split
      · exact ⟨_, rfl, by simp [Effect.isLoadCall]⟩
      · split
        · exact ⟨_, List.append_assoc _ _ _, by simp [Effect.isLoadCall]⟩
        · split
          · exact ⟨_, List.append_assoc _ _ _, by simp [Effect.isLoadCall]⟩
          · exact ⟨_, List.append_assoc _ _ _, by simp [Effect.isLoadCall]⟩

/-- The calls `loadInternal` makes are calls of a load. -/
theorem loadInternal_calls (V : ViewOps) (X : External σ) (s : streamImpl) (w : World σ) :
    ∃ ext, (loadInternal V X s w).2.2.trace = w.trace ++ ext ∧
      ∀ e ∈ ext, e.isLoadCall = true := by
  unfold loadInternal
  split
  · exact ⟨[], by simp, by simp⟩
  · simp only []
    split
    · split
      · obtain ⟨ext, hext, hall⟩ := initFromBlockchain_calls V X s
          (w.emit (X.ReadStreamFromLastSnapshot w.store s.streamId
            (max 0 (wrapInt64 (intOfUint64 s.params.ChainConfig.RecencyConstraintsGen - 1)))).2
            (Effect.ReadStreamFromLastSnapshot s.streamId
              (max 0 (wrapInt64 (intOfUint64 s.params.ChainConfig.RecencyConstraintsGen - 1)))))
        refine ⟨Effect.ReadStreamFromLastSnapshot s.streamId
          (max 0 (wrapInt64 (intOfUint64 s.params.ChainConfig.RecencyConstraintsGen - 1))) ::
            ext, ?_, ?_⟩
        · rw [hext]
          simp [World.emit]
        · intro e he
          rcases List.mem_cons.1 he with rfl | he
          · rfl
          · exact hall e he
      · exact ⟨_, rfl, by simp [Effect.isLoadCall]⟩
    · split
      · exact ⟨_, rfl, by simp [Effect.isLoadCall]⟩
      · exact ⟨_, rfl, by simp [Effect.isLoadCall]⟩

/-- What `getView` returns on a loaded stream. -/
theorem getView_of_loaded (V : ViewOps) (X : External σ) (now : Int) (s : streamImpl)
    (w : World σ) (view : streamViewImpl) (h : s.view = some view) :
    getView V X now s w = ((some view, none), s, w) := by
  simp [getView, h]

/-- Every way `getView` can end: with a view, the stream then holds it, and a loaded stream
is untouched; the receivers stay, and what it called are calls of a load. -/
theorem getView_inv (V : ViewOps) (X : External σ) (now : Int) (s : streamImpl)
    (w : World σ) (view : streamViewImpl) (s1 : streamImpl) (w1 : World σ)
    (h : getView V X now s w = ((some view, none), s1, w1)) :
    s1.view = some view ∧ s1.receivers = s.receivers ∧ s1.streamId = s.streamId ∧
    s1.params = s.params ∧
    (∀ v0, s.view = some v0 → s1 = s ∧ w1 = w ∧ view = v0) ∧
    (s.view = none → s1.lastAccessedTime = now) ∧
    ∃ ext, w1.trace = w.trace ++ ext ∧ ∀ e ∈ ext, e.isLoadCall = true := by
  cases hv : s.view with
  | some v0 =>
    rw [getView_of_loaded V X now s w v0 hv] at h
    injection h with h1 h2
    injection h1 with h1 _
    injection h1 with h1
    injection h2 with h2 h3
    subst h1 h2 h3
    refine ⟨hv, rfl, rfl, rfl, ?_, by simp, [], by simp, by simp⟩
    intro v1 hv1
    exact ⟨rfl, rfl, by injection hv1⟩
  | none =>
    have hf := loadInternal_frame V X { s with lastAccessedTime := now } w
    have hc := loadInternal_calls V X { s with lastAccessedTime := now } w
    have hg : getView V X now s w =
        match loadInternal V X { s with lastAccessedTime := now } w with
        | (some err, s2, w2) => ((none, some err), s2, w2)
        | (none, s2, w2) => ((s2.view, none), s2, w2) := by
      unfold getView
      split
      · rename_i v1 hv1
        rw [hv] at hv1
        cases hv1
      · rfl
    rw [hg] at h
    rcases hl : loadInternal V X { s with lastAccessedTime := now } w with ⟨r0, s0, w0⟩
    rw [hl] at h hf hc
    cases r0 with
    | some err => simp at h
    | none =>
      simp only [Prod.mk.injEq, and_true] at h
      obtain ⟨h1, h2, h3⟩ := h
      subst h2 h3
      exact ⟨h1, hf.receivers, hf.streamId, hf.params, by simp, by
        intro _; exact hf.lastAccessedTime, hc⟩

end Loads

section Claims5
variable {σ : Type}

/-- C23: for a miniblock that parses and serialises, on a stream whose view `getView`
returns (loading it if need be), `SaveMiniblockCandidate` answers "Miniblock is too old"
without calling `WriteBlockProposal` when the number is not past the last block of the
view, and otherwise calls `WriteBlockProposal` once, with the hash, the number and the
serialised bytes of the miniblock, and returns what that call returns. Either way the view
is the one `getView` returned (a loaded stream is left exactly as it was), the receivers are
unchanged, and the only other calls are those of the load: no callback, no proposal. -/
theorem SaveMiniblockCandidate_stale (V : ViewOps) (M : MiniblockOps) (X : External σ)
    (now : Int) (s s1 : streamImpl) (w w1 : World σ) (mb : Miniblock) (mbInfo : MiniblockInfo)
    (serialized : Bytes) (view : streamViewImpl)
    (hparse : M.NewMiniblockInfoFromProto mb
      { ExpectedBlockNumber := -1, DontParseEvents := true } = .ok mbInfo)
    (hbytes : M.ToBytes mbInfo = .ok serialized)
    (hview : getView V X now s w = ((some view, none), s1, w1)) :
    (mbInfo.Num ≤ (V.LastBlock view).Num →
      SaveMiniblockCandidate V M X now s w mb = .ok (some miniblockTooOld, s1, w1)) ∧
    (¬ mbInfo.Num ≤ (V.LastBlock view).Num →
      SaveMiniblockCandidate V M X now s w mb =
        .ok ((X.WriteBlockProposal w1.store s.streamId mbInfo.Hash mbInfo.Num serialized).1, s1,
          { store :=
              (X.WriteBlockProposal w1.store s.streamId mbInfo.Hash mbInfo.Num serialized).2,
            trace := w1.trace ++
              [Effect.WriteBlockProposal s.streamId mbInfo.Hash mbInfo.Num serialized] })) ∧
    s1.view = some view ∧ s1.receivers = s.receivers ∧
    (∀ v0, s.view = some v0 → s1 = s ∧ w1 = w ∧ view = v0) ∧
    ∃ ext, w1.trace = w.trace ++ ext ∧
      ∀ e ∈ ext, e.isLoadCall = true ∧ e.isCallback = false ∧ e.isWriteBlockProposal = false := by
  obtain ⟨hv, hrecv, hsid, -, hloaded, -, ext, hext, hall⟩ := getView_inv V X now s w view s1 w1 hview
  refine ⟨?_, ?_, hv, hrecv, hloaded, ext, hext, ?_⟩
  · intro hold
    simp [SaveMiniblockCandidate, hparse, hbytes, hview, hold, miniblockTooOld]
  · intro hnew
    simp [SaveMiniblockCandidate, hparse, hbytes, hview, hnew, hsid, World.emit]
  · intro e he
    have := hall e he
    cases e <;> simp_all [Effect.isLoadCall, Effect.isCallback, Effect.isWriteBlockProposal]

/-- An instance for C23, on the loaded stream: the genesis block offered as a candidate is
too old and nothing is written; `demoBlock` is written once as a proposal. -/
theorem SaveMiniblockCandidate_stale_witness :
    SaveMiniblockCandidate demoView demoMiniblockOps memStorage 9 demoLoaded
        (demoWorld demoStore) demoGenesisBlock.Proto =
      .ok (some miniblockTooOld, demoLoaded, demoWorld demoStore) ∧
    SaveMiniblockCandidate demoView demoMiniblockOps memStorage 9 demoLoaded
        (demoWorld demoStore) demoBlock.Proto =
      .ok (none, demoLoaded,
        { store := { demoStore with candidates := [(([101], 1), [1, 101, 100, 0, 1, 2])] },
          trace := [Effect.WriteBlockProposal [7] [101] 1 [1, 101, 100, 0, 1, 2]] }) :=
  ⟨(SaveMiniblockCandidate_stale demoView demoMiniblockOps memStorage 9 demoLoaded demoLoaded
      (demoWorld demoStore) (demoWorld demoStore) demoGenesisBlock.Proto demoGenesisBlock
      [0, 100, 0, 1] demoViewState rfl rfl rfl).1 (by decide),
   (SaveMiniblockCandidate_stale demoView demoMiniblockOps memStorage 9 demoLoaded demoLoaded
      (demoWorld demoStore) (demoWorld demoStore) demoBlock.Proto demoBlock
      [1, 101, 100, 0, 1, 2] demoViewState rfl rfl rfl).2.1 (by decide)⟩

end Claims5

/-! ## Access time, status and what an error leaves behind -/

section Claims8
variable {σ : Type}

/-- The access time after `addEventImpl` returns nil on a loaded stream: the time of the
call when a receiver is registered, the old one otherwise. -/
theorem addEventImpl_nil_time (V : ViewOps) (X : External σ) (now : Int) (s s1 : streamImpl)
    (w w1 : World σ) (event : ParsedEvent)
    (h : addEventImpl V X now s w event = .ok (none, s1, w1)) :
    s1.lastAccessedTime = if registered s = [] then s.lastAccessedTime else now := by
  unfold addEventImpl at h
  cases hb : V.GetEnvelopeBytes event with
  | error err => simp [hb] at h
  | ok bytes =>
    simp only [hb] at h
    cases hv : s.view with
    | none => simp [hv] at h
    | some view =>
      simp only [hv] at h
      cases hw : (X.WriteEvent w.store s.streamId view.minipool.generation
          (V.nextSlotNumber view.minipool) bytes).1 with
      | some err => simp [hw] at h
      | none =>
        simp only [hw] at h
        cases hc : V.copyAndAddEvent view event with
        | error err => simp [hc] at h
        | ok newSV =>
          simp only [hc, Except.ok.injEq, Prod.mk.injEq, true_and] at h
          rw [← h.1, notifySubscribers_state]
          rfl

/-- C24 (amended): a successful `AddEvent` leaves `lastAccessedTime` at the time of the call
when at least one receiver is registered on the stream, and leaves it as it was when none
is: the time is set in `notifySubscribers`, under its check that there are receivers. -/
theorem AddEvent_access_time (V : ViewOps) (X : External σ) (now : Int) (s s1 : streamImpl)
    (w w1 : World σ) (event : ParsedEvent)
    (h : AddEvent V X now s w event = .ok (none, s1, w1)) :
    (registered s ≠ [] → s1.lastAccessedTime = now) ∧
    (registered s = [] → s1.lastAccessedTime = s.lastAccessedTime) := by
  have hf := loadInternal_frame V X s w
  unfold AddEvent at h
  rcases hl : loadInternal V X s w with ⟨r0, s0, w0⟩
  rw [hl] at h hf
  cases r0 with
  | some err => simp at h
  | none =>
    simp only at h
    have ht := addEventImpl_nil_time V X now s0 s1 w0 w1 event h
    have hreg : registered s0 = registered s := registered_congr hf.receivers
    have htime : s0.lastAccessedTime = s.lastAccessedTime := hf.lastAccessedTime
    rw [hreg, htime] at ht
    constructor
    · intro hne
      rw [ht, if_neg hne]
    · intro he
      rw [ht, if_pos he]

/-- An instance for C24, on the loaded stream with receivers `11` and `12`: event `3` admitted
at time 5 moves the access time to 5. -/
theorem AddEvent_access_time_witness :
    AddEvent demoView memStorage 5 demoLoaded (demoWorld demoStoreSynced) (evt 3) =
      .ok (none, { demoLoaded with view := some demoViewAdded, lastAccessedTime := 5 },
        { store := { demoStore with stream := some (demoStreamData [[1], [2], [3]]) },
          trace := [Effect.WriteEvent [7] 1 2 [3], Effect.OnUpdate 12 demoAddUpdate,
            Effect.OnUpdate 11 demoAddUpdate] }) ∧
    ({ demoLoaded with view := some demoViewAdded, lastAccessedTime := 5 } :
      streamImpl).lastAccessedTime = 5 :=
  ⟨rfl, (AddEvent_access_time demoView memStorage 5 demoLoaded
    { demoLoaded with view := some demoViewAdded, lastAccessedTime := 5 }
    (demoWorld demoStoreSynced)
    { store := { demoStore with stream := some (demoStreamData [[1], [2], [3]]) },
      trace := [Effect.WriteEvent [7] 1 2 [3], Effect.OnUpdate 12 demoAddUpdate,
        Effect.OnUpdate 11 demoAddUpdate] } (evt 3) rfl).1 (by decide)⟩

/-- C24 (as stated) fails on a loaded stream with no receiver: event `3` is admitted at time
5, `AddEvent` returns nil, and `lastAccessedTime` is still 0. -/
theorem AddEvent_unsubscribed_keeps_time :
    demoQuiet.lastAccessedTime = 0 ∧
    AddEvent demoView memStorage 5 demoQuiet (demoWorld demoStoreSynced) (evt 3) =
      .ok (none, { demoQuiet with view := some demoViewAdded },
        { store := { demoStore with stream := some (demoStreamData [[1], [2], [3]]) },
          trace := [Effect.WriteEvent [7] 1 2 [3]] }) ∧
    ({ demoQuiet with view := some demoViewAdded } : streamImpl).lastAccessedTime ≠ 5 := by
  refine ⟨rfl, rfl, by decide⟩

/-- C29 (the code at the failing input): on a stream whose receiver set is nil, as on one
nobody subscribed to, or after `ForceFlush`, `getStatus` does not return: the call
`s.receivers.Cardinality()` is a nil dereference. With a receiver set in place it returns
the status. -/
theorem getStatus_nil_receivers :
    getStatus demoUnloaded = .error nilDeref ∧
    getStatus (ForceFlush demoLoaded (demoWorld demoStore)).1 = .error nilDeref ∧
    (∀ s : streamImpl, getStatus { s with receivers := none } = .error nilDeref) ∧
    getStatus demoLoaded =
      .ok { loaded := true, numMinipoolEvents := 2, numSubscribers := 2, lastAccess := 0 } :=
  ⟨rfl, rfl, fun _ => rfl, rfl⟩

/-- C30 (the code at the failing input): the view and the storage both hold the events `1`
and `2`; `AddEvent` of event `1` again writes it to storage, is then refused by
`copyAndAddEvent` as a duplicate and returns that error: the view is unchanged and the
storage holds one event more than the view. -/
theorem AddEvent_duplicate_written :
    demoStoreSynced.stream = some (demoStreamData (demoViewState.minipool.events.map
      fun e => e.Envelope.Event)) ∧
    AddEvent demoView memStorage 5 demoLoaded (demoWorld demoStoreSynced) (evt 1) =
      .ok (some duplicateEvent, demoLoaded,
        { store := demoStoreTwice, trace := [Effect.WriteEvent [7] 1 2 [1]] }) ∧
    demoStoreTwice.stream = some (demoStreamData [[1], [2], [1]]) ∧
    demoStoreTwice ≠ demoStoreSynced := by
  refine ⟨rfl, rfl, rfl, by decide⟩

end Claims8

/-! ## The sync session contract -/

section Session

theorem receiveLoop_append (syncID : String) (xs ys : List SyncStreamsResponse)
    (d : List StreamId) :
    receiveLoop syncID (xs ++ ys) d =
      match receiveLoop syncID xs d with
      | .error e => .error e
      | .ok d1 => receiveLoop syncID ys d1 := by
  induction xs generalizing d with
  | nil => simp [receiveLoop]
  | cons x xs ih =>
    simp only [List.cons_append, receiveLoop]
    cases receiveStep syncID d x with
    | error e => rfl
    | ok d1 => exact ih d1

/-- A stream stays in the set of down streams over a turn of the loop that is not an update
for it. -/
theorem receiveStep_keeps (syncID : String) (d d1 : List StreamId) (msg : SyncStreamsResponse)
    (id : StreamId) (hid : id ∈ d) (hmsg : msg.isUpdateFor id = false)
    (hstep : receiveStep syncID d msg = .ok d1) : id ∈ d1 := by
  unfold receiveStep at hstep
  unfold SyncStreamsResponse.isUpdateFor at hmsg
  cases hop : msg.SyncOp <;> simp only [hop] at hstep hmsg
  case SYNC_UPDATE =>
    split at hstep
    · cases hstep
    · cases hst : msg.Stream with
      | none => simp [hst] at hstep
      | some stream =>
        simp only [hst, Except.ok.injEq] at hstep
        simp only [hst, decide_True, Bool.true_and, decide_eq_false_iff_not] at hmsg
        subst hstep
        simp only [List.mem_filter, Bool.not_eq_true', decide_eq_false_iff_not]
        exact ⟨hid, fun h => hmsg h.symm⟩
  case SYNC_DOWN =>
    split at hstep
    · cases hstep
    · split at hstep
      · cases hstep
      · cases hstep
        exact List.mem_cons_of_mem _ hid
  case SYNC_CLOSE =>
    split at hstep
    · cases hstep
    · cases hstep
      exact hid
  all_goals
    cases hstep
    exact hid

theorem receiveLoop_keeps (syncID : String) (msgs : List SyncStreamsResponse) (id : StreamId) :
    ∀ d d1 : List StreamId, id ∈ d → (∀ m ∈ msgs, m.isUpdateFor id = false) →
      receiveLoop syncID msgs d = .ok d1 → id ∈ d1 := by
  induction msgs with
  | nil =>
    intro d d1 hid _ h
    simp only [receiveLoop, Except.ok.injEq] at h
    exact h ▸ hid
  | cons m ms ih =>
    intro d d1 hid hno h
    simp only [receiveLoop] at h
    cases hs : receiveStep syncID d m with
    | error e => simp [hs] at h
    | ok d2 =>
      simp only [hs] at h
      exact ih d2 d1 (receiveStep_keeps syncID d d2 m id hid (hno m (List.mem_cons_self _ _)) hs)
        (fun x hx => hno x (List.mem_cons_of_mem _ hx)) h

/-- A `SYNC_DOWN` that the loop accepts puts its stream in the set of down streams. -/
theorem receiveStep_down (syncID : String) (d d1 : List StreamId) (msg : SyncStreamsResponse)
    (id : StreamId) (hmsg : msg.isDownFor id = true)
    (hstep : receiveStep syncID d msg = .ok d1) : id ∉ d ∧ id ∈ d1 := by
  unfold SyncStreamsResponse.isDownFor at hmsg
  simp only [Bool.and_eq_true, decide_eq_true_eq] at hmsg
  unfold receiveStep at hstep
  simp only [hmsg.1, hmsg.2] at hstep
  split at hstep
  · cases hstep
  · split at hstep
    · cases hstep
    · rename_i hnot
      cases hstep
      exact ⟨hnot, List.mem_cons_self _ _⟩

/-- When the receive loop of the test accepts a sequence of messages, any two `SYNC_DOWN` for
one stream in it have a `SYNC_UPDATE` for that stream between them. -/
theorem receiveLoop_between (syncID : String) (a b c : List SyncStreamsResponse)
    (m1 m2 : SyncStreamsResponse) (id : StreamId) (d d1 : List StreamId)
    (h : receiveLoop syncID (a ++ m1 :: (b ++ m2 :: c)) d = .ok d1)
    (h1 : m1.isDownFor id = true) (h2 : m2.isDownFor id = true) :
    ∃ m ∈ b, m.isUpdateFor id = true := by
  by_contra hno
  have hno1 : ∀ m ∈ b, m.isUpdateFor id = false := by
    intro m hm
    cases hu : m.isUpdateFor id with
    | false => rfl
    | true => exact absurd ⟨m, hm, hu⟩ hno
  rw [receiveLoop_append] at h
  cases ha : receiveLoop syncID a d with
  | error e => simp [ha] at h
  | ok dA =>
    simp only [ha, receiveLoop] at h
    cases hs1 : receiveStep syncID dA m1 with
    | error e => simp [hs1] at h
    | ok dB =>
      simp only [hs1] at h
      rw [receiveLoop_append] at h
      cases hb : receiveLoop syncID b dB with
      | error e => simp [hb] at h
      | ok dC =>
        simp only [hb, receiveLoop] at h
        cases hs2 : receiveStep syncID dC m2 with
        | error e => simp [hs2] at h
        | ok dD =>
          have hin : id ∈ dC :=
            receiveLoop_keeps syncID b id dB dC (receiveStep_down syncID dA dB m1 id h1 hs1).2
              hno1 hb
          exact (receiveStep_down syncID dC dD m2 id h2 hs2).1 hin

theorem receiveLoop_snoc (syncID : String) (xs : List SyncStreamsResponse)
    (msg : SyncStreamsResponse) (d d1 d2 : List StreamId)
    (hxs : receiveLoop syncID xs d = .ok d1) (hmsg : receiveStep syncID d1 msg = .ok d2) :
    receiveLoop syncID (xs ++ [msg]) d = .ok d2 := by
  rw [receiveLoop_append, hxs]
  simp [receiveLoop, hmsg]

theorem SessionInv.emit_update (syncId : String) (sess : SyncSession) (r : StreamAndCookie)
    (subs : List StreamId) (closed : Bool) (h : SessionInv syncId sess) :
    SessionInv syncId
      { sess with
        subs := subs
        closed := closed
        down := sess.down.filter fun id => !decide (id = r.NextSyncCookie.StreamId)
        out := sess.out ++ [syncUpdate sess.syncId r] } := by
  obtain ⟨d, hd, hsub⟩ := h.accepted
  refine ⟨h.sync, d.filter fun id => !decide (id = r.NextSyncCookie.StreamId), ?_, ?_⟩
  · apply receiveLoop_snoc syncId sess.out _ [] d _ hd
    simp [receiveStep, syncUpdate, SyncStreamsResponseFromStreamAndCookie, h.sync]
  · intro id hid
    simp only [List.mem_filter] at hid ⊢
    exact ⟨hsub id hid.1, hid.2⟩

theorem SessionInv.emit_control (syncId : String) (sess : SyncSession) (op : SyncOp)
    (nonce : String) (subs : List StreamId) (closed : Bool)
    (hop : op = SyncOp.SYNC_PONG ∨ op = SyncOp.SYNC_CLOSE) (h : SessionInv syncId sess) :
    SessionInv syncId
      { sess with
        subs := subs
        closed := closed
        out := sess.out ++ [syncControl sess.syncId op nonce] } := by
  obtain ⟨d, hd, hsub⟩ := h.accepted
  refine ⟨h.sync, d, ?_, hsub⟩
  apply receiveLoop_snoc syncId sess.out _ [] d _ hd
  rcases hop with rfl | rfl <;> simp [receiveStep, syncControl, h.sync]

theorem SessionInv.after_streamDown (syncId : String) (sess : SyncSession) (streamId : StreamId)
    (h : SessionInv syncId sess) : SessionInv syncId (sess.streamDown streamId) := by
  unfold SyncSession.streamDown
  split
  · exact h
  · split
    · exact ⟨h.sync, h.accepted⟩
    · rename_i hnot
      obtain ⟨d, hd, hsub⟩ := h.accepted
      refine ⟨h.sync, streamId :: d, ?_, ?_⟩
      · apply receiveLoop_snoc syncId sess.out _ [] d _ hd
        have : streamId ∉ d := fun hin => hnot (hsub _ hin)
        simp [receiveStep, syncDown, h.sync, this]
      · intro id hid
        rcases List.mem_cons.mp hid with rfl | hin
        · exact List.mem_cons_self _ _
        · exact List.mem_cons_of_mem _ (hsub id hin)

theorem SessionInv.after_step (syncId : String) (sess : SyncSession) (input : SessionInput)
    (h : SessionInv syncId sess) : SessionInv syncId (sess.step input) := by
  cases input with
  | addStream catchUp =>
    simp only [SyncSession.step]
    split
    · exact h
    · exact SessionInv.emit_update syncId sess catchUp _ sess.closed h
  | removeStream streamId =>
    simp only [SyncSession.step]
    split
    · exact h
    · exact ⟨h.sync, h.accepted⟩
  | onUpdate r =>
    simp only [SyncSession.step]
    split
    · exact h
    · exact SessionInv.emit_update syncId sess r sess.subs sess.closed h
  | onSyncError streamId => exact SessionInv.after_streamDown syncId sess streamId h
  | onStreamSyncDown streamId => exact SessionInv.after_streamDown syncId sess streamId h
  | ping nonce =>
    simp only [SyncSession.step]
    split
    · exact h
    · exact SessionInv.emit_control syncId sess _ nonce sess.subs sess.closed (Or.inl rfl) h
  | cancel =>
    simp only [SyncSession.step]
    split
    · exact h
    · exact SessionInv.emit_control syncId sess _ "" [] true (Or.inr rfl) h
  | queueFull closeEmitted =>
    simp only [SyncSession.step]
    split
    · exact h
    · cases closeEmitted with
      | true => exact SessionInv.emit_control syncId sess _ "" [] true (Or.inr rfl) h
      | false =>
        obtain ⟨d, hd, hsub⟩ := h.accepted
        exact ⟨h.sync, d, by simpa using hd, hsub⟩

theorem SessionInv.after_run (syncId : String) (inputs : List SessionInput) :
    ∀ sess : SyncSession, SessionInv syncId sess → SessionInv syncId (sess.run inputs) := by
  induction inputs with
  | nil => intro sess h; exact h
  | cons i is ih =>
    intro sess h
    exact ih (sess.step i) (SessionInv.after_step syncId sess i h)

theorem SessionInv.at_start (syncId : String) : SessionInv syncId (SyncSession.start syncId) :=
  ⟨rfl, [], by simp [SyncSession.start, receiveLoop, receiveStep, syncControl], by simp⟩

/-- The session of the concrete instance: two outages of the stream `[7]`, each reported
once, with the catch-up update of the resubscription between the two `SYNC_DOWN`. -/
theorem demoSession_out :
    ((SyncSession.start "s1").run demoSessionInputs).out =
      [syncControl "s1" SyncOp.SYNC_NEW "", syncUpdate "s1" demoAddUpdate, syncDown "s1" [7],
        syncControl "s1" SyncOp.SYNC_PONG "p1", syncUpdate "s1" demoBlockUpdate,
        syncUpdate "s1" demoBlockUpdate, syncDown "s1" [7],
        syncControl "s1" SyncOp.SYNC_CLOSE ""] := by
  rfl

/-- C25: in every sequence of messages a sync session emits, for every stream id, between
any two `SYNC_DOWN` messages for that id there is a `SYNC_UPDATE` for it; and the receive
loop of `TestUnstableStreams`, which fails on "a second down message in a row for a
stream", accepts the whole sequence. -/
theorem no_second_SYNC_DOWN_in_a_row (syncId : String) (inputs : List SessionInput) :
    (∀ (id : StreamId) (a b c : List SyncStreamsResponse) (m1 m2 : SyncStreamsResponse),
      ((SyncSession.start syncId).run inputs).out = a ++ m1 :: (b ++ m2 :: c) →
      m1.isDownFor id = true → m2.isDownFor id = true →
      ∃ m ∈ b, m.isUpdateFor id = true) ∧
    ∃ d, receiveLoop syncId ((SyncSession.start syncId).run inputs).out [] = .ok d := by
  have hinv := SessionInv.after_run syncId inputs _ (SessionInv.at_start syncId)
  obtain ⟨d, hd, _⟩ := hinv.accepted
  refine ⟨?_, d, hd⟩
  intro id a b c m1 m2 hout h1 h2
  rw [hout] at hd
  exact receiveLoop_between syncId a b c m1 m2 id [] d hd h1 h2

end Session

/-! ## The outcomes of `Sub` -/

section SubCases
variable {σ : Type}

/-- Every way `Sub` can end, when `forEachEvent` does not fail on an index that was found:
a cookie for another node or stream, or with a negative slot, is rejected on the spot; a
failed load returns its error; a slot past the minipool of the cookie's generation is
rejected after the load; anything else registers the receiver and sends it one update. -/
theorem Sub_cases (V : ViewOps) (X : External σ) (now : Int) (s : streamImpl)
    (w : World σ) (cookie : SyncCookie) (r : SyncResultReceiver)
    (hfe : ∀ view i, V.indexOfMiniblockWithNum view cookie.MinipoolGen = .ok i →
      (V.forEachEvent view i ([] : List Envelope) collectEnvelope).2 = none) :
    ((cookie.NodeAddress ≠ s.params.Wallet.Address ∨ cookie.StreamId ≠ s.streamId ∨
        cookie.MinipoolSlot < 0) ∧
      ∃ e, Sub V X now s w cookie r = .ok (some e, s, w) ∧
        e.Code = ErrCode.Err_BAD_SYNC_COOKIE) ∨
    (¬ (cookie.NodeAddress ≠ s.params.Wallet.Address ∨ cookie.StreamId ≠ s.streamId ∨
        cookie.MinipoolSlot < 0) ∧
      ((∃ err s0 w0, loadInternal V X s w = (some err, s0, w0) ∧
          Sub V X now s w cookie r = .ok (some err, s0, w0)) ∨
       (∃ s0 w0 view, loadInternal V X s w = (none, s0, w0) ∧ s0.view = some view ∧
          ((cookie.MinipoolGen = view.minipool.generation ∧
              cookie.MinipoolSlot > (view.minipool.events.length : Int) ∧
              Sub V X now s w cookie r =
                .ok (some (RiverError ErrCode.Err_BAD_SYNC_COOKIE "Stream.Sub: bad slot"),
                  { s0 with lastAccessedTime := now }, w0)) ∨
           (¬ (cookie.MinipoolGen = view.minipool.generation ∧
                cookie.MinipoolSlot > (view.minipool.events.length : Int)) ∧
              ∃ u, Sub V X now s w cookie r =
                .ok (none, addReceiver { s0 with lastAccessedTime := now } r,
                  { w0 with trace := w0.trace ++ [Effect.OnUpdate r u] })))))) := by
  by_cases hbad : cookie.NodeAddress ≠ s.params.Wallet.Address ∨
      cookie.StreamId ≠ s.streamId ∨ cookie.MinipoolSlot < 0
  · refine Or.inl ⟨hbad, ?_⟩
    unfold Sub
    by_cases h1 : cookie.NodeAddress ≠ s.params.Wallet.Address
    · exact ⟨RiverError ErrCode.Err_BAD_SYNC_COOKIE "cookies is not for this node",
        by simp [h1], rfl⟩
    · by_cases h2 : cookie.StreamId = s.streamId
      · have h3 : cookie.MinipoolSlot < 0 := by
          rcases hbad with h | h | h
          · exact absurd h h1
          · exact absurd h2 h
          · exact h
        refine ⟨(RiverError ErrCode.Err_BAD_SYNC_COOKIE "bad slot").Func "Stream.Sub", ?_, rfl⟩
        simp only [h1, if_false]
        simp [StreamId.EqualsBytes, h2, h3]
      · refine ⟨RiverError ErrCode.Err_BAD_SYNC_COOKIE "bad stream id", ?_, rfl⟩
        have h2' : ¬ s.streamId = cookie.StreamId := fun e => h2 e.symm
        simp only [h1, if_false]
        simp [StreamId.EqualsBytes, h2']
  · refine Or.inr ⟨hbad, ?_⟩
    have hnode : cookie.NodeAddress = s.params.Wallet.Address := by
      by_contra h; exact hbad (Or.inl h)
    have hstream : s.streamId = cookie.StreamId := by
      by_contra h; exact hbad (Or.inr (Or.inl fun e => h e.symm))
    have hslot0 : ¬ cookie.MinipoolSlot < 0 := fun h => hbad (Or.inr (Or.inr h))
    have hsub : Sub V X now s w cookie r =
        match loadInternal V X s w with
        | (some err, s1, w1) => .ok (some err, s1, w1)
        | (none, s1, w1) => subLoaded V now s1 w1 cookie r := by
      simp only [Sub, hnode, ne_eq, not_true_eq_false, if_false, StreamId.EqualsBytes, hstream,
        decide_True, Bool.not_true, Bool.false_eq_true, hslot0]
      try rfl
    have hl := loadInternal_frame V X s w
    rcases hload : loadInternal V X s w with ⟨r0, s0, w0⟩
    rw [hload] at hl hsub
    cases r0 with
    | some err => exact Or.inl ⟨err, s0, w0, rfl, hsub⟩
    | none =>
      obtain ⟨view, hview0⟩ := Option.isSome_iff_exists.1 (hl.loaded rfl)
      have hview : s0.view = some view := hview0
      refine Or.inr ⟨s0, w0, view, rfl, hview, ?_⟩
      simp only at hsub
      rw [hsub]
      by_cases hgen : cookie.MinipoolGen = view.minipool.generation
      · by_cases hslot : cookie.MinipoolSlot ≤ view.minipool.events.length
        · exact Or.inr ⟨fun h => absurd h.2 (not_lt.2 hslot), _,
            subLoaded_same_gen V now s0 w0 cookie r view hview hgen (not_lt.1 hslot0) hslot⟩
        · have h2 : cookie.MinipoolSlot > (view.minipool.events.length : Int) := not_le.1 hslot
          refine Or.inl ⟨hgen, h2, ?_⟩
          simp only [subLoaded, hview, hgen, if_true, h2]
      · refine Or.inr ⟨fun h => hgen h.1, ?_⟩
        cases hidx : V.indexOfMiniblockWithNum view cookie.MinipoolGen with
        | error err =>
          exact ⟨_, subLoaded_miss V now s0 w0 cookie r view err hview hgen hidx⟩
        | ok i =>
          have h3 := hfe view i hidx
          have h4 : V.forEachEvent view i ([] : List Envelope) collectEnvelope =
              ((V.forEachEvent view i ([] : List Envelope) collectEnvelope).1, none) := by
            rw [← h3]
          exact ⟨_, subLoaded_hit V now s0 w0 cookie r view i _ hview hgen hidx h4⟩

/-- The callbacks to `r` over a load: none. -/
theorem LoadFrame.callbacks {s : streamImpl} {w : World σ}
    {out : Option RiverErrorImpl × streamImpl × World σ} (h : LoadFrame s w out)
    (r : SyncResultReceiver) : callbacksTo r out.2.2.trace = callbacksTo r w.trace := by
  obtain ⟨ext, hext, hq⟩ := h.quiet
  rw [hext, callbacksTo_append, callbacksTo_quiet r ext fun x hx => (hq x hx).1]
  simp

theorem callbacksTo_update (r : SyncResultReceiver) (u : StreamAndCookie) :
    callbacksTo r [Effect.OnUpdate r u] = [Effect.OnUpdate r u] := by
  simp [callbacksTo]

end SubCases

section Claims6
variable {σ : Type}

/-- C26: when `forEachEvent` does not fail on an index that was found, `Sub` returns, and it
returns nil exactly when the receiver ends the call registered with exactly one callback
made to it by the call, an `OnUpdate`. It returns an error exactly when the cookie names
another node or stream, has a negative slot, the view fails to load, or the cookie has the
generation of the minipool and a slot past its length; the error is the load error when
the load failed and has code `Err_BAD_SYNC_COOKIE` otherwise. On every error the receiver
set is as before and the receiver got no callback. -/
theorem Sub_succeeds_iff (V : ViewOps) (X : External σ) (now : Int) (s : streamImpl)
    (w : World σ) (cookie : SyncCookie) (r : SyncResultReceiver)
    (hfe : ∀ view i, V.indexOfMiniblockWithNum view cookie.MinipoolGen = .ok i →
      (V.forEachEvent view i ([] : List Envelope) collectEnvelope).2 = none) :
    ∃ res s1 w1, Sub V X now s w cookie r = .ok (res, s1, w1) ∧
      (res = none ↔
        (r ∈ registered s1 ∧
          ∃ u, callbacksTo r w1.trace = callbacksTo r w.trace ++ [Effect.OnUpdate r u])) ∧
      (res ≠ none ↔
        (cookie.NodeAddress ≠ s.params.Wallet.Address ∨ cookie.StreamId ≠ s.streamId ∨
          cookie.MinipoolSlot < 0 ∨ (loadInternal V X s w).1 ≠ none ∨
          ∃ view, (loadInternal V X s w).2.1.view = some view ∧
            cookie.MinipoolGen = view.minipool.generation ∧
            cookie.MinipoolSlot > (view.minipool.events.length : Int))) ∧
      (∀ err, res = some err →
        err.Code = ErrCode.Err_BAD_SYNC_COOKIE ∨ (loadInternal V X s w).1 = some err) ∧
      (res ≠ none →
        s1.receivers = s.receivers ∧ callbacksTo r w1.trace = callbacksTo r w.trace) := by
  have hl := loadInternal_frame V X s w
  rcases Sub_cases V X now s w cookie r hfe with
    ⟨hbad, e, hsub, hcode⟩ | ⟨hgood, hrest⟩
  · refine ⟨some e, s, w, hsub, ?_, ?_, ?_, ?_⟩
    · constructor
      · intro h; cases h
      · rintro ⟨-, u, hu⟩
        have := congrArg List.length hu
        simp at this
    · constructor
      · intro _
        rcases hbad with h | h | h
        · exact Or.inl h
        · exact Or.inr (Or.inl h)
        · exact Or.inr (Or.inr (Or.inl h))
      · intro _; simp
    · intro err herr
      cases herr
      exact Or.inl hcode
    · intro _; exact ⟨rfl, rfl⟩
  · rcases hrest with ⟨err, s0, w0, hload, hsub⟩ | ⟨s0, w0, view, hload, hview, hcase⟩
    · rw [hload] at hl
      refine ⟨some err, s0, w0, hsub, ?_, ?_, ?_, ?_⟩
      · constructor
        · intro h; cases h
        · rintro ⟨-, u, hu⟩
          have hc : callbacksTo r w0.trace = callbacksTo r w.trace := hl.callbacks r
          rw [hc] at hu
          have := congrArg List.length hu
          simp at this
      · constructor
        · intro _
          exact Or.inr (Or.inr (Or.inr (Or.inl (by rw [hload]; simp))))
        · intro _; simp
      · intro err1 herr
        cases herr
        exact Or.inr (by rw [hload])
      · intro _; exact ⟨hl.receivers, hl.callbacks r⟩
    · rw [hload] at hl
      have hc : callbacksTo r w0.trace = callbacksTo r w.trace := hl.callbacks r
      rcases hcase with ⟨hgen, hslot, hsub⟩ | ⟨hok, u, hsub⟩
      · refine ⟨_, _, _, hsub, ?_, ?_, ?_, ?_⟩
        · constructor
          · intro h; cases h
          · rintro ⟨-, u, hu⟩
            rw [hc] at hu
            have := congrArg List.length hu
            simp at this
        · constructor
          · intro _
            refine Or.inr (Or.inr (Or.inr (Or.inr ⟨view, ?_, hgen, hslot⟩)))
            rw [hload]; exact hview
          · intro _; simp
        · intro err1 herr
          cases herr
          exact Or.inl rfl
        · intro _; exact ⟨hl.receivers, hc⟩
      · refine ⟨none, _, _, hsub, ?_, ?_, ?_, ?_⟩
        · constructor
          · intro _
            refine ⟨mem_registered_addReceiver _ r, u, ?_⟩
            simp only [callbacksTo_append, callbacksTo_update, hc]
          · intro _; rfl
        · constructor
          · intro h; exact absurd rfl h
          · intro h
            exfalso
            rcases h with h | h | h | h | ⟨v, hv, hgen, hslot⟩
            · exact hgood (Or.inl h)
            · exact hgood (Or.inr (Or.inl h))
            · exact hgood (Or.inr (Or.inr h))
            · rw [hload] at h; exact h rfl
            · rw [hload] at hv
              have : v = view := by
                have := hv.symm.trans hview
                injection this
              subst this
              exact hok ⟨hgen, hslot⟩
        · intro err herr; cases herr
        · intro h; exact absurd rfl h

/-- An instance for C26, in the concrete instance, where `forEachEvent` of the
specification does not fail on a found index: `Sub` returns for the cookie of an older
generation on the stream with `demoBlock` applied. -/
theorem Sub_succeeds_iff_witness :
    ∃ res s1 w1, Sub demoView memStorage 7 demoApplied demoAppliedWorld (demoCookie 1 1) 13 =
        .ok (res, s1, w1) ∧
      (res = none ↔
        (13 ∈ registered s1 ∧
          ∃ u, callbacksTo 13 w1.trace =
            callbacksTo 13 demoAppliedWorld.trace ++ [Effect.OnUpdate 13 u])) :=
  (Sub_succeeds_iff demoView memStorage 7 demoApplied demoAppliedWorld (demoCookie 1 1) 13
    (fun view i hidx => by
      rw [show demoView = specView byteCodec [7] from rfl,
        specForEachEvent_of_found byteCodec [7] view _ i hidx])).imp
    fun _ h => h.imp fun _ h => h.imp fun _ h => ⟨h.1, h.2.1⟩

end Claims6

/-! ## The loading contract -/

section Claims7
variable {σ : Type}

/-- Go `int(x) - 1` for a `uint64` below `2^63` is the number minus one. -/
theorem wrapInt64_pred_intOfUint64 (x : Nat) (h : x < 2 ^ 63) :
    wrapInt64 (intOfUint64 x - 1) = (x : Int) - 1 := by
  have h1 : x % 2 ^ 64 = x := Nat.mod_eq_of_lt (by omega)
  unfold wrapInt64 intOfUint64
  rw [h1, if_pos h]
  have h2 : (0 : Int) ≤ (x : Int) - 1 + 2 ^ 63 := by omega
  have h3 : (x : Int) - 1 + 2 ^ 63 < 2 ^ 64 := by
    have : (x : Int) < 2 ^ 63 := by exact_mod_cast h
    omega
  rw [Int.emod_eq_of_lt h2 h3]
  ring

/-- C27: `loadInternal` on a loaded stream returns nil and calls nothing. On an unloaded
stream it calls `ReadStreamFromLastSnapshot` with a recency argument `p` that is never
negative and is `max(0, RecencyConstraintsGen - 1)` for a setting that fits a Go `int`;
when that read fails with code `Err_NOT_FOUND` the outcome is that of `initFromBlockchain`
(run after the read); any other read error and any `MakeStreamView` error comes back
unchanged and the stream is untouched; otherwise the view built from the data is set.
Whenever nil is returned the view is loaded. -/
theorem loadInternal_absent_view (V : ViewOps) (X : External σ) (s : streamImpl)
    (w w1 : World σ) (p : Int)
    (hp : p = max 0 (wrapInt64 (intOfUint64 s.params.ChainConfig.RecencyConstraintsGen - 1)))
    (hw1 : w1 = w.emit (X.ReadStreamFromLastSnapshot w.store s.streamId p).2
      (Effect.ReadStreamFromLastSnapshot s.streamId p)) :
    0 ≤ p ∧
    (s.params.ChainConfig.RecencyConstraintsGen < 2 ^ 63 →
      p = max 0 ((s.params.ChainConfig.RecencyConstraintsGen : Int) - 1)) ∧
    (s.view.isSome = true → loadInternal V X s w = (none, s, w)) ∧
    (s.view = none →
      (∀ err, (X.ReadStreamFromLastSnapshot w.store s.streamId p).1 = .error err →
        err.Code = ErrCode.Err_NOT_FOUND →
        loadInternal V X s w = initFromBlockchain V X s w1) ∧
      (∀ err, (X.ReadStreamFromLastSnapshot w.store s.streamId p).1 = .error err →
        err.Code ≠ ErrCode.Err_NOT_FOUND →
        loadInternal V X s w = (some err, s, w1)) ∧
      (∀ data err, (X.ReadStreamFromLastSnapshot w.store s.streamId p).1 = .ok data →
        V.MakeStreamView data = .error err →
        loadInternal V X s w = (some err, s, w1)) ∧
      (∀ data view, (X.ReadStreamFromLastSnapshot w.store s.streamId p).1 = .ok data →
        V.MakeStreamView data = .ok view →
        loadInternal V X s w = (none, { s with view := some view }, w1))) ∧
    ((loadInternal V X s w).1 = none → (loadInternal V X s w).2.1.view.isSome = true) := by
  subst hp hw1
  refine ⟨le_max_left _ _, ?_, ?_, ?_, (loadInternal_frame V X s w).loaded⟩
  · intro hlt
    rw [wrapInt64_pred_intOfUint64 _ hlt]
  · intro hsome
    simp [loadInternal, hsome]
  · intro hnone
    refine ⟨?_, ?_, ?_, ?_⟩
    · intro err hrd hcode
      simp [loadInternal, hnone, hrd, AsRiverError, hcode]
    · intro err hrd hcode
      simp [loadInternal, hnone, hrd, AsRiverError, hcode]
    · intro data err hrd hmk
      simp [loadInternal, hnone, hrd, hmk]
    · intro data view hrd hmk
      simp [loadInternal, hnone, hrd, hmk]

/-- An instance for C27, on the unloaded stream with `RecencyConstraintsGen = 5`: the read
asks for 4 preceding blocks and the view built from the stored data is set. -/
theorem loadInternal_absent_view_witness :
    loadInternal demoView memStorage demoUnloaded (demoWorld demoStore) =
      (none, { demoUnloaded with view := some demoGenesisView },
        { store := demoStore, trace := [Effect.ReadStreamFromLastSnapshot [7] 4] }) :=
  ((loadInternal_absent_view demoView memStorage demoUnloaded (demoWorld demoStore)
    { store := demoStore, trace := [Effect.ReadStreamFromLastSnapshot [7] 4] } 4
    (by decide) rfl).2.2.2.1 rfl).2.2.2 (demoStreamData []) demoGenesisView rfl rfl

/-- C28: `initFromBlockchain` asks the registry for the record and the genesis miniblock. A
registry error comes back unchanged; a record whose nodes do not contain the local node,
or whose last miniblock number is above 0, gives an `Err_INTERNAL` error; in these cases
nothing else is called, so `CreateStreamStorage` is not. Otherwise storage is created with
the genesis miniblock: its error comes back unchanged, as does a `MakeStreamView` error,
and on success the view is the one built from that single miniblock with start miniblock
number 0 and no minipool. On every error the view is as before; the view changes only on
that last path. -/
theorem initFromBlockchain_guarded (V : ViewOps) (X : External σ) (s : streamImpl)
    (w w1 : World σ)
    (hw1 : w1 = w.emit (X.GetStreamWithGenesis w.store s.streamId).2
      (Effect.GetStreamWithGenesis s.streamId)) :
    (∀ err, (X.GetStreamWithGenesis w.store s.streamId).1 = .error err →
      initFromBlockchain V X s w = (some err, s, w1)) ∧
    (∀ record h mb, (X.GetStreamWithGenesis w.store s.streamId).1 = .ok (record, h, mb) →
      (s.params.Wallet.Address ∉ record.Nodes →
        ∃ e, e.Code = ErrCode.Err_INTERNAL ∧ initFromBlockchain V X s w = (some e, s, w1)) ∧
      (s.params.Wallet.Address ∈ record.Nodes → record.LastMiniblockNum > 0 →
        ∃ e, e.Code = ErrCode.Err_INTERNAL ∧
          initFromBlockchain V X s w =
            (some e, { s with nodes := some (NewStreamNodes record.Nodes s.params.Wallet.Address) },
              w1)) ∧
      (s.params.Wallet.Address ∈ record.Nodes → record.LastMiniblockNum = 0 →
        ∀ w2, w2 = w1.emit (X.CreateStreamStorage w1.store s.streamId mb).2
            (Effect.CreateStreamStorage s.streamId mb) →
          (∀ err, (X.CreateStreamStorage w1.store s.streamId mb).1 = some err →
            initFromBlockchain V X s w =
              (some err,
                { s with nodes := some (NewStreamNodes record.Nodes s.params.Wallet.Address) },
                w2)) ∧
          ((X.CreateStreamStorage w1.store s.streamId mb).1 = none →
            (∀ err, V.MakeStreamView
                { StartMiniblockNumber := 0, Miniblocks := [mb], MinipoolEnvelopes := [] } =
                  .error err →
              initFromBlockchain V X s w =
                (some err,
                  { s with nodes := some (NewStreamNodes record.Nodes s.params.Wallet.Address) },
                  w2)) ∧
            (∀ view, V.MakeStreamView
                { StartMiniblockNumber := 0, Miniblocks := [mb], MinipoolEnvelopes := [] } =
                  .ok view →
              initFromBlockchain V X s w =
                (none,
                  { s with
                    nodes := some (NewStreamNodes record.Nodes s.params.Wallet.Address)
                    view := some view },
                  w2))))) ∧
    ((initFromBlockchain V X s w).1 ≠ none → (initFromBlockchain V X s w).2.1.view = s.view) ∧
    ((initFromBlockchain V X s w).2.1.view ≠ s.view →
      ∃ record h mb view,
        (X.GetStreamWithGenesis w.store s.streamId).1 = .ok (record, h, mb) ∧
        s.params.Wallet.Address ∈ record.Nodes ∧ record.LastMiniblockNum = 0 ∧
        (X.CreateStreamStorage w1.store s.streamId mb).1 = none ∧
        V.MakeStreamView
          { StartMiniblockNumber := 0, Miniblocks := [mb], MinipoolEnvelopes := [] } = .ok view ∧
        (initFromBlockchain V X s w).2.1.view = some view) := by
  subst hw1
  refine ⟨?_, ?_, (initFromBlockchain_frame V X s w).failed, ?_⟩
  · intro err hrd
    simp [initFromBlockchain, hrd]
  · intro record h mb hrd
    refine ⟨?_, ?_, ?_⟩
    · intro hloc
      refine ⟨RiverError ErrCode.Err_INTERNAL "initFromBlockchain: Stream is not local", rfl, ?_⟩
      simp [initFromBlockchain, hrd, StreamNodes.IsLocal, NewStreamNodes, hloc]
    · intro hloc hpast
      refine ⟨RiverError ErrCode.Err_INTERNAL "initFromBlockchain: Stream is past genesis", rfl,
        ?_⟩
      simp [initFromBlockchain, hrd, StreamNodes.IsLocal, NewStreamNodes, hloc, hpast]
    · intro hloc hgen w2 hw2
      subst hw2
      refine ⟨?_, ?_⟩
      · intro err hcr
        simp only [World.emit] at hcr
        simp [initFromBlockchain, hrd, StreamNodes.IsLocal, NewStreamNodes, hloc, hgen,
          World.emit, hcr]
      · intro hcr
        simp only [World.emit] at hcr
        refine ⟨?_, ?_⟩
        · intro err hmk
          simp [initFromBlockchain, hrd, StreamNodes.IsLocal, NewStreamNodes, hloc, hgen,
            World.emit, hcr, hmk]
        · intro view hmk
          simp [initFromBlockchain, hrd, StreamNodes.IsLocal, NewStreamNodes, hloc, hgen,
            World.emit, hcr, hmk]
  · intro hchanged
    cases hrd : (X.GetStreamWithGenesis w.store s.streamId).1 with
    | error err =>
      exfalso; apply hchanged
      simp [initFromBlockchain, hrd]
    | ok val =>
      obtain ⟨record, h, mb⟩ := val
      by_cases hloc : s.params.Wallet.Address ∈ record.Nodes
      · by_cases hgen : record.LastMiniblockNum = 0
        · cases hcr : (X.CreateStreamStorage (w.emit (X.GetStreamWithGenesis w.store s.streamId).2
              (Effect.GetStreamWithGenesis s.streamId)).store s.streamId mb).1 with
          | some err =>
            exfalso; apply hchanged
            simp only [World.emit] at hcr
            simp [initFromBlockchain, hrd, StreamNodes.IsLocal, NewStreamNodes, hloc, hgen,
              World.emit, hcr]
          | none =>
            cases hmk : V.MakeStreamView
                { StartMiniblockNumber := 0, Miniblocks := [mb], MinipoolEnvelopes := [] } with
            | error err =>
              exfalso; apply hchanged
              simp only [World.emit] at hcr
              simp [initFromBlockchain, hrd, StreamNodes.IsLocal, NewStreamNodes, hloc, hgen,
                World.emit, hcr, hmk]
            | ok view =>
              refine ⟨record, h, mb, view, rfl, hloc, hgen, hcr, hmk, ?_⟩
              simp only [World.emit] at hcr
              simp [initFromBlockchain, hrd, StreamNodes.IsLocal, NewStreamNodes, hloc, hgen,
                World.emit, hcr, hmk]
        · exfalso; apply hchanged
          have hpast : record.LastMiniblockNum > 0 := Nat.pos_of_ne_zero hgen
          simp [initFromBlockchain, hrd, StreamNodes.IsLocal, NewStreamNodes, hloc, hpast]
      · exfalso; apply hchanged
        simp [initFromBlockchain, hrd, StreamNodes.IsLocal, NewStreamNodes, hloc]

/-- An instance for C28, on the unloaded stream with a registry that has the stream at
genesis on this node: storage is created with the genesis block and the view at genesis is
set. -/
theorem initFromBlockchain_guarded_witness :
    initFromBlockchain demoView demoChain demoUnloaded (demoWorld demoStoreEmpty) =
      (none, demoCreated,
        { store := demoStore,
          trace := [Effect.GetStreamWithGenesis [7],
            Effect.CreateStreamStorage [7] [0, 100, 0, 1]] }) :=
  ((((initFromBlockchain_guarded demoView demoChain demoUnloaded (demoWorld demoStoreEmpty)
    { store := demoStoreEmpty, trace := [Effect.GetStreamWithGenesis [7]] } rfl).2.1
      { Nodes := [[8], [9]], LastMiniblockNum := 0 } [100] [0, 100, 0, 1] rfl).2.2
      (by decide) rfl
      { store := demoStore,
        trace := [Effect.GetStreamWithGenesis [7],
          Effect.CreateStreamStorage [7] [0, 100, 0, 1]] } rfl).2 rfl).2 demoGenesisView rfl

end Claims7

end River
